import Mathlib

/-!
# SpeechRecognition session core

A shallow embedding of `content/media/webspeech/recognition/SpeechRecognition.cpp`:
the sample rechunker (`FillSamplesBuffer`, `SplitSamplesBuffer`, `FeedAudioData`),
the session state machine (`Transition` and its handlers) and the event entry
points (`Start`, `Stop`, `Abort`, `ProcessEvent`).

Conventions of the embedding:
* `uint32_t` values are natural numbers, reduced modulo `2 ^ 32` after every
  addition or subtraction the source performs on them;
* a pointer that can be null where the source uses it (`mRecognitionService`,
  `mAudioSamplesBuffer`, `mDOMStream`) is an `Option`; dereferencing it while null
  is a `Fault`;
* every externally visible action is appended to `World.trace`, so the order of
  actions inside one handler can be stated;
* DOM event listeners are a parameter (`Env.observer`): they run synchronously
  inside `DispatchTrustedEvent` / `DispatchEvent` and may change the world.
-/

namespace SpeechRecognition

/-- Modulus of `uint32_t` arithmetic. -/
def UINT32_MOD : Nat := 2 ^ 32

/-- Ways in which a run of the code does not return normally. -/
inductive Fault where
  /-- Modelled from the spec: `MOZ_NOT_REACHED` (its header is not part of the
  sources) is fatal; an invalid transition must trap rather than continue. -/
  | notReached
  /-- A `MOZ_ASSERT` failed. -/
  | assertion
  /-- A null pointer was dereferenced. -/
  | nullDeref
  /-- The loop bound of the model was exhausted (the loop had not finished). -/
  | outOfFuel
  deriving DecidableEq, Repr

/-- The states of the session, in the order of the `names` table of
`GetName(FSMState)`; `STATE_COUNT` closes the enumeration. -/
inductive FSMState where
  | STATE_IDLE
  | STATE_STARTING
  | STATE_ESTIMATING
  | STATE_WAITING_FOR_SPEECH
  | STATE_RECOGNIZING
  | STATE_WAITING_FOR_RESULT
  | STATE_ABORTING
  | STATE_COUNT
  deriving DecidableEq, Repr

/-- Numeric value of a state (its position in the enumeration). -/
def FSMState.toNat : FSMState → Nat
  | .STATE_IDLE => 0
  | .STATE_STARTING => 1
  | .STATE_ESTIMATING => 2
  | .STATE_WAITING_FOR_SPEECH => 3
  | .STATE_RECOGNIZING => 4
  | .STATE_WAITING_FOR_RESULT => 5
  | .STATE_ABORTING => 6
  | .STATE_COUNT => 7

/-- The event types, in the order of the `names` table of
`GetName(SpeechEvent*)`; `EVENT_COUNT` closes the enumeration. -/
inductive EventType where
  | EVENT_START
  | EVENT_STOP
  | EVENT_ABORT
  | EVENT_AUDIO_DATA
  | EVENT_AUDIO_ERROR
  | EVENT_RECOGNITIONSERVICE_INTERMEDIATE_RESULT
  | EVENT_RECOGNITIONSERVICE_FINAL_RESULT
  | EVENT_RECOGNITIONSERVICE_ERROR
  | EVENT_COUNT
  deriving DecidableEq, Repr

/-- A `SharedBuffer` of 16-bit samples. -/
abbrev SharedBuffer := List Int

/-- One chunk of an `AudioSegment`: the buffer and the duration it was appended with. -/
structure AudioChunk where
  mBuffer : SharedBuffer
  mDuration : Nat
  deriving DecidableEq, Repr

/-- An `AudioSegment`: its chunks in append order. -/
abbrev AudioSegment := List AudioChunk

/-- The error codes of `nsIDOMSpeechRecognitionError` that the session uses; their
numeric values are declared outside the sources, `other` stands for the codes a
recognition service reports. -/
inductive ErrorCode where
  | NO_SPEECH
  | AUDIO_CAPTURE
  | NOT_ALLOWED
  | other (code : Nat)
  deriving DecidableEq, Repr

/-- The payload of an `error` DOM event (`nsIDOMSpeechRecognitionError`). -/
structure SpeechRecognitionError where
  code : ErrorCode
  message : String
  deriving DecidableEq, Repr

/-- A `SpeechEvent`: its type and the payloads the handlers read. A payload that an
event does not carry holds the default value; no handler reads it. -/
structure SpeechEvent where
  mType : EventType
  mAudioSegment : AudioSegment := []
  mError : SpeechRecognitionError := ⟨.other 0, ""⟩
  mRecognitionResultList : List String := []
  mProvider : Option Nat := none
  deriving DecidableEq, Repr

/-- Mode of the endpoint detector. -/
inductive EndpointerMode where
  | unset
  | environmentEstimation
  | userInput
  deriving DecidableEq, Repr

/-- Modelled from the spec: the Endpoint Detector (`endpointer.h` is not part of the
sources) as the stateful oracle of the spec: its mode, whether a session is open and
the frames it has been given, in order. -/
structure Endpointer where
  mode : EndpointerMode := .unset
  inSession : Bool := false
  frames : List AudioChunk := []
  deriving DecidableEq, Repr

/-- A DOM event delivered to the page. -/
inductive Notification where
  /-- `DispatchTrustedEvent(name)`. -/
  | trusted (name : String)
  /-- The `result` event built by `NotifyFinalResult`, with its result list. -/
  | result (rlist : List String)
  /-- The `error` event carried by a `SpeechEvent` (`NotifyError`). -/
  | error (err : SpeechRecognitionError)
  deriving DecidableEq, Repr

/-- Externally visible actions, recorded in order. -/
inductive Effect where
  /-- `SetState(state)`. -/
  | setState (state : FSMState)
  /-- A DOM event was dispatched. -/
  | notify (n : Notification)
  /-- `mRecognitionService->Initialize`. -/
  | serviceInit
  /-- `mRecognitionService->ProcessAudioSegment(segment)`. -/
  | serviceProcessAudioSegment (segment : AudioSegment)
  /-- `mRecognitionService->SoundEnd()`. -/
  | serviceSoundEnd
  /-- `mRecognitionService->Abort()`. -/
  | serviceAbort
  /-- `mSpeechDetectionTimer->Init(...)`. -/
  | timerInit
  /-- `mSpeechDetectionTimer->Cancel()`. -/
  | timerCancel
  /-- `AddListener(mSpeechListener)` on the captured stream. -/
  | addListener
  /-- `RemoveListener(mSpeechListener)` on the captured stream. -/
  | removeListener
  /-- `MediaManager::GetUserMedia(...)`. -/
  | getUserMedia
  /-- `aRv.Throw(NS_ERROR_DOM_INVALID_STATE_ERR)`. -/
  | throwInvalidState
  /-- `obs->RemoveObserver(this, topic)` for the two test topics. -/
  | removeObservers
  deriving DecidableEq, Repr

/-- A media stream handed to the session; `hasStream` tells whether `GetStream()`
is non-null. -/
structure DOMMediaStream where
  hasStream : Bool
  deriving DecidableEq, Repr

/-- The fields of a `SpeechRecognition` object that the modelled code reads or writes. -/
structure Session where
  mCurrentState : FSMState := .STATE_IDLE
  mRecognitionService : Option String := none
  mEstimationSamples : Nat := 0
  mBufferedSamples : Nat := 0
  mAudioSamplesBuffer : Option SharedBuffer := none
  mAudioSamplesPerChunk : Nat
  /-- Whether `mSpeechDetectionTimer` is armed. -/
  mSpeechDetectionTimer : Bool := false
  mEndpointer : Endpointer := {}
  /-- The stream held in `mDOMStream` from `StartRecording` to `StopRecording`;
  `none` is the null pointer. -/
  mDOMStream : Option DOMMediaStream := none
  mPriorityEvents : List SpeechEvent := []
  deriving DecidableEq, Repr

/-- The session together with the main-thread event queue
(`NS_DispatchToMainThread`) and the record of visible actions. -/
structure World where
  sr : Session
  trace : List Effect := []
  queue : List SpeechEvent := []
  deriving DecidableEq, Repr

/-- What surrounds the session: the page's event listeners, the detector's
verdicts, the service lookup and the test configuration. -/
structure Env where
  /-- The page's listeners: run synchronously while a DOM event is dispatched. -/
  observer : Notification → World → World
  /-- `mEndpointer.DidStartReceivingSpeech()`. -/
  DidStartReceivingSpeech : Endpointer → Bool
  /-- `mEndpointer.speech_input_complete()`. -/
  speech_input_complete : Endpointer → Bool
  /-- `do_GetService(cid, &rv)`: the service for a contract id, if any. -/
  do_GetService : String → Option String
  /-- Whether `mRecognitionService->Initialize` succeeds. -/
  initializeOk : Bool
  /-- `mTestConfig.mFakeFSMEvents`. -/
  mFakeFSMEvents : Bool
  /-- `mTestConfig.mFakeRecognitionService`. -/
  mFakeRecognitionService : Bool
  /-- Value of the preference `media.webspeech.service.default` (empty when unset). -/
  prefDefaultService : String
  /-- The macro `NS_SPEECH_RECOGNITION_SERVICE_CONTRACTID_PREFIX`, declared outside
  the sources. -/
  contractIdPrefix : String

/-! ## Sample rechunker -/

/-- `FillSamplesBuffer(aSamples, aSampleCount)`: copy up to the free room of the
retained buffer; returns the updated session and the number of samples copied. -/
def FillSamplesBuffer (sr : Session) (aSamples : List Int) (aSampleCount : Nat) :
    Except Fault (Session × Nat) :=
  if ¬ (sr.mBufferedSamples < sr.mAudioSamplesPerChunk) then .error .assertion
  else
    match sr.mAudioSamplesBuffer with
    | none => .error .assertion
    | some samplesBuffer =>
      -- the subtraction cannot wrap: the assertion above gives mBufferedSamples < F
      let samplesToCopy :=
        min aSampleCount ((sr.mAudioSamplesPerChunk - sr.mBufferedSamples) % UINT32_MOD)
      -- memcpy(samplesBuffer + mBufferedSamples, aSamples, samplesToCopy)
      let filled :=
        samplesBuffer.take sr.mBufferedSamples ++ aSamples.take samplesToCopy ++
          samplesBuffer.drop (sr.mBufferedSamples + samplesToCopy)
      .ok ({ sr with
              mAudioSamplesBuffer := some filled
              mBufferedSamples := (sr.mBufferedSamples + samplesToCopy) % UINT32_MOD },
           samplesToCopy)

/-- The `while` loop of `SplitSamplesBuffer`; `fuel` bounds the number of
iterations of the model. -/
def SplitSamplesBufferLoop (F : Nat) (aSamplesBuffer : List Int) (aSampleCount : Nat) :
    Nat → Nat → List SharedBuffer → Except Fault (List SharedBuffer × Nat)
  | 0, _, _ => .error .outOfFuel
  | fuel + 1, chunkStart, aResult =>
    if (chunkStart + F) % UINT32_MOD ≤ aSampleCount then
      -- memcpy(chunk->Data(), aSamplesBuffer + chunkStart, F)
      let chunk := (aSamplesBuffer.drop chunkStart).take F
      SplitSamplesBufferLoop F aSamplesBuffer aSampleCount fuel
        ((chunkStart + F) % UINT32_MOD) (aResult ++ [chunk])
    else .ok (aResult, chunkStart)

/-- `SplitSamplesBuffer(aSamplesBuffer, aSampleCount, aResult)`: appends the
chunks to `aResult` and returns it with the offset of the end of the last chunk. -/
def SplitSamplesBuffer (fuel : Nat) (sr : Session) (aSamplesBuffer : List Int)
    (aSampleCount : Nat) (aResult : List SharedBuffer) :
    Except Fault (List SharedBuffer × Nat) :=
  SplitSamplesBufferLoop sr.mAudioSamplesPerChunk aSamplesBuffer aSampleCount fuel 0 aResult

/-- `CreateAudioSegment(aChunks)`: every chunk is appended with duration
`mAudioSamplesPerChunk`. -/
def CreateAudioSegment (sr : Session) (aChunks : List SharedBuffer) : AudioSegment :=
  aChunks.map (fun c => { mBuffer := c, mDuration := sr.mAudioSamplesPerChunk })

/-- First block of `FeedAudioData`: top off the retained buffer and, when it is
full, move it to the chunks to send. Returns session, `samplesIndex`, chunks. -/
def FeedAudioData.topOff (sr : Session) (aSamples : List Int) (aDuration : Nat) :
    Except Fault (Session × Nat × List SharedBuffer) :=
  if 0 < sr.mBufferedSamples then
    match FillSamplesBuffer sr aSamples aDuration with
    | .error f => .error f
    | .ok (sr1, copied) =>
      if sr1.mBufferedSamples = sr1.mAudioSamplesPerChunk then
        match sr1.mAudioSamplesBuffer with
        | none => .error .nullDeref
        | some buf =>
          -- chunksToSend.AppendElement(mAudioSamplesBuffer.forget())
          .ok ({ sr1 with mAudioSamplesBuffer := none, mBufferedSamples := 0 },
               copied % UINT32_MOD, [buf])
      else .ok (sr1, copied % UINT32_MOD, [])
  else .ok (sr, 0, [])

/-- Second block of `FeedAudioData`: split what is left of the input into chunks. -/
def FeedAudioData.split (fuel : Nat) (sr : Session) (aSamples : List Int) (aDuration : Nat)
    (samplesIndex : Nat) (chunksToSend : List SharedBuffer) :
    Except Fault (Nat × List SharedBuffer) :=
  if samplesIndex < aDuration then
    match SplitSamplesBuffer fuel sr (aSamples.drop samplesIndex)
        ((aDuration - samplesIndex) % UINT32_MOD) chunksToSend with
    | .error f => .error f
    | .ok (chunks, offset) => .ok ((samplesIndex + offset) % UINT32_MOD, chunks)
  else .ok (samplesIndex, chunksToSend)

/-- Third block of `FeedAudioData`: retain the remaining samples in a fresh buffer. -/
def FeedAudioData.retain (sr : Session) (aSamples : List Int) (aDuration : Nat)
    (samplesIndex : Nat) : Except Fault Session :=
  if samplesIndex < aDuration then
    -- SharedBuffer::Create(mAudioSamplesPerChunk * sizeof(int16_t))
    let fresh : Session :=
      { sr with
        mBufferedSamples := 0
        mAudioSamplesBuffer := some (List.replicate sr.mAudioSamplesPerChunk 0) }
    match FillSamplesBuffer fresh (aSamples.drop samplesIndex)
        ((aDuration - samplesIndex) % UINT32_MOD) with
    | .error f => .error f
    | .ok (sr1, _) => .ok sr1
  else .ok sr

/-- `FeedAudioData(aSamples, aDuration, aProvider)`: rechunk the input and post one
`EVENT_AUDIO_DATA` event carrying the completed chunks. -/
def FeedAudioData (fuel : Nat) (aSamples : List Int) (aDuration : Nat)
    (aProvider : Option Nat) (w : World) : Except Fault World :=
  match FeedAudioData.topOff w.sr aSamples aDuration with
  | .error f => .error f
  | .ok (sr1, samplesIndex1, chunks1) =>
    match FeedAudioData.split fuel sr1 aSamples aDuration samplesIndex1 chunks1 with
    | .error f => .error f
    | .ok (samplesIndex2, chunksToSend) =>
      match FeedAudioData.retain sr1 aSamples aDuration samplesIndex2 with
      | .error f => .error f
      | .ok sr3 =>
        let event : SpeechEvent :=
          { mType := .EVENT_AUDIO_DATA
            mAudioSegment := CreateAudioSegment sr3 chunksToSend
            mProvider := aProvider }
        .ok { w with sr := sr3, queue := w.queue ++ [event] }

/-! ## Session state machine -/

/-- `kSAMPLE_RATE`: samples per second. -/
def kSAMPLE_RATE : Nat := 16000

/-- `kESTIMATION_SAMPLES`: number of samples (300ms of audio) sent to the detector
while it estimates the environment. -/
def kESTIMATION_SAMPLES : Nat := 300 * kSAMPLE_RATE / 1000

/-- `StateBetween(begin, end)`. -/
def StateBetween (sr : Session) (first last : FSMState) : Bool :=
  decide (first.toNat ≤ sr.mCurrentState.toNat) && decide (sr.mCurrentState.toNat ≤ last.toNat)

/-- `SetState(state)`. -/
def SetState (state : FSMState) (w : World) : World :=
  { w with
    sr := { w.sr with mCurrentState := state }
    trace := w.trace ++ [.setState state] }

/-- Delivery of a DOM event: it is recorded, then the page's listeners run. -/
def DispatchEvent (env : Env) (n : Notification) (w : World) : World :=
  env.observer n { w with trace := w.trace ++ [.notify n] }

/-- `DispatchTrustedEvent(name)`. -/
def DispatchTrustedEvent (env : Env) (name : String) (w : World) : World :=
  DispatchEvent env (.trusted name) w

/-- `mSpeechDetectionTimer->Cancel()`. -/
def CancelTimer (w : World) : World :=
  { w with
    sr := { w.sr with mSpeechDetectionTimer := false }
    trace := w.trace ++ [.timerCancel] }

/-- `ProcessAudioSegment(aSegment)`: every chunk goes to the detector, the whole
segment goes to the service; returns the number of samples processed. -/
def ProcessAudioSegment (aSegment : AudioSegment) (w : World) : Except Fault (World × Nat) :=
  let endpointer : Endpointer :=
    { w.sr.mEndpointer with frames := w.sr.mEndpointer.frames ++ aSegment }
  let samples := aSegment.foldl (fun acc c => (acc + c.mDuration) % UINT32_MOD) 0
  match w.sr.mRecognitionService with
  | none => .error .nullDeref
  | some _ =>
    .ok ({ w with
            sr := { w.sr with mEndpointer := endpointer }
            trace := w.trace ++ [.serviceProcessAudioSegment aSegment] },
         samples)

/-- `Reset()`. -/
def Reset (w : World) : World :=
  let w1 := SetState .STATE_IDLE w
  CancelTimer
    { w1 with
      sr := { w1.sr with
              mRecognitionService := none
              mEstimationSamples := 0
              mBufferedSamples := 0 } }

/-- `ResetAndEnd()`. -/
def ResetAndEnd (env : Env) (w : World) : World :=
  DispatchTrustedEvent env "end" (Reset w)

/-- `WaitForAudioData(aEvent)`. -/
def WaitForAudioData (_aEvent : SpeechEvent) (w : World) : World :=
  SetState .STATE_STARTING w

/-- `StartedAudioCapture(aEvent)`. -/
def StartedAudioCapture (env : Env) (aEvent : SpeechEvent) (w : World) : Except Fault World :=
  let w1 := SetState .STATE_ESTIMATING w
  let w2 : World :=
    { w1 with sr := { w1.sr with
        mEndpointer := { w1.sr.mEndpointer with mode := .environmentEstimation } } }
  match ProcessAudioSegment aEvent.mAudioSegment w2 with
  | .error f => .error f
  | .ok (w3, samples) =>
    let w4 : World :=
      { w3 with sr := { w3.sr with
          mEstimationSamples := (w3.sr.mEstimationSamples + samples) % UINT32_MOD } }
    let w5 := DispatchTrustedEvent env "audiostart" w4
    if w5.sr.mCurrentState = .STATE_ESTIMATING then
      .ok (DispatchTrustedEvent env "start" w5)
    else .ok w5

/-- `StopRecording()`. Its first statement,
`mDOMStream->GetStream()->RemoveListener(mSpeechListener)`, dereferences `mDOMStream`
and the stream under it. -/
def StopRecording (env : Env) (w : World) : Except Fault World :=
  match w.sr.mDOMStream with
  | none => .error .nullDeref
  | some stream =>
    if ¬ stream.hasStream then .error .nullDeref
    else
      let w1 : World :=
        { w with
          sr := { w.sr with
                  mDOMStream := none
                  mEndpointer := { w.sr.mEndpointer with inSession := false } }
          trace := w.trace ++ [.removeListener] }
      .ok (DispatchTrustedEvent env "audioend" w1)

/-- `StopRecordingAndRecognize(aEvent)`. -/
def StopRecordingAndRecognize (env : Env) (_aEvent : SpeechEvent) (w : World) :
    Except Fault World :=
  let w1 := SetState .STATE_WAITING_FOR_RESULT w
  match w1.sr.mRecognitionService with
  | none => .error .assertion
  | some _ => StopRecording env { w1 with trace := w1.trace ++ [.serviceSoundEnd] }

/-- `WaitForEstimation(aEvent)`. -/
def WaitForEstimation (aEvent : SpeechEvent) (w : World) : Except Fault World :=
  let w1 := SetState .STATE_ESTIMATING w
  match ProcessAudioSegment aEvent.mAudioSegment w1 with
  | .error f => .error f
  | .ok (w2, samples) =>
    let w3 : World :=
      { w2 with sr := { w2.sr with
          mEstimationSamples := (w2.sr.mEstimationSamples + samples) % UINT32_MOD } }
    if kESTIMATION_SAMPLES < w3.sr.mEstimationSamples then
      .ok (SetState .STATE_WAITING_FOR_SPEECH
            { w3 with sr := { w3.sr with
                mEndpointer := { w3.sr.mEndpointer with mode := .userInput } } })
    else .ok w3

/-- `DetectSpeech(aEvent)`. -/
def DetectSpeech (env : Env) (aEvent : SpeechEvent) (w : World) : Except Fault World :=
  let w1 := SetState .STATE_WAITING_FOR_SPEECH w
  match ProcessAudioSegment aEvent.mAudioSegment w1 with
  | .error f => .error f
  | .ok (w2, _) =>
    if env.DidStartReceivingSpeech w2.sr.mEndpointer then
      .ok (DispatchTrustedEvent env "speechstart"
            (SetState .STATE_RECOGNIZING (CancelTimer w2)))
    else .ok w2

/-- `WaitForSpeechEnd(aEvent)`. -/
def WaitForSpeechEnd (env : Env) (aEvent : SpeechEvent) (w : World) : Except Fault World :=
  let w1 := SetState .STATE_RECOGNIZING w
  match ProcessAudioSegment aEvent.mAudioSegment w1 with
  | .error f => .error f
  | .ok (w2, _) =>
    if env.speech_input_complete w2.sr.mEndpointer then
      let w3 := DispatchTrustedEvent env "speechend" w2
      if w3.sr.mCurrentState = .STATE_RECOGNIZING then
        StopRecordingAndRecognize env aEvent w3
      else .ok w3
    else .ok w2

/-- `NotifyFinalResult(aEvent)`. -/
def NotifyFinalResult (env : Env) (aEvent : SpeechEvent) (w : World) : World :=
  DispatchEvent env (.result aEvent.mRecognitionResultList) (ResetAndEnd env w)

/-- `DoNothing(aEvent)`. -/
def DoNothing (_aEvent : SpeechEvent) (w : World) : World := w

/-- `AbortSilently(aEvent)`. -/
def AbortSilently (env : Env) (_aEvent : SpeechEvent) (w : World) : Except Fault World :=
  let stopRecording := StateBetween w.sr .STATE_ESTIMATING .STATE_RECOGNIZING
  let w1 := SetState .STATE_ABORTING w
  let w2 : World :=
    match w1.sr.mRecognitionService with
    | some _ => { w1 with trace := w1.trace ++ [.serviceAbort] }
    | none => w1
  if stopRecording then
    match StopRecording env w2 with
    | .error f => .error f
    | .ok w3 => .ok (ResetAndEnd env w3)
  else .ok (ResetAndEnd env w2)

/-- `NotifyError(aEvent)`. -/
def NotifyError (env : Env) (aEvent : SpeechEvent) (w : World) : World :=
  DispatchEvent env (.error aEvent.mError) w

/-- `AbortError(aEvent)`. -/
def AbortError (env : Env) (aEvent : SpeechEvent) (w : World) : Except Fault World :=
  match AbortSilently env aEvent w with
  | .error f => .error f
  | .ok w1 => .ok (NotifyError env aEvent w1)

/-- `Transition(aEvent)`: the transition table of the session. -/
def Transition (env : Env) (aEvent : SpeechEvent) (w : World) : Except Fault World :=
  match w.sr.mCurrentState with
  | .STATE_IDLE =>
    match aEvent.mType with
    | .EVENT_START => .ok (WaitForAudioData aEvent w)
    | .EVENT_STOP
    | .EVENT_ABORT
    | .EVENT_AUDIO_DATA
    | .EVENT_RECOGNITIONSERVICE_INTERMEDIATE_RESULT
    | .EVENT_RECOGNITIONSERVICE_FINAL_RESULT => .ok (DoNothing aEvent w)
    | .EVENT_AUDIO_ERROR
    | .EVENT_RECOGNITIONSERVICE_ERROR => AbortError env aEvent w
    | .EVENT_COUNT => .error .notReached
  | .STATE_STARTING =>
    match aEvent.mType with
    | .EVENT_AUDIO_DATA => StartedAudioCapture env aEvent w
    | .EVENT_AUDIO_ERROR
    | .EVENT_RECOGNITIONSERVICE_ERROR => AbortError env aEvent w
    | .EVENT_ABORT => AbortSilently env aEvent w
    | .EVENT_STOP => .ok (Reset w)
    | .EVENT_RECOGNITIONSERVICE_INTERMEDIATE_RESULT
    | .EVENT_RECOGNITIONSERVICE_FINAL_RESULT => .ok (DoNothing aEvent w)
    | .EVENT_START => .error .notReached
    | .EVENT_COUNT => .error .notReached
  | .STATE_ESTIMATING =>
    match aEvent.mType with
    | .EVENT_AUDIO_DATA => WaitForEstimation aEvent w
    | .EVENT_STOP => StopRecordingAndRecognize env aEvent w
    | .EVENT_ABORT => AbortSilently env aEvent w
    | .EVENT_RECOGNITIONSERVICE_INTERMEDIATE_RESULT
    | .EVENT_RECOGNITIONSERVICE_FINAL_RESULT
    | .EVENT_RECOGNITIONSERVICE_ERROR => .ok (DoNothing aEvent w)
    | .EVENT_AUDIO_ERROR => AbortError env aEvent w
    | .EVENT_START => .error .notReached
    | .EVENT_COUNT => .error .notReached
  | .STATE_WAITING_FOR_SPEECH =>
    match aEvent.mType with
    | .EVENT_AUDIO_DATA => DetectSpeech env aEvent w
    | .EVENT_STOP => StopRecordingAndRecognize env aEvent w
    | .EVENT_ABORT => AbortSilently env aEvent w
    | .EVENT_AUDIO_ERROR => AbortError env aEvent w
    | .EVENT_RECOGNITIONSERVICE_INTERMEDIATE_RESULT
    | .EVENT_RECOGNITIONSERVICE_FINAL_RESULT
    | .EVENT_RECOGNITIONSERVICE_ERROR => .ok (DoNothing aEvent w)
    | .EVENT_START => .error .notReached
    | .EVENT_COUNT => .error .notReached
  | .STATE_RECOGNIZING =>
    match aEvent.mType with
    | .EVENT_AUDIO_DATA => WaitForSpeechEnd env aEvent w
    | .EVENT_STOP => StopRecordingAndRecognize env aEvent w
    | .EVENT_AUDIO_ERROR
    | .EVENT_RECOGNITIONSERVICE_ERROR => AbortError env aEvent w
    | .EVENT_ABORT => AbortSilently env aEvent w
    | .EVENT_RECOGNITIONSERVICE_FINAL_RESULT
    | .EVENT_RECOGNITIONSERVICE_INTERMEDIATE_RESULT => .ok (DoNothing aEvent w)
    | .EVENT_START => .error .notReached
    | .EVENT_COUNT => .error .notReached
  | .STATE_WAITING_FOR_RESULT =>
    match aEvent.mType with
    | .EVENT_STOP => .ok (DoNothing aEvent w)
    | .EVENT_AUDIO_ERROR
    | .EVENT_RECOGNITIONSERVICE_ERROR => AbortError env aEvent w
    | .EVENT_RECOGNITIONSERVICE_FINAL_RESULT => .ok (NotifyFinalResult env aEvent w)
    | .EVENT_AUDIO_DATA => .ok (DoNothing aEvent w)
    | .EVENT_ABORT => AbortSilently env aEvent w
    | .EVENT_START
    | .EVENT_RECOGNITIONSERVICE_INTERMEDIATE_RESULT => .error .notReached
    | .EVENT_COUNT => .error .notReached
  | .STATE_ABORTING => .ok (DoNothing aEvent w)
  | .STATE_COUNT => .error .notReached

/-- The loop of `ProcessEvent` over `mPriorityEvents`, by index; the length is
read again at every iteration, as in the source. -/
def ProcessEvent.priorityLoop (env : Env) : Nat → Nat → World → Except Fault World
  | 0, i, w => if i < w.sr.mPriorityEvents.length then .error .outOfFuel else .ok w
  | fuel + 1, i, w =>
    match w.sr.mPriorityEvents[i]? with
    | none => .ok w
    | some event =>
      match Transition env event w with
      | .error f => .error f
      | .ok w1 => ProcessEvent.priorityLoop env fuel (i + 1) w1

/-- `ProcessEvent(aEvent)`: the pending priority events first, then the event
itself. Nothing in the source appends to `mPriorityEvents` while a pass runs, so
the length at entry bounds the number of iterations. -/
def ProcessEvent (env : Env) (aEvent : SpeechEvent) (w : World) : Except Fault World :=
  match ProcessEvent.priorityLoop env w.sr.mPriorityEvents.length 0 w with
  | .error f => .error f
  | .ok w1 => Transition env aEvent { w1 with sr := { w1.sr with mPriorityEvents := [] } }

/-- Dispatch of a list of events in order (`SpeechEvent::Run` for each). -/
def ProcessEvents (env : Env) : List SpeechEvent → World → Except Fault World
  | [], w => .ok w
  | e :: es, w =>
    match ProcessEvent env e w with
    | .error f => .error f
    | .ok w1 => ProcessEvents env es w1

/-- The main thread runs the events that are queued at this moment, in order. -/
def RunQueued (env : Env) (w : World) : Except Fault World :=
  ProcessEvents env w.queue { w with queue := [] }

/-! ## Event triggers -/

/-- `DEFAULT_RECOGNITION_SERVICE`. -/
def DEFAULT_RECOGNITION_SERVICE : String := "google"

/-- `GetRecognitionServiceCID(aResultCID)`. -/
def GetRecognitionServiceCID (env : Env) : String :=
  if env.mFakeRecognitionService then env.contractIdPrefix ++ "fake"
  else
    let speechRecognitionService :=
      if env.prefDefaultService.isEmpty then DEFAULT_RECOGNITION_SERVICE
      else env.prefDefaultService
    env.contractIdPrefix ++ speechRecognitionService

/-- `Start(aRv)`. The guard is the source's `!mCurrentState == STATE_IDLE`:
the negation is applied to the state first, and its truth value is compared
with the number of `STATE_IDLE`. -/
def Start (env : Env) (w : World) : World :=
  let negated : Nat := if w.sr.mCurrentState.toNat = 0 then 1 else 0
  if negated = FSMState.STATE_IDLE.toNat then
    { w with trace := w.trace ++ [.throwInvalidState] }
  else
    match env.do_GetService (GetRecognitionServiceCID env) with
    | none => { w with sr := { w.sr with mRecognitionService := none } }
    | some service =>
      let w1 : World :=
        { w with
          sr := { w.sr with mRecognitionService := some service }
          trace := w.trace ++ [.serviceInit] }
      if ¬ env.initializeOk then w1
      else
        let w2 : World :=
          if ¬ env.mFakeFSMEvents then { w1 with trace := w1.trace ++ [.getUserMedia] }
          else w1
        { w2 with queue := w2.queue ++ [{ mType := .EVENT_START }] }

/-- `Stop()`. -/
def Stop (w : World) : World :=
  { w with queue := w.queue ++ [{ mType := .EVENT_STOP }] }

/-- `Abort()`. -/
def Abort (w : World) : World :=
  { w with queue := w.queue ++ [{ mType := .EVENT_ABORT }] }

/-- `DispatchError(aErrorType, aErrorCode, aMessage)`: posts an event of the given
error type that carries the error; the type is asserted to be an error type. -/
def DispatchError (aErrorType : EventType) (aErrorCode : ErrorCode) (aMessage : String)
    (w : World) : Except Fault World :=
  if aErrorType = .EVENT_RECOGNITIONSERVICE_ERROR ∨ aErrorType = .EVENT_AUDIO_ERROR then
    .ok { w with
          queue := w.queue ++
            [{ mType := aErrorType, mError := { code := aErrorCode, message := aMessage } }] }
  else .error .assertion

/-- `StartRecording(aDOMStream)`: keeps the stream, and, when it has an underlying
stream, listens to it, opens the detector's session and arms the detection timer. -/
def StartRecording (aDOMStream : DOMMediaStream) (w : World) : World :=
  let w1 : World := { w with sr := { w.sr with mDOMStream := some aDOMStream } }
  if ¬ aDOMStream.hasStream then w1
  else
    { w1 with
      sr := { w1.sr with
              mEndpointer := { w1.sr.mEndpointer with inSession := true }
              mSpeechDetectionTimer := true }
      trace := w1.trace ++ [.addListener, .timerInit] }

/-- The observer topics the session reacts to; the three topic strings are distinct
constants declared outside the sources, `other` stands for any other topic. -/
inductive Topic where
  | NS_TIMER_CALLBACK_TOPIC
  | SPEECH_RECOGNITION_TEST_END_TOPIC
  | SPEECH_RECOGNITION_TEST_EVENT_REQUEST_TOPIC
  | other (topic : String)
  deriving DecidableEq, Repr

/-- `ProcessTestEventRequest(aSubject, aEventName)`. -/
def ProcessTestEventRequest (env : Env) (aSubject : DOMMediaStream) (aEventName : String)
    (w : World) : Except Fault World :=
  if aEventName = "EVENT_START" then .ok (Start env w)
  else if aEventName = "EVENT_STOP" then .ok (Stop w)
  else if aEventName = "EVENT_ABORT" then .ok (Abort w)
  else if aEventName = "EVENT_AUDIO_ERROR" then
    DispatchError .EVENT_AUDIO_ERROR .AUDIO_CAPTURE "AUDIO_ERROR test event" w
  else if aEventName = "EVENT_AUDIO_DATA" then .ok (StartRecording aSubject w)
  else .ok w

/-- `Observe(aSubject, aTopic, aData)`. -/
def Observe (env : Env) (aSubject : DOMMediaStream) (aTopic : Topic) (aData : String)
    (w : World) : Except Fault World :=
  if aTopic = .NS_TIMER_CALLBACK_TOPIC ∧
      StateBetween w.sr .STATE_IDLE .STATE_WAITING_FOR_SPEECH = true then
    DispatchError .EVENT_AUDIO_ERROR .NO_SPEECH "No speech detected (timeout)" w
  else if aTopic = .SPEECH_RECOGNITION_TEST_END_TOPIC then
    .ok { w with trace := w.trace ++ [.removeObservers] }
  else if env.mFakeFSMEvents = true ∧
      aTopic = .SPEECH_RECOGNITION_TEST_EVENT_REQUEST_TOPIC then
    ProcessTestEventRequest env aSubject aData w
  else .ok w

/-- `GetUserMediaSuccessCallback::OnSuccess(aStream)`. -/
def GetUserMediaSuccessCallback.OnSuccess (aStream : DOMMediaStream) (w : World) : World :=
  StartRecording aStream w

/-- `GetUserMediaErrorCallback::OnError(aError)`. -/
def GetUserMediaErrorCallback.OnError (aError : String) (w : World) : Except Fault World :=
  let errorCode : ErrorCode :=
    if aError = "PERMISSION_DENIED" then .NOT_ALLOWED else .AUDIO_CAPTURE
  DispatchError .EVENT_AUDIO_ERROR errorCode aError w

/-- A session as the constructor leaves it: `Reset()` has run on fresh fields. -/
def Session.fresh (frameSize : Nat) : Session :=
  { mAudioSamplesPerChunk := frameSize }

/-- The world right after construction of the session object. -/
def World.fresh (frameSize : Nat) : World :=
  { sr := Session.fresh frameSize }

/-! ## Vocabulary of the statements -/

/-- The DOM events of a trace, in order. -/
def notifications : List Effect → List Notification
  | [] => []
  | .notify n :: t => n :: notifications t
  | _ :: t => notifications t

/-- Number of `end` events in a trace. -/
def countEnd (t : List Effect) : Nat :=
  (notifications t).count (.trusted "end")

/-- Whether a notification is a `result` event. -/
def Notification.isResult : Notification → Bool
  | .result _ => true
  | _ => false

/-- Whether a notification is an `error` event. -/
def Notification.isError : Notification → Bool
  | .error _ => true
  | _ => false

/-- Listeners that neither touch the session nor act visibly: they may only post
events to the main thread (for instance through `Stop()` or `Abort()`). -/
def Passive (env : Env) : Prop :=
  ∀ n w, (env.observer n w).sr = w.sr ∧ (env.observer n w).trace = w.trace

/-- An environment without listeners, with a detector that never reports speech,
in which the `fake` service is available and initialises. -/
def quietEnv : Env :=
  { observer := fun _ w => w
    DidStartReceivingSpeech := fun _ => false
    speech_input_complete := fun _ => false
    do_GetService := fun cid => some cid
    initializeOk := true
    mFakeFSMEvents := true
    mFakeRecognitionService := true
    prefDefaultService := ""
    contractIdPrefix := "@mozilla.org/webspeech/service;1?name=" }

/-- The successive full frames of `l`: frame `i` holds the samples `[i*F, (i+1)*F)`. -/
def frames (F : Nat) (l : List Int) : List SharedBuffer :=
  (List.range (l.length / F)).map (fun i => (l.drop (i * F)).take F)

/-- The samples retained by the session: the filled part of the retained buffer. -/
def Session.retained (sr : Session) : List Int :=
  match sr.mAudioSamplesBuffer with
  | some buf => buf.take sr.mBufferedSamples
  | none => []

/-- The invariant of the retained buffer: fewer than `mAudioSamplesPerChunk` samples
are retained, a retained buffer object has room for `mAudioSamplesPerChunk` samples,
and there is one whenever samples are retained. -/
def Session.bufferOk (sr : Session) : Bool :=
  decide (sr.mBufferedSamples < sr.mAudioSamplesPerChunk) &&
    (match sr.mAudioSamplesBuffer with
     | some buf => decide (buf.length = sr.mAudioSamplesPerChunk)
     | none => decide (sr.mBufferedSamples = 0))

/-- The states of a live session: Starting up to WaitingForResult. -/
def isActive : FSMState → Bool
  | .STATE_STARTING | .STATE_ESTIMATING | .STATE_WAITING_FOR_SPEECH
  | .STATE_RECOGNIZING | .STATE_WAITING_FOR_RESULT => true
  | _ => false

/-- The states in which audio is being captured: Estimating up to Recognizing. -/
def isCapturing : FSMState → Bool
  | .STATE_ESTIMATING | .STATE_WAITING_FOR_SPEECH | .STATE_RECOGNIZING => true
  | _ => false

/-- The two error event types. -/
def isErrorType : EventType → Bool
  | .EVENT_AUDIO_ERROR | .EVENT_RECOGNITIONSERVICE_ERROR => true
  | _ => false

/-- The (state, event) pairs listed as having no effect. -/
def isNoOpPair : FSMState → EventType → Bool
  | .STATE_IDLE, .EVENT_STOP => true
  | .STATE_IDLE, .EVENT_ABORT => true
  | .STATE_IDLE, .EVENT_AUDIO_DATA => true
  | .STATE_IDLE, .EVENT_RECOGNITIONSERVICE_FINAL_RESULT => true
  | .STATE_STARTING, .EVENT_RECOGNITIONSERVICE_FINAL_RESULT => true
  | .STATE_ESTIMATING, .EVENT_RECOGNITIONSERVICE_FINAL_RESULT => true
  | .STATE_WAITING_FOR_SPEECH, .EVENT_RECOGNITIONSERVICE_FINAL_RESULT => true
  | .STATE_RECOGNIZING, .EVENT_RECOGNITIONSERVICE_FINAL_RESULT => true
  | .STATE_WAITING_FOR_RESULT, .EVENT_STOP => true
  | .STATE_WAITING_FOR_RESULT, .EVENT_AUDIO_DATA => true
  | .STATE_ABORTING, _ => true
  | _, _ => false

/-- The error events of a live session that the table leaves without effect:
a service error while Estimating or WaitingForSpeech. -/
def isIgnoredError : FSMState → EventType → Bool
  | .STATE_ESTIMATING, .EVENT_RECOGNITIONSERVICE_ERROR => true
  | .STATE_WAITING_FOR_SPEECH, .EVENT_RECOGNITIONSERVICE_ERROR => true
  | _, _ => false

/-- `quietEnv` with a recognition service whose `Initialize` fails. -/
def failingInitEnv : Env := { quietEnv with initializeOk := false }

/-- The run `Start(); Abort();` on a freshly constructed session, followed by the
dispatch of the queued events. -/
def startThenAbort (env : Env) (frameSize : Nat) : Except Fault World :=
  RunQueued env (Abort (Start env (World.fresh frameSize)))

/-- The run `Start(); Stop();` on a freshly constructed session, followed by the
dispatch of the queued events. -/
def startThenStop (env : Env) (frameSize : Nat) : Except Fault World :=
  RunQueued env (Stop (Start env (World.fresh frameSize)))

/-- A session waiting for the result of the service `fake`. -/
def waitingWorld : World :=
  { sr := { mCurrentState := .STATE_WAITING_FOR_RESULT
            mRecognitionService := some "fake"
            mAudioSamplesPerChunk := 160 } }

/-- A session that is estimating the environment, capturing audio, with the
service `fake` attached and the detection timer armed. -/
def estimatingWorld : World :=
  { sr := { mCurrentState := .STATE_ESTIMATING
            mRecognitionService := some "fake"
            mAudioSamplesPerChunk := 160
            mSpeechDetectionTimer := true
            mDOMStream := some ⟨true⟩
            mEndpointer := { mode := .environmentEstimation, inSession := true } } }

/-- A session with frames of 4 samples that retains the three samples 7, 8, 9. -/
def retainingWorld : World :=
  { sr := { mAudioSamplesPerChunk := 4
            mBufferedSamples := 3
            mAudioSamplesBuffer := some [7, 8, 9, 0] } }

/-- The total duration of a segment: the sum of the durations of its chunks. -/
def segmentDuration (segment : AudioSegment) : Nat :=
  (segment.map AudioChunk.mDuration).sum

/-- A run of `Transition` over a list of events, in order. -/
def transitions (env : Env) : List SpeechEvent → World → Except Fault World
  | [], w => .ok w
  | e :: es, w =>
    match Transition env e w with
    | .error f => .error f
    | .ok w1 => transitions env es w1

/-- A call that touches the retained buffer: `FeedAudioData` (with the fuel of the
model, the samples and the provider) or `Reset`. -/
inductive RechunkerCall where
  | feed (fuel : Nat) (aSamples : List Int) (aProvider : Option Nat)
  | reset
  deriving DecidableEq, Repr

/-- Whether the sample count of a call fits `uint32_t`. -/
def RechunkerCall.fits : RechunkerCall → Bool
  | .feed _ aSamples _ => decide (aSamples.length < UINT32_MOD)
  | .reset => true

/-- A sequence of `FeedAudioData` and `Reset` calls, in order. -/
def runCalls : List RechunkerCall → World → Except Fault World
  | [], w => .ok w
  | .feed fuel aSamples aProvider :: cs, w =>
    match FeedAudioData fuel aSamples aSamples.length aProvider w with
    | .error f => .error f
    | .ok w1 => runCalls cs w1
  | .reset :: cs, w => runCalls cs (Reset w)

/-- The states in which the detection timer's callback posts the timeout error:
Idle up to WaitingForSpeech. -/
def isAwaitingSpeech : FSMState → Bool
  | .STATE_IDLE | .STATE_STARTING | .STATE_ESTIMATING | .STATE_WAITING_FOR_SPEECH => true
  | _ => false

/-- The states in which the detection timer's callback does nothing. -/
def isPastSpeechStart : FSMState → Bool
  | .STATE_RECOGNIZING | .STATE_WAITING_FOR_RESULT | .STATE_ABORTING => true
  | _ => false

/-- The event types that a recognition service posts. -/
def isBackendResult : EventType → Bool
  | .EVENT_RECOGNITIONSERVICE_INTERMEDIATE_RESULT
  | .EVENT_RECOGNITIONSERVICE_FINAL_RESULT => true
  | _ => false

/-- An environment whose only listener calls `Stop()` while `speechstart` is
delivered, and whose detector reports speech as soon as it has seen a frame. -/
def stopOnSpeechstartEnv : Env :=
  { quietEnv with
    observer := fun n w => if n = .trusted "speechstart" then Stop w else w
    DidStartReceivingSpeech := fun ep => !ep.frames.isEmpty }

/-- A session that waits for speech, capturing audio, with the service `fake`
attached and the detection timer armed. -/
def waitingForSpeechWorld : World :=
  { sr := { mCurrentState := .STATE_WAITING_FOR_SPEECH
            mRecognitionService := some "fake"
            mAudioSamplesPerChunk := 160
            mEstimationSamples := 4960
            mSpeechDetectionTimer := true
            mDOMStream := some ⟨true⟩
            mEndpointer := { mode := .userInput, inSession := true } } }

/-- `estimatingWorld` after `c` samples have been counted towards the quota. -/
def estimatingAfter (c : Nat) : World :=
  { estimatingWorld with sr := { estimatingWorld.sr with mEstimationSamples := c } }

/-- An audio event that carries one chunk of duration `k`. -/
def audioEvent (k : Nat) : SpeechEvent :=
  { mType := .EVENT_AUDIO_DATA
    mAudioSegment := [{ mBuffer := List.replicate k 0, mDuration := k }] }

/-- `estimatingWorld` with an abort request pending in the priority list. -/
def priorityWorld : World :=
  { estimatingWorld with
    sr := { estimatingWorld.sr with mPriorityEvents := [{ mType := .EVENT_ABORT }] } }

/-- The total number of samples carried by a list of events. -/
def eventsDuration (events : List SpeechEvent) : Nat :=
  (events.map (fun e => segmentDuration e.mAudioSegment)).sum

/-- Whether an action is a change of the session state. -/
def Effect.isSetState : Effect → Bool
  | .setState _ => true
  | _ => false

/-- Whether, in a list of actions, no change of the session state comes after a
DOM event. -/
def noStateChangeAfterNotification : List Effect → Bool
  | [] => true
  | .notify _ :: t => t.all (fun x => !x.isSetState)
  | _ :: t => noStateChangeAfterNotification t

/-- Whether action `a` occurs in `t` and its first occurrence comes before the first
occurrence of `b`, which occurs too. -/
def occursBefore (a b : Effect) (t : List Effect) : Bool :=
  decide (t.indexOf a < t.indexOf b) && decide (b ∈ t)

/-- Whether the actions a handler run added, from world `w` to world `w1`, have no
change of the session state after a DOM event. -/
def commitsStateFirst (w w1 : World) : Prop :=
  ∃ new, w1.trace = w.trace ++ new ∧ noStateChangeAfterNotification new = true

/-- The states in which an intermediate result of the service is left without
effect: all states of the table except WaitingForResult. -/
def ignoresIntermediateResult : FSMState → Bool
  | .STATE_IDLE | .STATE_STARTING | .STATE_ESTIMATING | .STATE_WAITING_FOR_SPEECH
  | .STATE_RECOGNIZING | .STATE_ABORTING => true
  | _ => false

/-- The states that are only entered through a handler that uses the service:
Estimating up to WaitingForResult. -/
def needsBackend : FSMState → Bool
  | .STATE_ESTIMATING | .STATE_WAITING_FOR_SPEECH | .STATE_RECOGNIZING
  | .STATE_WAITING_FOR_RESULT => true
  | _ => false

/-- The states in which the detection timer can be found armed: those of
`isAwaitingSpeech` and WaitingForResult. -/
def timerMayBeArmed : FSMState → Bool
  | .STATE_IDLE | .STATE_STARTING | .STATE_ESTIMATING | .STATE_WAITING_FOR_SPEECH
  | .STATE_WAITING_FOR_RESULT => true
  | _ => false

/-- Whether two sessions have the same state, the same attached service and the
same detection timer. -/
def Session.sameControl (a b : Session) : Prop :=
  b.mCurrentState = a.mCurrentState ∧ b.mRecognitionService = a.mRecognitionService ∧
    b.mSpeechDetectionTimer = a.mSpeechDetectionTimer

/-- The ways a transition can leave the state, the attached service and the
detection timer: a reset; nothing changed; Starting entered; a capture state or
WaitingForResult entered or kept with the service attached; Recognizing entered
with the timer cancelled; Recognizing kept. -/
def transitionOutcome (w w1 : World) : Prop :=
  (w1.sr.mCurrentState = .STATE_IDLE ∧ w1.sr.mRecognitionService = none ∧
    w1.sr.mSpeechDetectionTimer = false) ∨
  w.sr.sameControl w1.sr ∨
  (w1.sr.mCurrentState = .STATE_STARTING ∧
    w1.sr.mSpeechDetectionTimer = w.sr.mSpeechDetectionTimer) ∨
  (w1.sr.mRecognitionService.isSome = true ∧
    w1.sr.mSpeechDetectionTimer = w.sr.mSpeechDetectionTimer ∧
    (w1.sr.mCurrentState = .STATE_ESTIMATING ∨
      w1.sr.mCurrentState = .STATE_WAITING_FOR_SPEECH ∨
      w1.sr.mCurrentState = .STATE_WAITING_FOR_RESULT)) ∨
  (w1.sr.mRecognitionService.isSome = true ∧ w1.sr.mCurrentState = .STATE_RECOGNIZING ∧
    w1.sr.mSpeechDetectionTimer = false) ∨
  (w1.sr.mRecognitionService.isSome = true ∧ w1.sr.mCurrentState = .STATE_RECOGNIZING ∧
    w.sr.mCurrentState = .STATE_RECOGNIZING ∧
    w1.sr.mSpeechDetectionTimer = w.sr.mSpeechDetectionTimer)

/-- The service is attached whenever the state needs it. -/
def backendAttachedWhenNeeded (w : World) : Prop :=
  needsBackend w.sr.mCurrentState = true → w.sr.mRecognitionService.isSome = true

/-- The detection timer is armed only in a state of `timerMayBeArmed`. -/
def timerArmedOnlyEarly (w : World) : Prop :=
  w.sr.mSpeechDetectionTimer = true → timerMayBeArmed w.sr.mCurrentState = true

/-- What can happen to a session between two turns of the main thread. -/
inductive Action where
  /-- The page calls `Start()`. -/
  | callStart
  /-- The page calls `Stop()`. -/
  | callStop
  /-- The page calls `Abort()`. -/
  | callAbort
  /-- A producer (capture thread, recognition service, timer callback) posts an event
  to the main thread. -/
  | post (e : SpeechEvent)
  /-- The main thread runs the next queued event (`SpeechEvent::Run`). -/
  | dispatch
  /-- The capture is granted: `StartRecording(stream)`. -/
  | startRecording (stream : DOMMediaStream)
  /-- The capture thread calls `FeedAudioData`. -/
  | feed (fuel : Nat) (aSamples : List Int) (aProvider : Option Nat)
  deriving DecidableEq, Repr

/-- One action on the world. -/
def step (env : Env) : Action → World → Except Fault World
  | .callStart, w => .ok (Start env w)
  | .callStop, w => .ok (Stop w)
  | .callAbort, w => .ok (Abort w)
  | .post e, w => .ok { w with queue := w.queue ++ [e] }
  | .dispatch, w =>
    match w.queue with
    | [] => .ok w
    | e :: rest => ProcessEvent env e { w with queue := rest }
  | .startRecording stream, w => .ok (StartRecording stream w)
  | .feed fuel aSamples aProvider, w =>
    FeedAudioData fuel aSamples aSamples.length aProvider w

/-- A run: a sequence of actions, in order. -/
def run (env : Env) : List Action → World → Except Fault World
  | [], w => .ok w
  | a :: rest, w =>
    match step env a w with
    | .error f => .error f
    | .ok w1 => run env rest w1

/-- Whether every `StartRecording` of a run happens while the state is Idle or
Starting. -/
def recordingStartsEarly (env : Env) : List Action → World → Bool
  | [], _ => true
  | a :: rest, w =>
    (match a with
      | .startRecording _ =>
        decide (w.sr.mCurrentState = .STATE_IDLE ∨ w.sr.mCurrentState = .STATE_STARTING)
      | _ => true) &&
    (match step env a w with
      | .error _ => true
      | .ok w1 => recordingStartsEarly env rest w1)

/-- `quietEnv` with a detector that reports the end of speech as soon as it has seen
a frame. -/
def speechEndEnv : Env :=
  { quietEnv with speech_input_complete := fun ep => !ep.frames.isEmpty }

/-- A freshly started session: state Starting, the service `fake` attached. -/
def startingWorld : World :=
  { sr := { mCurrentState := .STATE_STARTING
            mRecognitionService := some "fake"
            mAudioSamplesPerChunk := 160 } }

/-- A session that is recognizing, capturing audio, with the service `fake` attached
and the detection timer cancelled. -/
def recognizingWorld : World :=
  { sr := { mCurrentState := .STATE_RECOGNIZING
            mRecognitionService := some "fake"
            mAudioSamplesPerChunk := 160
            mEstimationSamples := 4960
            mDOMStream := some ⟨true⟩
            mEndpointer := { mode := .userInput, inSession := true } } }

/-- The next state in the chain Idle, Starting, Estimating, WaitingForSpeech,
Recognizing, WaitingForResult; the chain ends at WaitingForResult. -/
def FSMState.successor : FSMState → Option FSMState
  | .STATE_IDLE => some .STATE_STARTING
  | .STATE_STARTING => some .STATE_ESTIMATING
  | .STATE_ESTIMATING => some .STATE_WAITING_FOR_SPEECH
  | .STATE_WAITING_FOR_SPEECH => some .STATE_RECOGNIZING
  | .STATE_RECOGNIZING => some .STATE_WAITING_FOR_RESULT
  | _ => none

/-- The segments that a list of actions hands to the service, in order. -/
def servedSegments : List Effect → List AudioSegment
  | [] => []
  | .serviceProcessAudioSegment segment :: t => segment :: servedSegments t
  | _ :: t => servedSegments t

/-- The invariant of the rechunker as `FillSamplesBuffer` asserts it: fewer than a
frame of samples is retained, and a retained buffer object exists whenever samples
are retained. -/
def Session.rechunkerInvariant (sr : Session) : Prop :=
  sr.mBufferedSamples < sr.mAudioSamplesPerChunk ∧
    (0 < sr.mBufferedSamples → sr.mAudioSamplesBuffer.isSome = true)

/-- `PREFERENCE_ENDPOINTER_SILENCE_LENGTH`. -/
def PREFERENCE_ENDPOINTER_SILENCE_LENGTH : String := "media.webspeech.silence_length"

/-- `PREFERENCE_ENDPOINTER_LONG_SILENCE_LENGTH`. -/
def PREFERENCE_ENDPOINTER_LONG_SILENCE_LENGTH : String :=
  "media.webspeech.long_silence_length"

/-- `PREFERENCE_ENDPOINTER_LONG_SPEECH_LENGTH`. -/
def PREFERENCE_ENDPOINTER_LONG_SPEECH_LENGTH : String := "media.webspeech.long_speech_length"

/-- The values the constructor passes to the three setters of the detector:
`set_speech_input_complete_silence_length`,
`set_long_speech_input_complete_silence_length` and `set_long_speech_length`. -/
structure EndpointerThresholds where
  speech_input_complete_silence_length : Int
  long_speech_input_complete_silence_length : Int
  long_speech_length : Int
  deriving DecidableEq, Repr

/-- The configuration of the detector in the constructor
`SpeechRecognition::SpeechRecognition()`; `GetInt name default` stands for
`Preferences::GetInt(name, default)`. -/
def Constructor.thresholds (GetInt : String → Int → Int) : EndpointerThresholds :=
  { speech_input_complete_silence_length :=
      GetInt PREFERENCE_ENDPOINTER_SILENCE_LENGTH 500000
    long_speech_input_complete_silence_length :=
      GetInt PREFERENCE_ENDPOINTER_LONG_SILENCE_LENGTH 1000000
    long_speech_length := GetInt PREFERENCE_ENDPOINTER_SILENCE_LENGTH (3 * 1000000) }

/-- The preference lookup of a profile in which only the preference `name` is set,
to `value`: every other lookup answers its default. -/
def prefsWith (name : String) (value : Int) : String → Int → Int :=
  fun n default => if n = name then value else default

/-- Whether the session holds a stream with a media stream under it: `mDOMStream`
and `mDOMStream->GetStream()` are both non-null. -/
def Session.streamHeld (sr : Session) : Bool :=
  match sr.mDOMStream with
  | some stream => stream.hasStream
  | none => false

/-- A run from construction that leaves the session in Estimating with a service
attached and no stream held: a session is started, granted the capture, receives a
frame and is aborted (which releases the stream); the page starts it again, and an
audio event of the first capture, posted late, is dispatched after the new start
request. -/
def staleAudioRun : List Action :=
  [.callStart, .startRecording ⟨true⟩, .dispatch, .post (audioEvent 160), .dispatch,
    .callAbort, .dispatch, .callStart, .dispatch, .post (audioEvent 160), .dispatch]

/-- `quietEnv` with a detector that reports the start and the end of speech as soon
as it has seen a frame. -/
def talkingEnv : Env :=
  { quietEnv with
    DidStartReceivingSpeech := fun ep => !ep.frames.isEmpty
    speech_input_complete := fun ep => !ep.frames.isEmpty }

/-- The (state, event) pairs on which the table of `Transition` calls `Reset`,
`AbortSilently`, `AbortError` or `NotifyFinalResult` from a non-Idle state. -/
def returnsToIdle : FSMState → EventType → Bool
  | .STATE_STARTING, .EVENT_STOP => true
  | .STATE_WAITING_FOR_RESULT, .EVENT_RECOGNITIONSERVICE_FINAL_RESULT => true
  | s, .EVENT_ABORT => isActive s
  | s, .EVENT_AUDIO_ERROR => isActive s
  | s, .EVENT_RECOGNITIONSERVICE_ERROR =>
    isActive s && !isIgnoredError s .EVENT_RECOGNITIONSERVICE_ERROR
  | _, _ => false

/-- An environment whose only listener calls `Start()` while `end` is delivered. -/
def restartOnEndEnv : Env :=
  { quietEnv with observer := fun n w => if n = .trusted "end" then Start quietEnv w else w }

/-! ## Lemmas on the rechunker -/

theorem range_map_shift (F cs k : Nat) (buf : List Int) :
    (List.range (k + 1)).map (fun i => (buf.drop (cs + i * F)).take F) =
      (buf.drop cs).take F ::
        (List.range k).map (fun i => (buf.drop (cs + F + i * F)).take F) := by
  rw [List.range_succ_eq_map]
  simp only [List.map_cons, List.map_map, Nat.zero_mul, Nat.add_zero]
  congr 1
  apply List.map_congr_left
  intro i _
  simp only [Function.comp, Nat.succ_mul]
  congr 2
  omega

theorem splitLoop_spec (F : Nat) (hF : 0 < F) (buf : List Int) (count : Nat)
    (hb : count + F < UINT32_MOD) :
    ∀ (fuel cs : Nat) (acc : List SharedBuffer), cs ≤ count → (count - cs) / F < fuel →
      SplitSamplesBufferLoop F buf count fuel cs acc =
        .ok (acc ++ (List.range ((count - cs) / F)).map
                (fun i => (buf.drop (cs + i * F)).take F),
             cs + F * ((count - cs) / F)) := by
  intro fuel
  induction fuel with
  | zero => intro cs acc _ h; exact absurd h (Nat.not_lt_zero _)
  | succ fuel ih =>
    intro cs acc hcs hfuel
    have hmod : (cs + F) % UINT32_MOD = cs + F := Nat.mod_eq_of_lt (by omega)
    unfold SplitSamplesBufferLoop
    rw [hmod]
    by_cases hle : cs + F ≤ count
    · have hdiv : (count - cs) / F = (count - (cs + F)) / F + 1 := by
        have : count - cs = (count - (cs + F)) + F := by omega
        rw [this, Nat.add_div_right _ hF]
      have hf : (count - (cs + F)) / F < fuel := by
        rw [hdiv] at hfuel; exact Nat.lt_of_succ_lt_succ hfuel
      rw [if_pos hle, ih (cs + F) _ hle hf, hdiv, range_map_shift]
      simp only [List.append_assoc, List.singleton_append]
      rw [Nat.mul_add, Nat.mul_one, Nat.add_assoc, Nat.add_comm F]
    · have hdiv : (count - cs) / F = 0 := Nat.div_eq_of_lt (by omega)
      rw [if_neg hle, hdiv]
      simp

theorem split_block_spec (fuel : Nat) (sr : Session) (xs : List Int) (idx : Nat)
    (chunks0 : List SharedBuffer) (hF : 0 < sr.mAudioSamplesPerChunk)
    (hidx : idx ≤ xs.length)
    (hb : xs.length + sr.mAudioSamplesPerChunk < UINT32_MOD) (hfuel : xs.length < fuel) :
    FeedAudioData.split fuel sr xs xs.length idx chunks0 =
      .ok (idx + sr.mAudioSamplesPerChunk * ((xs.length - idx) / sr.mAudioSamplesPerChunk),
           chunks0 ++ (List.range ((xs.length - idx) / sr.mAudioSamplesPerChunk)).map
             (fun i => (xs.drop (idx + i * sr.mAudioSamplesPerChunk)).take
                sr.mAudioSamplesPerChunk)) := by
  unfold FeedAudioData.split
  by_cases hlt : idx < xs.length
  · have hm : (xs.length - idx) % UINT32_MOD = xs.length - idx :=
      Nat.mod_eq_of_lt (by omega)
    have hq : (xs.length - idx) / sr.mAudioSamplesPerChunk < fuel :=
      lt_of_le_of_lt (Nat.div_le_self _ _) (by omega)
    have hmul := Nat.mul_div_le (xs.length - idx) sr.mAudioSamplesPerChunk
    rw [if_pos hlt, SplitSamplesBuffer, hm,
      splitLoop_spec _ hF _ _ (by omega) fuel 0 chunks0 (Nat.zero_le _) (by simpa using hq)]
    simp only [Nat.sub_zero, Nat.zero_add, List.drop_drop]
    rw [Nat.mod_eq_of_lt (by omega)]
  · have h0 : (xs.length - idx) / sr.mAudioSamplesPerChunk = 0 :=
      Nat.div_eq_of_lt (by omega)
    rw [if_neg hlt, h0]
    simp

theorem retain_block_spec (sr : Session) (xs : List Int) (idx : Nat)
    (hidx : idx ≤ xs.length) (hrem : xs.length - idx < sr.mAudioSamplesPerChunk)
    (hF : sr.mAudioSamplesPerChunk < UINT32_MOD)
    (h0 : sr.mBufferedSamples = 0) (hok : sr.bufferOk = true) :
    ∃ sr3, FeedAudioData.retain sr xs xs.length idx = .ok sr3 ∧
      sr3.bufferOk = true ∧ sr3.retained = xs.drop idx ∧
      sr3.mBufferedSamples = xs.length - idx ∧
      sr3 = { sr with mBufferedSamples := sr3.mBufferedSamples,
                      mAudioSamplesBuffer := sr3.mAudioSamplesBuffer } := by
  unfold FeedAudioData.retain
  by_cases hlt : idx < xs.length
  · have hm : (xs.length - idx) % UINT32_MOD = xs.length - idx :=
      Nat.mod_eq_of_lt (by omega)
    have hFm : sr.mAudioSamplesPerChunk % UINT32_MOD = sr.mAudioSamplesPerChunk :=
      Nat.mod_eq_of_lt hF
    have hmin : min (xs.length - idx) sr.mAudioSamplesPerChunk = xs.length - idx :=
      Nat.min_eq_left (Nat.le_of_lt hrem)
    have hpos : 0 < sr.mAudioSamplesPerChunk := by omega
    simp only [if_pos hlt, FillSamplesBuffer, hm, Nat.sub_zero, hFm, hmin, Nat.zero_add,
      hpos, not_true_eq_false, if_false, List.take_zero, List.nil_append]
    refine ⟨_, rfl, ?_, ?_, ?_, ?_⟩
    · simp [Session.bufferOk, hrem, hm]
      omega
    · simp [Session.retained, hm]
    · simp [hm]
    · rfl
  · have hx : xs.length = idx := by omega
    refine ⟨sr, by simp [hlt], hok, ?_, by omega, ?_⟩
    · have : xs.drop idx = [] := List.drop_eq_nil_of_le (by omega)
      rw [this]
      cases hbuf : sr.mAudioSamplesBuffer <;> simp [Session.retained, h0, hbuf]
    · rfl

theorem retained_length (sr : Session) (hok : sr.bufferOk = true) :
    sr.retained.length = sr.mBufferedSamples := by
  unfold Session.bufferOk at hok
  unfold Session.retained
  cases hbuf : sr.mAudioSamplesBuffer with
  | none => simp [hbuf] at hok; simp [hok.2]
  | some buf =>
    simp [hbuf] at hok
    simp [List.length_take]
    omega

theorem FeedAudioData_spec_empty (fuel : Nat) (xs : List Int) (prov : Option Nat) (w : World)
    (hok : w.sr.bufferOk = true) (h0 : w.sr.mBufferedSamples = 0)
    (hb : xs.length + w.sr.mAudioSamplesPerChunk < UINT32_MOD) (hfuel : xs.length < fuel) :
    ∃ w1, FeedAudioData fuel xs xs.length prov w = .ok w1 ∧
      w1.queue = w.queue ++
        [{ mType := .EVENT_AUDIO_DATA
           mAudioSegment := (frames w.sr.mAudioSamplesPerChunk xs).map
              (fun c => ⟨c, w.sr.mAudioSamplesPerChunk⟩)
           mProvider := prov }] ∧
      w1.trace = w.trace ∧
      w1.sr.bufferOk = true ∧
      w1.sr.retained = xs.drop
        (w.sr.mAudioSamplesPerChunk * (xs.length / w.sr.mAudioSamplesPerChunk)) ∧
      w1.sr.mBufferedSamples = xs.length % w.sr.mAudioSamplesPerChunk ∧
      w1.sr = { w.sr with mBufferedSamples := w1.sr.mBufferedSamples,
                          mAudioSamplesBuffer := w1.sr.mAudioSamplesBuffer } := by
  have hF : 0 < w.sr.mAudioSamplesPerChunk := by
    simp [Session.bufferOk] at hok; omega
  have hdm := Nat.div_add_mod xs.length w.sr.mAudioSamplesPerChunk
  have hml := Nat.mod_lt xs.length hF
  obtain ⟨sr3, h3, hok3, hret3, hb3, hsame⟩ :=
    retain_block_spec w.sr xs
      (w.sr.mAudioSamplesPerChunk * (xs.length / w.sr.mAudioSamplesPerChunk))
      (by omega) (by omega) (by omega) h0 hok
  have hF3 : sr3.mAudioSamplesPerChunk = w.sr.mAudioSamplesPerChunk := by
    have h := congrArg Session.mAudioSamplesPerChunk hsame
    exact h
  have htop : FeedAudioData.topOff w.sr xs xs.length = .ok (w.sr, 0, []) := by
    simp [FeedAudioData.topOff, h0]
  have hsplit := split_block_spec fuel w.sr xs 0 [] hF (Nat.zero_le _) hb hfuel
  simp only [Nat.sub_zero, Nat.zero_add, List.nil_append] at hsplit
  have hrun : FeedAudioData fuel xs xs.length prov w = .ok
      { w with
        sr := sr3
        queue := w.queue ++
          [{ mType := .EVENT_AUDIO_DATA
             mAudioSegment := CreateAudioSegment sr3
               ((List.range (xs.length / w.sr.mAudioSamplesPerChunk)).map
                 (fun i => (xs.drop (i * w.sr.mAudioSamplesPerChunk)).take
                    w.sr.mAudioSamplesPerChunk))
             mProvider := prov }] } := by
    simp only [FeedAudioData, htop, hsplit, h3]
  refine ⟨_, hrun, ?_, rfl, hok3, hret3, ?_, hsame⟩
  · simp [CreateAudioSegment, frames, hF3]
  · rw [hb3]; omega

theorem FeedAudioData_spec_partial (fuel : Nat) (xs : List Int) (prov : Option Nat)
    (w : World) (hok : w.sr.bufferOk = true) (h0 : 0 < w.sr.mBufferedSamples)
    (hlt : w.sr.mBufferedSamples + xs.length < w.sr.mAudioSamplesPerChunk)
    (hb : xs.length + w.sr.mAudioSamplesPerChunk < UINT32_MOD) :
    ∃ w1, FeedAudioData fuel xs xs.length prov w = .ok w1 ∧
      w1.queue = w.queue ++
        [{ mType := .EVENT_AUDIO_DATA, mAudioSegment := [], mProvider := prov }] ∧
      w1.trace = w.trace ∧
      w1.sr.bufferOk = true ∧
      w1.sr.retained = w.sr.retained ++ xs ∧
      w1.sr.mBufferedSamples = w.sr.mBufferedSamples + xs.length ∧
      w1.sr = { w.sr with mBufferedSamples := w1.sr.mBufferedSamples,
                          mAudioSamplesBuffer := w1.sr.mAudioSamplesBuffer } := by
  have hok2 := hok
  unfold Session.bufferOk at hok2
  cases hbuf : w.sr.mAudioSamplesBuffer with
  | none => simp [hbuf] at hok2; omega
  | some buf =>
    simp [hbuf] at hok2
    have hmF : (w.sr.mAudioSamplesPerChunk - w.sr.mBufferedSamples) % UINT32_MOD =
        w.sr.mAudioSamplesPerChunk - w.sr.mBufferedSamples := Nat.mod_eq_of_lt (by omega)
    have hmin : min xs.length (w.sr.mAudioSamplesPerChunk - w.sr.mBufferedSamples) =
        xs.length := Nat.min_eq_left (by omega)
    have hm1 : (w.sr.mBufferedSamples + xs.length) % UINT32_MOD =
        w.sr.mBufferedSamples + xs.length := Nat.mod_eq_of_lt (by omega)
    have hm2 : xs.length % UINT32_MOD = xs.length := Nat.mod_eq_of_lt (by omega)
    have hne : w.sr.mBufferedSamples + xs.length ≠ w.sr.mAudioSamplesPerChunk := by omega
    have hrun : FeedAudioData fuel xs xs.length prov w = .ok
        { w with
          sr := { w.sr with
                  mAudioSamplesBuffer := some (buf.take w.sr.mBufferedSamples ++ xs ++
                    buf.drop (w.sr.mBufferedSamples + xs.length))
                  mBufferedSamples := w.sr.mBufferedSamples + xs.length }
          queue := w.queue ++
            [{ mType := .EVENT_AUDIO_DATA, mAudioSegment := [], mProvider := prov }] } := by
      simp [FeedAudioData, FeedAudioData.topOff, FeedAudioData.split, FeedAudioData.retain,
        FillSamplesBuffer, h0, hok2.1, hbuf, hmF, hmin, hm1, hm2, hne, CreateAudioSegment]
    refine ⟨_, hrun, rfl, rfl, ?_, ?_, rfl, ?_⟩
    · simp [Session.bufferOk, hlt, List.length_take, hok2.2]
      omega
    · have hl : (buf.take w.sr.mBufferedSamples ++ xs).length =
          w.sr.mBufferedSamples + xs.length := by
        simp [List.length_take]; omega
      simp only [Session.retained, hbuf]
      rw [← hl, List.take_left]
    · rfl

theorem FeedAudioData_spec_full (fuel : Nat) (xs : List Int) (prov : Option Nat)
    (w : World) (hok : w.sr.bufferOk = true) (h0 : 0 < w.sr.mBufferedSamples)
    (hge : w.sr.mAudioSamplesPerChunk ≤ w.sr.mBufferedSamples + xs.length)
    (hb : xs.length + w.sr.mAudioSamplesPerChunk < UINT32_MOD) (hfuel : xs.length < fuel) :
    ∃ w1, FeedAudioData fuel xs xs.length prov w = .ok w1 ∧
      w1.queue = w.queue ++
        [{ mType := .EVENT_AUDIO_DATA
           mAudioSegment := (frames w.sr.mAudioSamplesPerChunk (w.sr.retained ++ xs)).map
              (fun c => ⟨c, w.sr.mAudioSamplesPerChunk⟩)
           mProvider := prov }] ∧
      w1.trace = w.trace ∧
      w1.sr.bufferOk = true ∧
      w1.sr.retained = (w.sr.retained ++ xs).drop
        (w.sr.mAudioSamplesPerChunk *
          ((w.sr.retained ++ xs).length / w.sr.mAudioSamplesPerChunk)) ∧
      w1.sr.mBufferedSamples =
        (w.sr.retained ++ xs).length % w.sr.mAudioSamplesPerChunk ∧
      w1.sr = { w.sr with mBufferedSamples := w1.sr.mBufferedSamples,
                          mAudioSamplesBuffer := w1.sr.mAudioSamplesBuffer } := by
  have hrl := retained_length w.sr hok
  have hok2 := hok
  unfold Session.bufferOk at hok2
  cases hbuf : w.sr.mAudioSamplesBuffer with
  | none => simp [hbuf] at hok2; omega
  | some buf =>
    simp [hbuf] at hok2
    obtain ⟨hbF, hlen⟩ := hok2
    have hF : 0 < w.sr.mAudioSamplesPerChunk := by omega
    have hmF : (w.sr.mAudioSamplesPerChunk - w.sr.mBufferedSamples) % UINT32_MOD =
        w.sr.mAudioSamplesPerChunk - w.sr.mBufferedSamples := Nat.mod_eq_of_lt (by omega)
    have hmin : min xs.length (w.sr.mAudioSamplesPerChunk - w.sr.mBufferedSamples) =
        w.sr.mAudioSamplesPerChunk - w.sr.mBufferedSamples := Nat.min_eq_right (by omega)
    have hsum : w.sr.mBufferedSamples +
        (w.sr.mAudioSamplesPerChunk - w.sr.mBufferedSamples) = w.sr.mAudioSamplesPerChunk := by
      omega
    have hm1 : w.sr.mAudioSamplesPerChunk % UINT32_MOD = w.sr.mAudioSamplesPerChunk :=
      Nat.mod_eq_of_lt (by omega)
    have hdrop : buf.drop w.sr.mAudioSamplesPerChunk = [] :=
      List.drop_eq_nil_of_le (by omega)
    -- the session after the first block
    let sr1 : Session := { w.sr with mAudioSamplesBuffer := none, mBufferedSamples := 0 }
    have htop : FeedAudioData.topOff w.sr xs xs.length = .ok
        (sr1, w.sr.mAudioSamplesPerChunk - w.sr.mBufferedSamples,
          [w.sr.retained ++ xs.take (w.sr.mAudioSamplesPerChunk - w.sr.mBufferedSamples)]) := by
      simp [FeedAudioData.topOff, FillSamplesBuffer, h0, hbF, hbuf, hmF, hmin, hsum, hm1,
        hdrop, Session.retained, sr1]
    have hok1 : sr1.bufferOk = true := by simp [Session.bufferOk, sr1, hF]
    set idx := w.sr.mAudioSamplesPerChunk - w.sr.mBufferedSamples with hidx
    set q := (xs.length - idx) / w.sr.mAudioSamplesPerChunk with hq
    have hdm : w.sr.mAudioSamplesPerChunk * q +
        (xs.length - idx) % w.sr.mAudioSamplesPerChunk = xs.length - idx :=
      Nat.div_add_mod (xs.length - idx) w.sr.mAudioSamplesPerChunk
    have hml := Nat.mod_lt (xs.length - idx) hF
    have hsplit : FeedAudioData.split fuel sr1 xs xs.length idx
        [w.sr.retained ++ xs.take idx] = .ok
          (idx + w.sr.mAudioSamplesPerChunk * q,
            [w.sr.retained ++ xs.take idx] ++ (List.range q).map
              (fun i => (xs.drop (idx + i * w.sr.mAudioSamplesPerChunk)).take
                w.sr.mAudioSamplesPerChunk)) :=
      split_block_spec fuel sr1 xs idx [w.sr.retained ++ xs.take idx] hF (by omega) hb hfuel
    obtain ⟨sr3, h3, hok3, hret3, hb3, hsame⟩ :=
      retain_block_spec sr1 xs (idx + w.sr.mAudioSamplesPerChunk * q)
        (by omega) (by show _ < w.sr.mAudioSamplesPerChunk; omega)
        (by show w.sr.mAudioSamplesPerChunk < _; omega) rfl hok1
    have hF3 : sr3.mAudioSamplesPerChunk = w.sr.mAudioSamplesPerChunk := by
      have h := congrArg Session.mAudioSamplesPerChunk hsame
      exact h
    have hrun : FeedAudioData fuel xs xs.length prov w = .ok
        { w with
          sr := sr3
          queue := w.queue ++
            [{ mType := .EVENT_AUDIO_DATA
               mAudioSegment := CreateAudioSegment sr3
                 ([w.sr.retained ++ xs.take idx] ++ (List.range q).map
                   (fun i => (xs.drop (idx + i * w.sr.mAudioSamplesPerChunk)).take
                      w.sr.mAudioSamplesPerChunk))
               mProvider := prov }] } := by
      simp only [FeedAudioData, htop, hsplit, h3]
    have hall : (w.sr.retained ++ xs).length = (xs.length - idx) + w.sr.mAudioSamplesPerChunk := by
      simp only [List.length_append, hrl]; omega
    have hdiv : (w.sr.retained ++ xs).length / w.sr.mAudioSamplesPerChunk = q + 1 := by
      rw [hall, Nat.add_div_right _ hF]
    have hmod : (w.sr.retained ++ xs).length % w.sr.mAudioSamplesPerChunk =
        (xs.length - idx) % w.sr.mAudioSamplesPerChunk := by
      rw [hall, Nat.add_mod_right]
    have hdropall : ∀ j, (w.sr.retained ++ xs).drop (w.sr.mAudioSamplesPerChunk + j) =
        xs.drop (idx + j) := by
      intro j
      have : w.sr.mAudioSamplesPerChunk + j = w.sr.retained.length + (idx + j) := by
        rw [hrl]; omega
      rw [this, List.drop_append]
    refine ⟨_, hrun, ?_, rfl, hok3, ?_, ?_, ?_⟩
    · have hfr : frames w.sr.mAudioSamplesPerChunk (w.sr.retained ++ xs) =
          [w.sr.retained ++ xs.take idx] ++ (List.range q).map
            (fun i => (xs.drop (idx + i * w.sr.mAudioSamplesPerChunk)).take
              w.sr.mAudioSamplesPerChunk) := by
        unfold frames
        rw [hdiv]
        have := range_map_shift w.sr.mAudioSamplesPerChunk 0 q (w.sr.retained ++ xs)
        simp only [Nat.zero_add, List.drop_zero] at this
        rw [this]
        simp only [hdropall, List.singleton_append, List.take_append_eq_append_take, hrl]
        rw [List.take_of_length_le (by omega)]
      simp [CreateAudioSegment, hfr, hF3]
    · rw [hret3, hdiv, Nat.mul_add, Nat.mul_one,
        Nat.add_comm (w.sr.mAudioSamplesPerChunk * q) w.sr.mAudioSamplesPerChunk, hdropall]
    · rw [hb3, hmod]; omega
    · exact hsame

theorem FeedAudioData_spec (fuel : Nat) (xs : List Int) (prov : Option Nat) (w : World)
    (hok : w.sr.bufferOk = true)
    (hb : xs.length + w.sr.mAudioSamplesPerChunk < UINT32_MOD) (hfuel : xs.length < fuel) :
    ∃ w1, FeedAudioData fuel xs xs.length prov w = .ok w1 ∧
      w1.queue = w.queue ++
        [{ mType := .EVENT_AUDIO_DATA
           mAudioSegment := (frames w.sr.mAudioSamplesPerChunk (w.sr.retained ++ xs)).map
              (fun c => ⟨c, w.sr.mAudioSamplesPerChunk⟩)
           mProvider := prov }] ∧
      w1.trace = w.trace ∧
      w1.sr.bufferOk = true ∧
      w1.sr.retained = (w.sr.retained ++ xs).drop
        (w.sr.mAudioSamplesPerChunk *
          ((w.sr.retained ++ xs).length / w.sr.mAudioSamplesPerChunk)) ∧
      w1.sr.mBufferedSamples =
        (w.sr.retained ++ xs).length % w.sr.mAudioSamplesPerChunk ∧
      w1.sr = { w.sr with mBufferedSamples := w1.sr.mBufferedSamples,
                          mAudioSamplesBuffer := w1.sr.mAudioSamplesBuffer } := by
  have hrl := retained_length w.sr hok
  rcases Nat.eq_zero_or_pos w.sr.mBufferedSamples with h0 | h0
  · have hnil : w.sr.retained = [] := List.eq_nil_of_length_eq_zero (by omega)
    rw [hnil]
    simpa using FeedAudioData_spec_empty fuel xs prov w hok h0 hb hfuel
  · by_cases hlt : w.sr.mBufferedSamples + xs.length < w.sr.mAudioSamplesPerChunk
    · obtain ⟨w1, h1, h2, h3, h4, h5, h6, h7⟩ :=
        FeedAudioData_spec_partial fuel xs prov w hok h0 hlt hb
      have hlen : (w.sr.retained ++ xs).length < w.sr.mAudioSamplesPerChunk := by
        simp only [List.length_append, hrl]; exact hlt
      have hdiv : (w.sr.retained ++ xs).length / w.sr.mAudioSamplesPerChunk = 0 :=
        Nat.div_eq_of_lt hlen
      refine ⟨w1, h1, ?_, h3, h4, ?_, ?_, h7⟩
      · rw [h2]; unfold frames; rw [hdiv]; rfl
      · rw [h5, hdiv]; simp
      · rw [h6, Nat.mod_eq_of_lt hlen]; simp [hrl]
    · exact FeedAudioData_spec_full fuel xs prov w hok h0 (by omega) hb hfuel

theorem frames_length (F : Nat) (l : List Int) : (frames F l).length = l.length / F := by
  simp [frames]

theorem frames_mem_length (F : Nat) (l : List Int) (c : SharedBuffer)
    (hc : c ∈ frames F l) : c.length = F := by
  simp only [frames, List.mem_map, List.mem_range] at hc
  obtain ⟨i, hi, rfl⟩ := hc
  have h1 : (i + 1) * F ≤ l.length / F * F := Nat.mul_le_mul_right F hi
  have h2 := Nat.div_mul_le_self l.length F
  rw [Nat.add_mul, Nat.one_mul] at h1
  simp only [List.length_take, List.length_drop]
  omega

theorem range_frames_join (F : Nat) (l : List Int) :
    ∀ k, k * F ≤ l.length →
      ((List.range k).map (fun i => (l.drop (i * F)).take F)).flatten = l.take (k * F) := by
  intro k
  induction k with
  | zero => intro _; simp
  | succ k ih =>
    intro hk
    rw [Nat.add_mul, Nat.one_mul] at hk
    rw [List.range_succ, List.map_append, List.flatten_append, ih (by omega), Nat.add_mul,
      Nat.one_mul, List.take_add]
    simp

theorem frames_join (F : Nat) (l : List Int) :
    (frames F l).flatten ++ l.drop (F * (l.length / F)) = l := by
  unfold frames
  rw [range_frames_join F l _ (Nat.div_mul_le_self _ _), Nat.mul_comm, List.take_append_drop]

theorem splitLoop_wraps (buf : List Int) :
    ∀ (fuel cs : Nat) (acc : List SharedBuffer), cs = 0 ∨ cs = 2 ^ 31 →
      SplitSamplesBufferLoop (2 ^ 31) buf (2 ^ 31) fuel cs acc = .error .outOfFuel := by
  intro fuel
  induction fuel with
  | zero => intro cs acc _; rfl
  | succ fuel ih =>
    intro cs acc hcs
    unfold SplitSamplesBufferLoop
    rcases hcs with h | h
    · subst h
      have h1 : (0 + 2 ^ 31) % UINT32_MOD = 2 ^ 31 := by decide
      rw [h1, if_pos (Nat.le_refl _)]
      exact ih _ _ (Or.inr rfl)
    · subst h
      have h1 : (2 ^ 31 + 2 ^ 31) % UINT32_MOD = 0 := by decide
      rw [h1, if_pos (Nat.zero_le _)]
      exact ih _ _ (Or.inl rfl)

theorem FeedAudioData_wraps (fuel : Nat) (xs : List Int) :
    FeedAudioData fuel xs (2 ^ 31) none (World.fresh (2 ^ 31)) = .error .outOfFuel := by
  have h1 : (2 ^ 31 - 0) % UINT32_MOD = 2 ^ 31 := by decide
  simp only [FeedAudioData, FeedAudioData.topOff, World.fresh, Session.fresh,
    Nat.lt_irrefl, if_false, FeedAudioData.split, SplitSamplesBuffer]
  rw [if_pos (by decide), h1, splitLoop_wraps _ _ _ _ (Or.inl rfl)]


/-! ## The rechunker: chunk count and sample preservation -/

/-- C1 (amended): for a session whose retained buffer is in order (`b < F`, hence
`F > 0`) and an input of `n` samples with `n + F < 2 ^ 32`, one `FeedAudioData`
call returns (with fuel above `n`), posts one audio event whose segment has
exactly `(b + n) / F` chunks, each of exactly `F` samples, and leaves
`(b + n) % F` samples retained. -/
theorem C1_FeedAudioData_chunk_count (fuel : Nat) (xs : List Int) (prov : Option Nat)
    (w : World) (hok : w.sr.bufferOk = true)
    (hb : xs.length + w.sr.mAudioSamplesPerChunk < UINT32_MOD) (hfuel : xs.length < fuel) :
    ∃ w1 segment, FeedAudioData fuel xs xs.length prov w = .ok w1 ∧
      w1.queue = w.queue ++
        [{ mType := .EVENT_AUDIO_DATA, mAudioSegment := segment, mProvider := prov }] ∧
      segment.length = (w.sr.mBufferedSamples + xs.length) / w.sr.mAudioSamplesPerChunk ∧
      (∀ c ∈ segment, c.mBuffer.length = w.sr.mAudioSamplesPerChunk ∧
        c.mDuration = w.sr.mAudioSamplesPerChunk) ∧
      w1.sr.mBufferedSamples =
        (w.sr.mBufferedSamples + xs.length) % w.sr.mAudioSamplesPerChunk := by
  obtain ⟨w1, h1, h2, -, -, -, h6, -⟩ := FeedAudioData_spec fuel xs prov w hok hb hfuel
  have hrl := retained_length w.sr hok
  refine ⟨w1, _, h1, h2, ?_, ?_, ?_⟩
  · simp [frames_length, hrl]
  · intro c hc
    simp only [List.mem_map] at hc
    obtain ⟨b, hb, rfl⟩ := hc
    exact ⟨frames_mem_length _ _ b hb, rfl⟩
  · rw [h6]; simp [hrl]

/-- Witness of C1: a fresh session with frames of 4 samples is fed 10 samples. -/
theorem C1_FeedAudioData_chunk_count_witness :
    ∃ w1 segment,
      FeedAudioData 11 [1, 2, 3, 4, 5, 6, 7, 8, 9, 10] 10 none (World.fresh 4) = .ok w1 ∧
      w1.queue = (World.fresh 4).queue ++
        [{ mType := .EVENT_AUDIO_DATA, mAudioSegment := segment, mProvider := none }] ∧
      segment.length = (0 + 10) / 4 ∧
      (∀ c ∈ segment, c.mBuffer.length = 4 ∧ c.mDuration = 4) ∧
      w1.sr.mBufferedSamples = (0 + 10) % 4 :=
  C1_FeedAudioData_chunk_count 11 [1, 2, 3, 4, 5, 6, 7, 8, 9, 10] none (World.fresh 4)
    (by decide) (by decide) (by decide)

/-- C1 as stated fails: with frames of `2 ^ 31` samples, an empty retained buffer
and an input of `2 ^ 31` samples, the 32-bit sum `chunkStart + F` wraps to 0 after
the first chunk, the loop of `SplitSamplesBuffer` never ends, and no amount of fuel
makes the call return one chunk. -/
theorem C1_chunk_count_fails_on_wrap :
    ¬ ∃ fuel w1 segment,
      FeedAudioData fuel (List.replicate (2 ^ 31) 0) (2 ^ 31) none (World.fresh (2 ^ 31)) =
        .ok w1 ∧
      w1.queue = [{ mType := .EVENT_AUDIO_DATA, mAudioSegment := segment }] ∧
      segment.length = (0 + 2 ^ 31) / 2 ^ 31 := by
  rintro ⟨fuel, w1, segment, h, -⟩
  rw [FeedAudioData_wraps] at h
  cases h

/-- C2 (amended): for a session whose retained buffer is in order and an input
`xs` with `|xs| + F < 2 ^ 32`, one `FeedAudioData` call returns (with fuel above
`|xs|`), and the samples of the posted chunks, concatenated in order and followed
by the new retained content, are the old retained content followed by `xs`. -/
theorem C2_FeedAudioData_preserves_samples (fuel : Nat) (xs : List Int) (prov : Option Nat)
    (w : World) (hok : w.sr.bufferOk = true)
    (hb : xs.length + w.sr.mAudioSamplesPerChunk < UINT32_MOD) (hfuel : xs.length < fuel) :
    ∃ w1 segment, FeedAudioData fuel xs xs.length prov w = .ok w1 ∧
      w1.queue = w.queue ++
        [{ mType := .EVENT_AUDIO_DATA, mAudioSegment := segment, mProvider := prov }] ∧
      (segment.map AudioChunk.mBuffer).flatten ++ w1.sr.retained = w.sr.retained ++ xs := by
  obtain ⟨w1, h1, h2, -, -, h5, -, -⟩ := FeedAudioData_spec fuel xs prov w hok hb hfuel
  refine ⟨w1, _, h1, h2, ?_⟩
  rw [h5, List.map_map]
  have : (AudioChunk.mBuffer ∘ fun c => (⟨c, w.sr.mAudioSamplesPerChunk⟩ : AudioChunk)) = id := rfl
  rw [this, List.map_id, frames_join]

/-- Witness of C2: a session retaining three samples is fed six more. -/
theorem C2_FeedAudioData_preserves_samples_witness :
    ∃ w1 segment,
      FeedAudioData 7 [1, 2, 3, 4, 5, 6] 6 (some 1) retainingWorld = .ok w1 ∧
      w1.queue = retainingWorld.queue ++
        [{ mType := .EVENT_AUDIO_DATA, mAudioSegment := segment, mProvider := some 1 }] ∧
      (segment.map AudioChunk.mBuffer).flatten ++ w1.sr.retained =
        retainingWorld.sr.retained ++ [1, 2, 3, 4, 5, 6] :=
  C2_FeedAudioData_preserves_samples 7 [1, 2, 3, 4, 5, 6] (some 1) retainingWorld
    (by decide) (by decide) (by decide)

/-- C2 as stated fails: on the wrapping input (frames of `2 ^ 31` samples, an
input of `2 ^ 31` samples) the call never returns, so no amount of fuel yields
chunks and a retained buffer that add up to the input. -/
theorem C2_preservation_fails_on_wrap :
    ¬ ∃ fuel w1 segment,
      FeedAudioData fuel (List.replicate (2 ^ 31) 0) (2 ^ 31) none (World.fresh (2 ^ 31)) =
        .ok w1 ∧
      w1.queue = [{ mType := .EVENT_AUDIO_DATA, mAudioSegment := segment }] ∧
      (segment.map AudioChunk.mBuffer).flatten ++ w1.sr.retained =
        (World.fresh (2 ^ 31)).sr.retained ++ List.replicate (2 ^ 31) 0 := by
  rintro ⟨fuel, w1, segment, h, -⟩
  rw [FeedAudioData_wraps] at h
  cases h

/-- The example of the rechunking contract with frames of 4 samples: 10 samples
(two and a half frames) give 2 chunks and 2 retained samples, and 2 more samples
give exactly 1 chunk and an empty retained buffer. -/
theorem FeedAudioData_two_and_a_half_frames :
    ∃ w1 w2 c1 c2 c3,
      FeedAudioData 11 [1, 2, 3, 4, 5, 6, 7, 8, 9, 10] 10 none (World.fresh 4) = .ok w1 ∧
      w1.queue = [{ mType := .EVENT_AUDIO_DATA, mAudioSegment := [c1, c2] }] ∧
      w1.sr.mBufferedSamples = 2 ∧
      FeedAudioData 3 [11, 12] 2 none { w1 with queue := [] } = .ok w2 ∧
      w2.queue = [{ mType := .EVENT_AUDIO_DATA, mAudioSegment := [c3] }] ∧
      w2.sr.mBufferedSamples = 0 :=
  ⟨_, _, _, _, _, rfl, rfl, rfl, rfl, rfl, rfl⟩

/-! ## The state machine -/

theorem passive_sr {env : Env} (h : Passive env) (n : Notification) (w : World) :
    (env.observer n w).sr = w.sr := (h n w).1

theorem passive_trace {env : Env} (h : Passive env) (n : Notification) (w : World) :
    (env.observer n w).trace = w.trace := (h n w).2

theorem quietEnv_passive : Passive quietEnv := fun _ _ => ⟨rfl, rfl⟩

theorem notifications_append (a b : List Effect) :
    notifications (a ++ b) = notifications a ++ notifications b := by
  induction a with
  | nil => rfl
  | cons x a ih => cases x <;> simp [notifications, ih]

theorem streamHeld_iff (sr : Session) :
    sr.streamHeld = true ↔
      ∃ stream, sr.mDOMStream = some stream ∧ stream.hasStream = true := by
  unfold Session.streamHeld
  cases sr.mDOMStream <;> simp

/-- With the stream held, `StopRecording` removes the listener, releases the stream,
closes the detector's session and emits `audioend`. -/
theorem StopRecording_held (env : Env) (w : World) (h : w.sr.streamHeld = true) :
    StopRecording env w = .ok (DispatchTrustedEvent env "audioend"
      { w with
        sr := { w.sr with
                mDOMStream := none
                mEndpointer := { w.sr.mEndpointer with inSession := false } }
        trace := w.trace ++ [.removeListener] }) := by
  obtain ⟨stream, hs, hh⟩ := (streamHeld_iff _).mp h
  simp [StopRecording, hs, hh]

/-- Without a stream held, `StopRecording` dereferences a null pointer. -/
theorem StopRecording_released (env : Env) (w : World) (h : w.sr.streamHeld = false) :
    StopRecording env w = .error .nullDeref := by
  unfold Session.streamHeld at h
  unfold StopRecording
  cases hd : w.sr.mDOMStream with
  | none => rfl
  | some stream =>
    rw [hd] at h
    simp only at h
    simp [h]

/-- Whenever `StopRecording` returns, the stream was held. -/
theorem StopRecording_ok (env : Env) (w w1 : World) (h : StopRecording env w = .ok w1) :
    w.sr.streamHeld = true ∧
      w1 = DispatchTrustedEvent env "audioend"
        { w with
          sr := { w.sr with
                  mDOMStream := none
                  mEndpointer := { w.sr.mEndpointer with inSession := false } }
          trace := w.trace ++ [.removeListener] } := by
  by_cases hh : w.sr.streamHeld = true
  · rw [StopRecording_held env w hh] at h
    injection h with h
    exact ⟨hh, h.symm⟩
  · rw [StopRecording_released env w (by simpa using hh)] at h
    cases h

/-- What `AbortSilently` does when the listeners are passive and the stream is held
whenever the capture is active: it returns, with the exact actions, in order, and
the reset session. -/
theorem AbortSilently_passive (env : Env) (hp : Passive env) (e : SpeechEvent) (w : World)
    (hh : isCapturing w.sr.mCurrentState = true → w.sr.streamHeld = true) :
    ∃ w1, AbortSilently env e w = .ok w1 ∧
      w1.trace = w.trace ++
        ([.setState .STATE_ABORTING] ++
          (if w.sr.mRecognitionService.isSome then [.serviceAbort] else []) ++
          (if isCapturing w.sr.mCurrentState then
            [.removeListener, .notify (.trusted "audioend")] else []) ++
          [.setState .STATE_IDLE, .timerCancel, .notify (.trusted "end")]) ∧
      w1.sr.mCurrentState = .STATE_IDLE ∧
      w1.sr.mRecognitionService = none ∧
      w1.sr.mEstimationSamples = 0 ∧
      w1.sr.mBufferedSamples = 0 ∧
      w1.sr.mSpeechDetectionTimer = false ∧
      (isCapturing w.sr.mCurrentState = true → w1.sr.mDOMStream = none) ∧
      w1.sr.mPriorityEvents = w.sr.mPriorityEvents := by
  obtain ⟨s, hs⟩ : ∃ s, w.sr.mCurrentState = s := ⟨_, rfl⟩
  obtain ⟨b, hb⟩ : ∃ b, w.sr.mRecognitionService = b := ⟨_, rfl⟩
  by_cases hc : isCapturing w.sr.mCurrentState = true
  · obtain ⟨stream, hst, hhas⟩ := (streamHeld_iff _).mp (hh hc)
    cases s <;> cases b <;> simp [isCapturing, hs] at hc <;>
      simp [AbortSilently, StateBetween, SetState, StopRecording, hst, hhas, ResetAndEnd,
        Reset, CancelTimer, DispatchTrustedEvent, DispatchEvent, passive_sr hp,
        passive_trace hp, hs, hb, FSMState.toNat, isCapturing]
  · cases s <;> cases b <;> simp [isCapturing, hs] at hc <;>
      simp [AbortSilently, StateBetween, SetState, ResetAndEnd,
        Reset, CancelTimer, DispatchTrustedEvent, DispatchEvent, passive_sr hp,
        passive_trace hp, hs, hb, FSMState.toNat, isCapturing]

/-- While the capture is active and no stream is held, `AbortSilently` dereferences a
null pointer in `StopRecording`. -/
theorem AbortSilently_released (env : Env) (e : SpeechEvent) (w : World)
    (hc : isCapturing w.sr.mCurrentState = true) (hh : w.sr.streamHeld = false) :
    AbortSilently env e w = .error .nullDeref := by
  obtain ⟨s, hs⟩ : ∃ s, w.sr.mCurrentState = s := ⟨_, rfl⟩
  obtain ⟨b, hb⟩ : ∃ b, w.sr.mRecognitionService = b := ⟨_, rfl⟩
  have hrel : ∀ w2 : World, w2.sr.mDOMStream = w.sr.mDOMStream →
      StopRecording env w2 = .error .nullDeref := by
    intro w2 h2
    apply StopRecording_released
    unfold Session.streamHeld at hh ⊢
    rw [h2]
    exact hh
  cases s <;> cases b <;> simp [isCapturing, hs] at hc <;>
    simp [AbortSilently, StateBetween, SetState, hs, hb, FSMState.toNat, hrel]

/-- Whenever `AbortSilently` returns, the stream was held if the capture was active. -/
theorem AbortSilently_ok (env : Env) (e : SpeechEvent) (w w1 : World)
    (h : AbortSilently env e w = .ok w1) :
    isCapturing w.sr.mCurrentState = true → w.sr.streamHeld = true := by
  intro hc
  by_contra hh
  rw [AbortSilently_released env e w hc (by simpa using hh)] at h
  cases h

/-- `AbortSilently` returns, whatever the listeners do, when the stream is held
whenever the capture is active. -/
theorem AbortSilently_returns (env : Env) (e : SpeechEvent) (w : World)
    (hh : isCapturing w.sr.mCurrentState = true → w.sr.streamHeld = true) :
    ∃ w1, AbortSilently env e w = .ok w1 := by
  obtain ⟨s, hs⟩ : ∃ s, w.sr.mCurrentState = s := ⟨_, rfl⟩
  obtain ⟨b, hb⟩ : ∃ b, w.sr.mRecognitionService = b := ⟨_, rfl⟩
  by_cases hc : isCapturing w.sr.mCurrentState = true
  · obtain ⟨stream, hst, hhas⟩ := (streamHeld_iff _).mp (hh hc)
    cases s <;> cases b <;> simp [isCapturing, hs] at hc <;>
      simp [AbortSilently, StateBetween, SetState, StopRecording, hst, hhas, hs, hb,
        FSMState.toNat]
  · cases s <;> cases b <;> simp [isCapturing, hs] at hc <;>
      simp [AbortSilently, StateBetween, SetState, hs, hb, FSMState.toNat]

/-- Whenever `AbortSilently` returns, with passive listeners: the exact actions, in
order, and the reset session. -/
theorem AbortSilently_returned (env : Env) (hp : Passive env) (e : SpeechEvent)
    (w w1 : World) (h : AbortSilently env e w = .ok w1) :
    w1.trace = w.trace ++
        ([.setState .STATE_ABORTING] ++
          (if w.sr.mRecognitionService.isSome then [.serviceAbort] else []) ++
          (if isCapturing w.sr.mCurrentState then
            [.removeListener, .notify (.trusted "audioend")] else []) ++
          [.setState .STATE_IDLE, .timerCancel, .notify (.trusted "end")]) ∧
      w1.sr.mCurrentState = .STATE_IDLE ∧
      w1.sr.mRecognitionService = none ∧
      w1.sr.mEstimationSamples = 0 ∧
      w1.sr.mBufferedSamples = 0 ∧
      w1.sr.mSpeechDetectionTimer = false ∧
      (isCapturing w.sr.mCurrentState = true → w1.sr.mDOMStream = none) ∧
      w1.sr.mPriorityEvents = w.sr.mPriorityEvents := by
  obtain ⟨w2, h2, hrest⟩ := AbortSilently_passive env hp e w (AbortSilently_ok env e w w1 h)
  rw [h] at h2
  injection h2 with h2
  subst h2
  exact hrest

/-- Whenever `AbortError` returns, `AbortSilently` has returned and `error` was
delivered next. -/
theorem AbortError_returned (env : Env) (e : SpeechEvent) (w w1 : World)
    (h : AbortError env e w = .ok w1) :
    ∃ w0, AbortSilently env e w = .ok w0 ∧ w1 = DispatchEvent env (.error e.mError) w0 := by
  unfold AbortError at h
  split at h
  · cases h
  · rename_i w0 h0
    injection h with h
    exact ⟨w0, h0, h.symm⟩

/-- What `AbortError` does when `AbortSilently` returns: it delivers `error` next. -/
theorem AbortError_ok (env : Env) (e : SpeechEvent) (w w1 : World)
    (h : AbortSilently env e w = .ok w1) :
    AbortError env e w = .ok (DispatchEvent env (.error e.mError) w1) := by
  simp [AbortError, h, NotifyError]

/-- C3 (amended): for every session in WaitingForResult, `Transition` on a final
result leaves the state Idle and emits `end` and then `result` (carrying the
event's result list), in that order, each exactly once. -/
theorem C3_final_result_emits_end_then_result (env : Env) (hp : Passive env)
    (e : SpeechEvent) (w : World)
    (hs : w.sr.mCurrentState = .STATE_WAITING_FOR_RESULT)
    (ht : e.mType = .EVENT_RECOGNITIONSERVICE_FINAL_RESULT) :
    ∃ w1 new, Transition env e w = .ok w1 ∧ w1.trace = w.trace ++ new ∧
      w1.sr.mCurrentState = .STATE_IDLE ∧
      notifications new = [.trusted "end", .result e.mRecognitionResultList] := by
  refine ⟨NotifyFinalResult env e w,
    [.setState .STATE_IDLE, .timerCancel, .notify (.trusted "end"),
      .notify (.result e.mRecognitionResultList)], ?_, ?_, ?_, rfl⟩
  · simp [Transition, hs, ht]
  · simp [NotifyFinalResult, ResetAndEnd, Reset, SetState, CancelTimer,
      DispatchTrustedEvent, DispatchEvent, passive_sr hp, passive_trace hp]
  · simp [NotifyFinalResult, ResetAndEnd, Reset, SetState, CancelTimer,
      DispatchTrustedEvent, DispatchEvent, passive_sr hp, passive_trace hp]

/-- Witness of C3: the final result `["hello"]` arrives in `waitingWorld`. -/
theorem C3_final_result_emits_end_then_result_witness :
    ∃ w1 new,
      Transition quietEnv
        { mType := .EVENT_RECOGNITIONSERVICE_FINAL_RESULT
          mRecognitionResultList := ["hello"] } waitingWorld = .ok w1 ∧
      w1.trace = waitingWorld.trace ++ new ∧
      w1.sr.mCurrentState = .STATE_IDLE ∧
      notifications new = [.trusted "end", .result ["hello"]] :=
  C3_final_result_emits_end_then_result quietEnv quietEnv_passive
    { mType := .EVENT_RECOGNITIONSERVICE_FINAL_RESULT, mRecognitionResultList := ["hello"] }
    waitingWorld rfl rfl

/-- C3 as stated fails: in `waitingWorld`, without listeners, a final result does
not emit `result` and then `end`; `NotifyFinalResult` calls `ResetAndEnd` first. -/
theorem C3_result_then_end_fails :
    ¬ ∃ w1 new,
      Transition quietEnv
        { mType := .EVENT_RECOGNITIONSERVICE_FINAL_RESULT
          mRecognitionResultList := ["hello"] } waitingWorld = .ok w1 ∧
      w1.trace = waitingWorld.trace ++ new ∧
      w1.sr.mCurrentState = .STATE_IDLE ∧
      notifications new = [.result ["hello"], .trusted "end"] := by
  rintro ⟨w1, new, h1, h2, -, h4⟩
  have hrun : Transition quietEnv
      { mType := .EVENT_RECOGNITIONSERVICE_FINAL_RESULT
        mRecognitionResultList := ["hello"] } waitingWorld =
      .ok { waitingWorld with
            sr := { waitingWorld.sr with
                    mCurrentState := .STATE_IDLE, mRecognitionService := none }
            trace := [.setState .STATE_IDLE, .timerCancel, .notify (.trusted "end"),
              .notify (.result ["hello"])] } := rfl
  rw [hrun] at h1
  injection h1 with h1
  subst h1
  simp only [waitingWorld, List.nil_append] at h2
  subst h2
  revert h4
  decide

/-- C4 (amended): for Starting, Recognizing and WaitingForResult with either error
type, and for Estimating and WaitingForSpeech with an audio error, when the capture
stream is held in the states where the capture is active (Estimating to
Recognizing), `Transition` stops capture if it was active, aborts the service if
one is attached, leaves the state Idle and emits `end` followed by `error`
(carrying the event's error); a service error in Estimating or WaitingForSpeech is
ignored: the world is unchanged. -/
theorem C4_error_aborts_with_end_then_error (env : Env) (hp : Passive env)
    (e : SpeechEvent) (w : World)
    (hs : isActive w.sr.mCurrentState = true) (ht : isErrorType e.mType = true) :
    (isIgnoredError w.sr.mCurrentState e.mType = true → Transition env e w = .ok w) ∧
    (isIgnoredError w.sr.mCurrentState e.mType = false →
      (isCapturing w.sr.mCurrentState = true → w.sr.streamHeld = true) →
      ∃ w1 new, Transition env e w = .ok w1 ∧ w1.trace = w.trace ++ new ∧
        w1.sr.mCurrentState = .STATE_IDLE ∧
        new.count .removeListener = (if isCapturing w.sr.mCurrentState then 1 else 0) ∧
        (isCapturing w.sr.mCurrentState = true → w1.sr.mDOMStream = none) ∧
        new.count .serviceAbort = (if w.sr.mRecognitionService.isSome then 1 else 0) ∧
        notifications new =
          (if isCapturing w.sr.mCurrentState then [.trusted "audioend"] else []) ++
            [.trusted "end", .error e.mError]) := by
  constructor
  · intro hi
    cases hs2 : w.sr.mCurrentState <;> cases ht2 : e.mType <;>
      simp_all [isIgnoredError, Transition, DoNothing]
  · intro hi hh
    obtain ⟨w0, h0, h1, h2, -, -, -, -, h4, -⟩ := AbortSilently_passive env hp e w hh
    have hrun : Transition env e w = AbortError env e w := by
      cases hs2 : w.sr.mCurrentState <;> cases ht2 : e.mType <;>
        simp_all [isActive, isErrorType, isIgnoredError, Transition]
    rw [hrun, AbortError_ok env e w w0 h0]
    refine ⟨_,
      ([.setState .STATE_ABORTING] ++
          (if w.sr.mRecognitionService.isSome then [.serviceAbort] else []) ++
          (if isCapturing w.sr.mCurrentState then
            [.removeListener, .notify (.trusted "audioend")] else []) ++
          [.setState .STATE_IDLE, .timerCancel, .notify (.trusted "end")]) ++
        [.notify (.error e.mError)], rfl, ?_, ?_, ?_, ?_, ?_, ?_⟩
    · simp only [DispatchEvent, passive_trace hp, h1, List.append_assoc]
    · simp [DispatchEvent, passive_sr hp, h2]
    · cases hc : isCapturing w.sr.mCurrentState <;>
        cases hb : w.sr.mRecognitionService <;> simp
    · intro hc
      simp [DispatchEvent, passive_sr hp, h4 hc]
    · cases hc : isCapturing w.sr.mCurrentState <;>
        cases hb : w.sr.mRecognitionService <;> simp
    · cases hc : isCapturing w.sr.mCurrentState <;>
        cases hb : w.sr.mRecognitionService <;> simp [notifications]

/-- Witness of C4: an audio error arrives in `estimatingWorld`, which holds the
capture stream. -/
theorem C4_error_aborts_with_end_then_error_witness :
    estimatingWorld.sr.streamHeld = true ∧
    ∃ w1 new,
      Transition quietEnv { mType := .EVENT_AUDIO_ERROR, mError := ⟨.AUDIO_CAPTURE, "lost"⟩ }
        estimatingWorld = .ok w1 ∧
      w1.trace = estimatingWorld.trace ++ new ∧
      w1.sr.mCurrentState = .STATE_IDLE ∧
      new.count .removeListener =
        (if isCapturing estimatingWorld.sr.mCurrentState then 1 else 0) ∧
      (isCapturing estimatingWorld.sr.mCurrentState = true → w1.sr.mDOMStream = none) ∧
      new.count .serviceAbort =
        (if estimatingWorld.sr.mRecognitionService.isSome then 1 else 0) ∧
      notifications new =
        (if isCapturing estimatingWorld.sr.mCurrentState then [.trusted "audioend"] else []) ++
          [.trusted "end", .error ⟨.AUDIO_CAPTURE, "lost"⟩] :=
  ⟨rfl, (C4_error_aborts_with_end_then_error quietEnv quietEnv_passive
    { mType := .EVENT_AUDIO_ERROR, mError := ⟨.AUDIO_CAPTURE, "lost"⟩ } estimatingWorld
    rfl rfl).2 rfl (fun _ => rfl)⟩

/-- C4 as stated fails: in `estimatingWorld` a service error does not leave the
state Idle; the transition table ignores it. -/
theorem C4_service_error_ignored_while_estimating :
    ¬ ∃ w1,
      Transition quietEnv
        { mType := .EVENT_RECOGNITIONSERVICE_ERROR, mError := ⟨.other 7, "down"⟩ }
        estimatingWorld = .ok w1 ∧
      w1.sr.mCurrentState = .STATE_IDLE := by
  rintro ⟨w1, h1, h2⟩
  have hrun : Transition quietEnv
      { mType := .EVENT_RECOGNITIONSERVICE_ERROR, mError := ⟨.other 7, "down"⟩ }
      estimatingWorld = .ok estimatingWorld := rfl
  rw [hrun] at h1
  injection h1 with h1
  subst h1
  exact absurd h2 (by decide)

/-- The run `staleAudioRun` returns, and leaves the session in Estimating with a
service attached and no stream held; its first abort request, dispatched while the
stream was held, has ended the first session as an abort should: after the seventh
action the state is Idle and the DOM events so far are `audiostart`, `start`,
`audioend`, `end`. -/
theorem staleAudioRun_spec :
    (∃ w0, run quietEnv (staleAudioRun.take 7) (World.fresh 160) = .ok w0 ∧
      w0.sr.mCurrentState = .STATE_IDLE ∧
      notifications w0.trace =
        [.trusted "audiostart", .trusted "start", .trusted "audioend", .trusted "end"]) ∧
    ∃ w, run quietEnv staleAudioRun (World.fresh 160) = .ok w ∧
      w.sr.mCurrentState = .STATE_ESTIMATING ∧
      w.sr.mRecognitionService.isSome = true ∧
      w.sr.mDOMStream = none ∧ w.queue = [] :=
  ⟨⟨_, rfl, rfl, rfl⟩, _, rfl, rfl, rfl, rfl, rfl⟩

/-- C5 (the code departs from it): after the run `staleAudioRun` the session is in
Estimating with a service attached and no stream held (the stream was released by
the abort of the first session); an abort request is then not handled as claimed:
`AbortSilently` calls `StopRecording`, which dereferences the null `mDOMStream`, and
the transition does not return. -/
theorem C5_abort_without_stream_does_not_return :
    (∃ w, run quietEnv staleAudioRun (World.fresh 160) = .ok w ∧
      isActive w.sr.mCurrentState = true ∧
      Transition quietEnv { mType := .EVENT_ABORT } w = .error .nullDeref) ∧
    run quietEnv (staleAudioRun ++ [.callAbort, .dispatch]) (World.fresh 160) =
      .error .nullDeref :=
  ⟨⟨_, rfl, rfl, rfl⟩, rfl⟩

/-- C7 (the code departs from it): after the run `staleAudioRun` the session is in
Estimating with a service attached and no stream held; a stop request then sets the
state to WaitingForResult and calls `SoundEnd`, but `StopRecording` dereferences the
null `mDOMStream`: the transition does not return and `audioend` is not emitted. -/
theorem C7_stop_without_stream_does_not_return :
    (∃ w, run quietEnv staleAudioRun (World.fresh 160) = .ok w ∧
      isCapturing w.sr.mCurrentState = true ∧
      w.sr.mRecognitionService.isSome = true ∧
      Transition quietEnv { mType := .EVENT_STOP } w = .error .nullDeref) ∧
    run quietEnv (staleAudioRun ++ [.callStop, .dispatch]) (World.fresh 160) =
      .error .nullDeref :=
  ⟨⟨_, rfl, rfl, rfl, rfl⟩, rfl⟩

/-- C9: for every state from Starting to WaitingForResult, `Transition` on a start
request reaches the `MOZ_NOT_REACHED` marker instead of returning with a new state. -/
theorem C9_start_while_active_traps (env : Env) (e : SpeechEvent) (w : World)
    (hs : isActive w.sr.mCurrentState = true) (ht : e.mType = .EVENT_START) :
    Transition env e w = .error .notReached := by
  unfold Transition
  cases hs2 : w.sr.mCurrentState <;> simp_all [isActive]

/-- Witness of C9: a start request arrives in `estimatingWorld`. -/
theorem C9_start_while_active_traps_witness :
    Transition quietEnv { mType := .EVENT_START } estimatingWorld = .error .notReached :=
  C9_start_while_active_traps quietEnv { mType := .EVENT_START } estimatingWorld rfl rfl

/-- C10: for each pair Idle with stop, abort, audio data or final result, Starting
to Recognizing with final result, WaitingForResult with stop or audio data, and
Aborting with any event, `Transition` returns the world it was given: every field
of the session is unchanged, nothing is emitted and no service call is made. -/
theorem C10_no_op_pairs_change_nothing (env : Env) (e : SpeechEvent) (w : World)
    (h : isNoOpPair w.sr.mCurrentState e.mType = true) : Transition env e w = .ok w := by
  unfold Transition
  cases hs : w.sr.mCurrentState <;> cases ht : e.mType <;>
    simp_all [isNoOpPair, DoNothing]

/-- Witness of C10: a late final result arrives in a freshly constructed (Idle) session. -/
theorem C10_no_op_pairs_change_nothing_witness :
    Transition quietEnv
      { mType := .EVENT_RECOGNITIONSERVICE_FINAL_RESULT, mRecognitionResultList := ["late"] }
      (World.fresh 160) = .ok (World.fresh 160) :=
  C10_no_op_pairs_change_nothing quietEnv
    { mType := .EVENT_RECOGNITIONSERVICE_FINAL_RESULT, mRecognitionResultList := ["late"] }
    (World.fresh 160) rfl

/-- C6 (amended): when the recognition service is found and initialises, the run
`Start(); Abort();` on a freshly constructed session followed by the dispatch of
the queued events returns, emits no `result`, emits exactly one `end` (the only
DOM event of the run) and ends in state Idle. -/
theorem C6_start_then_abort (env : Env) (hp : Passive env) (frameSize : Nat) (service : String)
    (hsvc : env.do_GetService (GetRecognitionServiceCID env) = some service)
    (hinit : env.initializeOk = true) :
    ∃ w1, startThenAbort env frameSize = .ok w1 ∧
      (∀ n ∈ notifications w1.trace, n.isResult = false) ∧
      countEnd w1.trace = 1 ∧
      notifications w1.trace = [.trusted "end"] ∧
      w1.sr.mCurrentState = .STATE_IDLE := by
  have hstart : ∃ t, (∀ x ∈ t, x = Effect.serviceInit ∨ x = Effect.getUserMedia) ∧
      Abort (Start env (World.fresh frameSize)) =
        { sr := { Session.fresh frameSize with mRecognitionService := some service }
          trace := t
          queue := [{ mType := .EVENT_START }, { mType := .EVENT_ABORT }] } := by
    cases hf : env.mFakeFSMEvents
    · exact ⟨[.serviceInit, .getUserMedia], by simp,
        by simp [Abort, Start, World.fresh, Session.fresh, FSMState.toNat, hsvc, hinit, hf]⟩
    · exact ⟨[.serviceInit], by simp,
        by simp [Abort, Start, World.fresh, Session.fresh, FSMState.toNat, hsvc, hinit, hf]⟩
  obtain ⟨t, ht, hw⟩ := hstart
  have hnt : notifications t = [] := by
    clear hw
    induction t with
    | nil => rfl
    | cons x t ih =>
      have hx := ht x (List.mem_cons_self _ _)
      have ih2 := ih (fun y hy => ht y (List.mem_cons_of_mem _ hy))
      rcases hx with hx | hx <;> subst hx <;> simpa [notifications] using ih2
  let w0 : World :=
    SetState .STATE_STARTING
      { sr := { Session.fresh frameSize with mRecognitionService := some service }
        trace := t, queue := [] }
  obtain ⟨wA, hA, h1, h2, -⟩ := AbortSilently_passive env hp { mType := .EVENT_ABORT } w0
    (by intro hc; simp [w0, SetState, isCapturing] at hc)
  have hrun : startThenAbort env frameSize = AbortSilently env { mType := .EVENT_ABORT } w0 := by
    simp [startThenAbort, hw, RunQueued, ProcessEvents, ProcessEvent,
      ProcessEvent.priorityLoop, Session.fresh, Transition, WaitForAudioData, SetState, w0]
    cases AbortSilently env { mType := .EVENT_ABORT }
      { sr := { mCurrentState := .STATE_STARTING, mRecognitionService := some service,
                mAudioSamplesPerChunk := frameSize }
        trace := t ++ [.setState .STATE_STARTING], queue := [] } <;> rfl
  have hnote : notifications wA.trace = [.trusted "end"] := by
    rw [h1]
    simp [w0, SetState, Session.fresh, isCapturing, notifications_append, hnt, notifications]
  refine ⟨wA, hrun.trans hA, ?_, ?_, hnote, h2⟩
  · rw [hnote]; decide
  · rw [countEnd, hnote]; decide

/-- Witness of C6: the run in `quietEnv`, where the service `fake` is available. -/
theorem C6_start_then_abort_witness :
    ∃ w1, startThenAbort quietEnv 160 = .ok w1 ∧
      (∀ n ∈ notifications w1.trace, n.isResult = false) ∧
      countEnd w1.trace = 1 ∧
      notifications w1.trace = [.trusted "end"] ∧
      w1.sr.mCurrentState = .STATE_IDLE :=
  C6_start_then_abort quietEnv quietEnv_passive 160
    "@mozilla.org/webspeech/service;1?name=fake" rfl rfl

/-- C6 as stated fails: when the service's `Initialize` fails, `Start()` returns
before posting the start event, the abort request is dispatched in Idle and does
nothing, and the run emits no `end` at all. -/
theorem C6_no_end_when_initialize_fails :
    ¬ ∃ w1, startThenAbort failingInitEnv 160 = .ok w1 ∧
      (∀ n ∈ notifications w1.trace, n.isResult = false) ∧
      countEnd w1.trace = 1 ∧
      w1.sr.mCurrentState = .STATE_IDLE := by
  rintro ⟨w1, h1, -, h3, -⟩
  have hrun : startThenAbort failingInitEnv 160 =
      .ok { sr := { Session.fresh 160 with
                    mRecognitionService := some "@mozilla.org/webspeech/service;1?name=fake" }
            trace := [.serviceInit] } := rfl
  rw [hrun] at h1
  injection h1 with h1
  subst h1
  revert h3
  decide

/-- C8, the failing run: `Start(); Stop();` on a freshly constructed session. The
start event opens a session (Idle to Starting), the stop event closes it (back to
Idle) through `Reset()`, and no `end` is emitted. -/
theorem C8_session_stopped_while_starting_emits_no_end :
    ∃ w1, startThenStop quietEnv 160 = .ok w1 ∧
      w1.trace = [.serviceInit, .setState .STATE_STARTING, .setState .STATE_IDLE,
        .timerCancel] ∧
      w1.sr.mCurrentState = .STATE_IDLE ∧
      countEnd w1.trace = 0 :=
  ⟨_, rfl, rfl, rfl, by decide⟩

/-! ## One `end` per closed session -/

theorem ProcessAudioSegment_ok (seg : AudioSegment) (w w1 : World) (n : Nat)
    (h : ProcessAudioSegment seg w = .ok (w1, n)) :
    w1.trace = w.trace ++ [.serviceProcessAudioSegment seg] ∧
      w1.sr.mCurrentState = w.sr.mCurrentState ∧
      w1.sr.mRecognitionService = w.sr.mRecognitionService ∧
      w.sr.mRecognitionService.isSome = true := by
  unfold ProcessAudioSegment at h
  cases hb : w.sr.mRecognitionService with
  | none => simp [hb] at h
  | some svc =>
    simp only [hb, Except.ok.injEq, Prod.mk.injEq] at h
    obtain ⟨h, -⟩ := h
    subst h
    simp [hb]

theorem StopRecordingAndRecognize_ok (env : Env) (hp : Passive env) (e : SpeechEvent)
    (w w1 : World) (h : StopRecordingAndRecognize env e w = .ok w1) :
    w1.trace = w.trace ++ [.setState .STATE_WAITING_FOR_RESULT, .serviceSoundEnd,
        .removeListener, .notify (.trusted "audioend")] ∧
      w1.sr.mCurrentState = .STATE_WAITING_FOR_RESULT := by
  unfold StopRecordingAndRecognize at h
  cases hb : w.sr.mRecognitionService with
  | none => simp [SetState, hb] at h
  | some svc =>
    simp only [SetState, hb] at h
    obtain ⟨-, rfl⟩ := StopRecording_ok env _ _ h
    simp [DispatchTrustedEvent, DispatchEvent, passive_sr hp, passive_trace hp]

theorem StartedAudioCapture_ok (env : Env) (hp : Passive env) (e : SpeechEvent)
    (w w1 : World) (h : StartedAudioCapture env e w = .ok w1) :
    w1.trace = w.trace ++ [.setState .STATE_ESTIMATING,
        .serviceProcessAudioSegment e.mAudioSegment, .notify (.trusted "audiostart"),
        .notify (.trusted "start")] ∧
      w1.sr.mCurrentState = .STATE_ESTIMATING := by
  unfold StartedAudioCapture at h
  dsimp only at h
  split at h
  · cases h
  · rename_i w3 samples hpa
    obtain ⟨ht, hst, -, -⟩ := ProcessAudioSegment_ok _ _ _ _ hpa
    simp only [DispatchTrustedEvent, DispatchEvent, passive_sr hp, passive_trace hp, hst,
      SetState, if_true, Except.ok.injEq] at h
    subst h
    simp [passive_sr hp, passive_trace hp, hst, ht, SetState]

theorem WaitForEstimation_ok (e : SpeechEvent) (w w1 : World)
    (h : WaitForEstimation e w = .ok w1) :
    ∃ new, w1.trace = w.trace ++ new ∧ notifications new = [] ∧
      (w1.sr.mCurrentState = .STATE_ESTIMATING ∨
        w1.sr.mCurrentState = .STATE_WAITING_FOR_SPEECH) := by
  unfold WaitForEstimation at h
  dsimp only at h
  split at h
  · cases h
  · rename_i w2 samples hpa
    obtain ⟨ht, hst, -, -⟩ := ProcessAudioSegment_ok _ _ _ _ hpa
    split at h
    · simp only [Except.ok.injEq] at h
      subst h
      exact ⟨[.setState .STATE_ESTIMATING, .serviceProcessAudioSegment e.mAudioSegment,
        .setState .STATE_WAITING_FOR_SPEECH], by simp [SetState, ht], rfl,
        Or.inr (by simp [SetState])⟩
    · simp only [Except.ok.injEq] at h
      subst h
      exact ⟨[.setState .STATE_ESTIMATING, .serviceProcessAudioSegment e.mAudioSegment],
        by simp [SetState, ht], rfl, Or.inl (by simp [hst, SetState])⟩

theorem DetectSpeech_ok (env : Env) (hp : Passive env) (e : SpeechEvent) (w w1 : World)
    (h : DetectSpeech env e w = .ok w1) :
    ∃ new, w1.trace = w.trace ++ new ∧ countEnd new = 0 ∧
      (w1.sr.mCurrentState = .STATE_WAITING_FOR_SPEECH ∨
        w1.sr.mCurrentState = .STATE_RECOGNIZING) := by
  unfold DetectSpeech at h
  dsimp only at h
  split at h
  · cases h
  · rename_i w2 samples hpa
    obtain ⟨ht, hst, -, -⟩ := ProcessAudioSegment_ok _ _ _ _ hpa
    split at h
    · simp only [Except.ok.injEq] at h
      subst h
      exact ⟨[.setState .STATE_WAITING_FOR_SPEECH,
          .serviceProcessAudioSegment e.mAudioSegment, .timerCancel,
          .setState .STATE_RECOGNIZING, .notify (.trusted "speechstart")],
        by simp [DispatchTrustedEvent, DispatchEvent, passive_trace hp, SetState, CancelTimer,
          ht],
        by simp [countEnd, notifications],
        Or.inr (by simp [DispatchTrustedEvent, DispatchEvent, passive_sr hp, SetState])⟩
    · simp only [Except.ok.injEq] at h
      subst h
      exact ⟨[.setState .STATE_WAITING_FOR_SPEECH,
          .serviceProcessAudioSegment e.mAudioSegment],
        by simp [SetState, ht], by simp [countEnd, notifications], Or.inl (by simp [hst, SetState])⟩

theorem WaitForSpeechEnd_ok (env : Env) (hp : Passive env) (e : SpeechEvent) (w w1 : World)
    (h : WaitForSpeechEnd env e w = .ok w1) :
    ∃ new, w1.trace = w.trace ++ new ∧ countEnd new = 0 ∧
      (w1.sr.mCurrentState = .STATE_RECOGNIZING ∨
        w1.sr.mCurrentState = .STATE_WAITING_FOR_RESULT) := by
  unfold WaitForSpeechEnd at h
  dsimp only at h
  split at h
  · cases h
  · rename_i w2 samples hpa
    obtain ⟨ht, hst, -, -⟩ := ProcessAudioSegment_ok _ _ _ _ hpa
    split at h
    · simp only [DispatchTrustedEvent, DispatchEvent, passive_sr hp, hst, SetState,
        if_true] at h
      obtain ⟨ht1, hs1⟩ := StopRecordingAndRecognize_ok env hp e _ _ h
      refine ⟨[.setState .STATE_RECOGNIZING, .serviceProcessAudioSegment e.mAudioSegment,
          .notify (.trusted "speechend"), .setState .STATE_WAITING_FOR_RESULT,
          .serviceSoundEnd, .removeListener, .notify (.trusted "audioend")], ?_, by simp [countEnd, notifications],
        Or.inr hs1⟩
      rw [ht1]
      simp [passive_trace hp, ht, SetState]
    · simp only [Except.ok.injEq] at h
      subst h
      exact ⟨[.setState .STATE_RECOGNIZING, .serviceProcessAudioSegment e.mAudioSegment],
        by simp [SetState, ht], by simp [countEnd, notifications], Or.inl (by simp [hst, SetState])⟩

/-- Around C8: with passive listeners, a transition out of a live state emits
`end` exactly once when it returns the state to Idle, with the one exception of a
stop request in Starting (no `end`), and emits no `end` when it does not. -/
theorem Transition_end_count (env : Env) (hp : Passive env) (e : SpeechEvent) (w w1 : World)
    (hs : isActive w.sr.mCurrentState = true) (hrun : Transition env e w = .ok w1) :
    ∃ new, w1.trace = w.trace ++ new ∧
      countEnd new =
        (if w1.sr.mCurrentState = .STATE_IDLE ∧
            ¬ (w.sr.mCurrentState = .STATE_STARTING ∧ e.mType = .EVENT_STOP) then 1 else 0) := by
  have habort : ∀ w1, AbortSilently env e w = .ok w1 →
      ¬ (w.sr.mCurrentState = .STATE_STARTING ∧ e.mType = .EVENT_STOP) →
      ∃ new, w1.trace = w.trace ++ new ∧ countEnd new =
        (if w1.sr.mCurrentState = .STATE_IDLE ∧
          ¬ (w.sr.mCurrentState = .STATE_STARTING ∧ e.mType = .EVENT_STOP) then 1 else 0) := by
    intro w1 h hne
    obtain ⟨h1, h2, -⟩ := AbortSilently_returned env hp e w w1 h
    refine ⟨_, h1, ?_⟩
    have hcond : w1.sr.mCurrentState = .STATE_IDLE ∧
        ¬ (w.sr.mCurrentState = .STATE_STARTING ∧ e.mType = .EVENT_STOP) := ⟨h2, hne⟩
    rw [if_pos hcond]
    cases hc : isCapturing w.sr.mCurrentState <;>
      cases hb : w.sr.mRecognitionService <;> simp [countEnd, notifications]
  have herror : ∀ w1, AbortError env e w = .ok w1 →
      ¬ (w.sr.mCurrentState = .STATE_STARTING ∧ e.mType = .EVENT_STOP) →
      ∃ new, w1.trace = w.trace ++ new ∧ countEnd new =
        (if w1.sr.mCurrentState = .STATE_IDLE ∧
          ¬ (w.sr.mCurrentState = .STATE_STARTING ∧ e.mType = .EVENT_STOP) then 1 else 0) := by
    intro w1 h hne
    obtain ⟨w0, h0, rfl⟩ := AbortError_returned env e w w1 h
    obtain ⟨h1, h2, -⟩ := AbortSilently_returned env hp e w w0 h0
    refine ⟨_, by
      simp only [DispatchEvent, passive_trace hp, h1, List.append_assoc]; rfl, ?_⟩
    have hcond : (DispatchEvent env (.error e.mError) w0).sr.mCurrentState = .STATE_IDLE ∧
        ¬ (w.sr.mCurrentState = .STATE_STARTING ∧ e.mType = .EVENT_STOP) :=
      ⟨by simp [DispatchEvent, passive_sr hp, h2], hne⟩
    rw [if_pos hcond]
    cases hc : isCapturing w.sr.mCurrentState <;>
      cases hb : w.sr.mRecognitionService <;> simp [countEnd, notifications]
  have hnothing : ∀ w1, .ok (DoNothing e w) = Except.ok (ε := Fault) w1 →
      ∃ new, w1.trace = w.trace ++ new ∧ countEnd new =
        (if w1.sr.mCurrentState = .STATE_IDLE ∧
          ¬ (w.sr.mCurrentState = .STATE_STARTING ∧ e.mType = .EVENT_STOP) then 1 else 0) := by
    intro w1 h
    injection h with h
    subst h
    refine ⟨[], by simp [DoNothing], ?_⟩
    have : (DoNothing e w).sr.mCurrentState ≠ .STATE_IDLE := by
      intro h
      simp [DoNothing] at h
      simp [h, isActive] at hs
    simp [this, countEnd, notifications]
  have hstop : ∀ w1, StopRecordingAndRecognize env e w = .ok w1 →
      ∃ new, w1.trace = w.trace ++ new ∧ countEnd new =
        (if w1.sr.mCurrentState = .STATE_IDLE ∧
          ¬ (w.sr.mCurrentState = .STATE_STARTING ∧ e.mType = .EVENT_STOP) then 1 else 0) := by
    intro w1 h
    obtain ⟨h1, h2⟩ := StopRecordingAndRecognize_ok env hp e w w1 h
    exact ⟨_, h1, by simp [h2, countEnd, notifications]⟩
  obtain ⟨s, hs2⟩ : ∃ s, w.sr.mCurrentState = s := ⟨_, rfl⟩
  obtain ⟨t, ht⟩ : ∃ t, e.mType = t := ⟨_, rfl⟩
  cases s <;> simp [hs2, isActive] at hs <;>
    cases t <;> simp only [Transition, hs2, ht] at hrun <;>
    first
    | exact habort w1 hrun (by simp [hs2, ht])
    | exact herror w1 hrun (by simp [hs2, ht])
    | exact hnothing w1 hrun
    | exact hstop w1 hrun
    | (cases hrun; done)
    | skip
  · -- Starting, stop request: `Reset()`
    injection hrun with hrun
    subst hrun
    exact ⟨[.setState .STATE_IDLE, .timerCancel], by simp [Reset, SetState, CancelTimer],
      by simp [hs2, ht, countEnd, notifications]⟩
  · -- Starting, audio data
    obtain ⟨h1, h2⟩ := StartedAudioCapture_ok env hp e w w1 hrun
    exact ⟨_, h1, by simp [h2, countEnd, notifications]⟩
  · -- Estimating, audio data
    obtain ⟨new, h1, h2, h3⟩ := WaitForEstimation_ok e w w1 hrun
    refine ⟨new, h1, ?_⟩
    rcases h3 with h3 | h3 <;> simp [h3, countEnd, h2]
  · -- WaitingForSpeech, audio data
    obtain ⟨new, h1, h2, h3⟩ := DetectSpeech_ok env hp e w w1 hrun
    refine ⟨new, h1, ?_⟩
    rcases h3 with h3 | h3 <;> simp [h3, h2]
  · -- Recognizing, audio data
    obtain ⟨new, h1, h2, h3⟩ := WaitForSpeechEnd_ok env hp e w w1 hrun
    refine ⟨new, h1, ?_⟩
    rcases h3 with h3 | h3 <;> simp [h3, h2]
  · -- WaitingForResult, final result
    injection hrun with hrun
    subst hrun
    refine ⟨[.setState .STATE_IDLE, .timerCancel, .notify (.trusted "end"),
      .notify (.result e.mRecognitionResultList)], ?_, ?_⟩
    · simp [NotifyFinalResult, ResetAndEnd, Reset, SetState, CancelTimer,
        DispatchTrustedEvent, DispatchEvent, passive_trace hp]
    · simp [NotifyFinalResult, ResetAndEnd, Reset, SetState, CancelTimer,
        DispatchTrustedEvent, DispatchEvent, passive_sr hp, hs2, countEnd, notifications]

/-! ## Late events, entry points and the timer -/

/-- C11 (amended): in state Idle, `Transition` on an intermediate or final result of
the service is discarded: the world is unchanged, so the state stays Idle, the
session is unchanged and nothing is emitted. A service error in Idle is not
discarded: `AbortError` runs, the state is Idle again afterwards, and `end`
followed by `error` is emitted. -/
theorem C11_late_backend_events_in_idle (env : Env) (hp : Passive env) (e : SpeechEvent)
    (w : World) (hs : w.sr.mCurrentState = .STATE_IDLE) :
    (isBackendResult e.mType = true → Transition env e w = .ok w) ∧
    (e.mType = .EVENT_RECOGNITIONSERVICE_ERROR →
      ∃ w1 new, Transition env e w = .ok w1 ∧ w1.trace = w.trace ++ new ∧
        w1.sr.mCurrentState = .STATE_IDLE ∧
        notifications new = [.trusted "end", .error e.mError]) := by
  constructor
  · intro ht
    cases ht2 : e.mType <;> simp_all [isBackendResult, Transition, DoNothing]
  · intro ht
    obtain ⟨w0, h0, h1, h2, -⟩ := AbortSilently_passive env hp e w
      (by intro hc; simp [hs, isCapturing] at hc)
    refine ⟨DispatchEvent env (.error e.mError) w0,
      ([.setState .STATE_ABORTING] ++
          (if w.sr.mRecognitionService.isSome then [.serviceAbort] else []) ++
          (if isCapturing w.sr.mCurrentState then
            [.removeListener, .notify (.trusted "audioend")] else []) ++
          [.setState .STATE_IDLE, .timerCancel, .notify (.trusted "end")]) ++
        [.notify (.error e.mError)],
      by simp [Transition, hs, ht, AbortError_ok env e w w0 h0], ?_, ?_, ?_⟩
    · simp only [DispatchEvent, passive_trace hp, h1, List.append_assoc]
    · simp [DispatchEvent, passive_sr hp, h2]
    · cases hb : w.sr.mRecognitionService <;>
        simp [hs, isCapturing, notifications]

/-- Witness of C11: a late final result arrives in a freshly constructed session. -/
theorem C11_late_backend_events_in_idle_witness :
    Transition quietEnv
      { mType := .EVENT_RECOGNITIONSERVICE_FINAL_RESULT, mRecognitionResultList := ["late"] }
      (World.fresh 160) = .ok (World.fresh 160) :=
  (C11_late_backend_events_in_idle quietEnv quietEnv_passive
    { mType := .EVENT_RECOGNITIONSERVICE_FINAL_RESULT, mRecognitionResultList := ["late"] }
    (World.fresh 160) rfl).1 rfl

/-- C11 as stated fails: in a freshly constructed (Idle) session a service error is
not discarded; it is answered with `end` and `error`. -/
theorem C11_service_error_in_idle_is_reported :
    ¬ ∃ w1,
      Transition quietEnv
        { mType := .EVENT_RECOGNITIONSERVICE_ERROR, mError := ⟨.other 7, "down"⟩ }
        (World.fresh 160) = .ok w1 ∧
      w1.sr = (World.fresh 160).sr ∧ notifications w1.trace = [] := by
  rintro ⟨w1, h1, -, h3⟩
  have hrun : Transition quietEnv
      { mType := .EVENT_RECOGNITIONSERVICE_ERROR, mError := ⟨.other 7, "down"⟩ }
      (World.fresh 160) =
      .ok { World.fresh 160 with
            trace := [.setState .STATE_ABORTING, .setState .STATE_IDLE, .timerCancel,
              .notify (.trusted "end"), .notify (.error ⟨.other 7, "down"⟩)] } := rfl
  rw [hrun] at h1
  injection h1 with h1
  subst h1
  revert h3
  decide

/-- C16 (amended): `Stop()` and `Abort()` each post exactly one event, of type stop
and abort, and leave the session and the record of actions as they were. `Start()`
never changes the state nor any field of the session other than the attached
service; in Idle, when the service is found and initialises, it attaches the service
and posts exactly one start event, which takes the session to Starting only when it
is dispatched; in any other state it throws and posts nothing. -/
theorem C16_entry_points_post_events (env : Env) (w : World) :
    Stop w = { w with queue := w.queue ++ [{ mType := .EVENT_STOP }] } ∧
    Abort w = { w with queue := w.queue ++ [{ mType := .EVENT_ABORT }] } ∧
    (Start env w).sr =
      { w.sr with mRecognitionService := (Start env w).sr.mRecognitionService } ∧
    (∀ service, w.sr.mCurrentState = .STATE_IDLE →
      env.do_GetService (GetRecognitionServiceCID env) = some service →
      env.initializeOk = true →
      (Start env w).sr.mRecognitionService = some service ∧
      (Start env w).queue = w.queue ++ [{ mType := .EVENT_START }] ∧
      ∃ w1, Transition env { mType := .EVENT_START } (Start env w) = .ok w1 ∧
        w1.sr.mCurrentState = .STATE_STARTING) ∧
    (w.sr.mCurrentState ≠ .STATE_IDLE →
      Start env w = { w with trace := w.trace ++ [.throwInvalidState] }) := by
  refine ⟨rfl, rfl, ?_, ?_, ?_⟩
  · have hI : FSMState.STATE_IDLE.toNat = 0 := rfl
    unfold Start
    by_cases h0 : w.sr.mCurrentState.toNat = 0 <;>
      cases hg : env.do_GetService (GetRecognitionServiceCID env) <;>
      cases hi : env.initializeOk <;> cases hf : env.mFakeFSMEvents <;>
      simp [hI, h0]
  · intro service hs hg hi
    have hst : (Start env w).sr.mCurrentState = .STATE_IDLE := by
      cases hf : env.mFakeFSMEvents <;> simp [Start, FSMState.toNat, hs, hg, hi, hf]
    refine ⟨?_, ?_, ?_⟩
    · cases hf : env.mFakeFSMEvents <;> simp [Start, FSMState.toNat, hs, hg, hi, hf]
    · cases hf : env.mFakeFSMEvents <;> simp [Start, FSMState.toNat, hs, hg, hi, hf]
    · exact ⟨WaitForAudioData { mType := .EVENT_START } (Start env w),
        by simp [Transition, hst], by simp [WaitForAudioData, SetState]⟩
  · intro hs
    cases hs2 : w.sr.mCurrentState <;> simp_all [Start, FSMState.toNat]

/-- Witness of C16: `Start()` on a freshly constructed session in `quietEnv`. -/
theorem C16_entry_points_post_events_witness :
    (Start quietEnv (World.fresh 160)).sr.mRecognitionService =
        some "@mozilla.org/webspeech/service;1?name=fake" ∧
      (Start quietEnv (World.fresh 160)).queue =
        (World.fresh 160).queue ++ [{ mType := .EVENT_START }] ∧
      ∃ w1, Transition quietEnv { mType := .EVENT_START }
          (Start quietEnv (World.fresh 160)) = .ok w1 ∧
        w1.sr.mCurrentState = .STATE_STARTING :=
  (C16_entry_points_post_events quietEnv (World.fresh 160)).2.2.2.1
    "@mozilla.org/webspeech/service;1?name=fake" rfl rfl rfl

/-- C16 as stated fails: `Start()` on a freshly constructed session does not leave
the session as it was; it attaches the recognition service before it returns. -/
theorem C16_start_changes_the_session :
    ¬ ((Start quietEnv (World.fresh 160)).queue =
          (World.fresh 160).queue ++ [{ mType := .EVENT_START }] ∧
        (Start quietEnv (World.fresh 160)).sr = (World.fresh 160).sr) := by
  decide

/-- C17: when the detection timer fires in Recognizing, WaitingForResult or
Aborting, `Observe` posts nothing and leaves the world unchanged; in Idle,
Starting, Estimating or WaitingForSpeech it posts exactly one audio error event
that carries the no-speech code, and changes nothing else (the state included). -/
theorem C17_timer_callback (env : Env) (aSubject : DOMMediaStream) (aData : String)
    (w : World) :
    (isPastSpeechStart w.sr.mCurrentState = true →
      Observe env aSubject .NS_TIMER_CALLBACK_TOPIC aData w = .ok w) ∧
    (isAwaitingSpeech w.sr.mCurrentState = true →
      Observe env aSubject .NS_TIMER_CALLBACK_TOPIC aData w =
        .ok { w with
              queue := w.queue ++
                [{ mType := .EVENT_AUDIO_ERROR
                   mError := ⟨.NO_SPEECH, "No speech detected (timeout)"⟩ }] }) := by
  constructor <;> intro hs <;> cases hs2 : w.sr.mCurrentState <;>
    simp_all [isPastSpeechStart, isAwaitingSpeech, Observe, StateBetween, FSMState.toNat,
      DispatchError]

/-- Witness of C17: the timer fires in `estimatingWorld`, then in `waitingWorld`. -/
theorem C17_timer_callback_witness :
    Observe quietEnv ⟨true⟩ .NS_TIMER_CALLBACK_TOPIC "" estimatingWorld =
        .ok { estimatingWorld with
              queue := estimatingWorld.queue ++
                [{ mType := .EVENT_AUDIO_ERROR
                   mError := ⟨.NO_SPEECH, "No speech detected (timeout)"⟩ }] } ∧
      Observe quietEnv ⟨true⟩ .NS_TIMER_CALLBACK_TOPIC "" waitingWorld = .ok waitingWorld :=
  ⟨(C17_timer_callback quietEnv ⟨true⟩ "" estimatingWorld).2 rfl,
    (C17_timer_callback quietEnv ⟨true⟩ "" waitingWorld).1 rfl⟩

/-- C19: for every capture-failure string `s`, `OnError` posts exactly one audio
error event with `s` as the message, whose code is not-allowed iff `s` is
`"PERMISSION_DENIED"` and audio-capture for every other `s`. -/
theorem C19_OnError_posts_audio_error (s : String) (w : World) :
    ∃ code, GetUserMediaErrorCallback.OnError s w =
        .ok { w with
              queue := w.queue ++
                [{ mType := .EVENT_AUDIO_ERROR, mError := ⟨code, s⟩ }] } ∧
      (code = .NOT_ALLOWED ↔ s = "PERMISSION_DENIED") ∧
      (s ≠ "PERMISSION_DENIED" → code = .AUDIO_CAPTURE) := by
  by_cases hs : s = "PERMISSION_DENIED"
  · exact ⟨.NOT_ALLOWED, by simp [GetUserMediaErrorCallback.OnError, DispatchError, hs],
      by simp [hs], by simp [hs]⟩
  · exact ⟨.AUDIO_CAPTURE, by simp [GetUserMediaErrorCallback.OnError, DispatchError, hs],
      by simp [hs], by simp⟩

/-! ## The dispatcher -/

theorem Transition_keeps_priority_events (env : Env) (hp : Passive env) (e : SpeechEvent)
    (w w1 : World) (h : Transition env e w = .ok w1) :
    w1.sr.mPriorityEvents = w.sr.mPriorityEvents := by
  have hsilent : ∀ w2, AbortSilently env e w = .ok w2 →
      w2.sr.mPriorityEvents = w.sr.mPriorityEvents :=
    fun w2 h2 => (AbortSilently_returned env hp e w w2 h2).2.2.2.2.2.2.2
  have herror : ∀ w2, AbortError env e w = .ok w2 →
      w2.sr.mPriorityEvents = w.sr.mPriorityEvents := by
    intro w2 h2
    obtain ⟨w0, h0, rfl⟩ := AbortError_returned env e w w2 h2
    simpa [DispatchEvent, passive_sr hp] using hsilent w0 h0
  have hstop : ∀ w0 w2, StopRecordingAndRecognize env e w0 = .ok w2 →
      w2.sr.mPriorityEvents = w0.sr.mPriorityEvents := by
    intro w0 w2 h
    unfold StopRecordingAndRecognize at h
    cases hb : w0.sr.mRecognitionService with
    | none => simp [SetState, hb] at h
    | some svc =>
      simp only [SetState, hb] at h
      obtain ⟨-, rfl⟩ := StopRecording_ok env _ _ h
      simp [DispatchTrustedEvent, DispatchEvent, passive_sr hp]
  have hpa : ∀ w0 w2 n, ProcessAudioSegment e.mAudioSegment w0 = .ok (w2, n) →
      w2.sr.mPriorityEvents = w0.sr.mPriorityEvents := by
    intro w0 w2 n h
    unfold ProcessAudioSegment at h
    cases hb : w0.sr.mRecognitionService with
    | none => simp [hb] at h
    | some svc =>
      simp only [hb, Except.ok.injEq, Prod.mk.injEq] at h
      obtain ⟨h, -⟩ := h
      subst h
      rfl
  obtain ⟨s, hs⟩ : ∃ s, w.sr.mCurrentState = s := ⟨_, rfl⟩
  obtain ⟨t, ht⟩ : ∃ t, e.mType = t := ⟨_, rfl⟩
  cases s <;> cases t <;> simp only [Transition, hs, ht] at h <;>
    first
    | (cases h; done)
    | exact hsilent w1 h
    | exact herror w1 h
    | (injection h with h; subst h
       first
       | rfl
       | (simp [NotifyFinalResult, ResetAndEnd, Reset, SetState, CancelTimer,
            DispatchTrustedEvent, DispatchEvent, passive_sr hp]))
    | exact hstop w w1 h
    | skip
  · -- Starting, audio data
    unfold StartedAudioCapture at h
    dsimp only at h
    split at h
    · cases h
    · rename_i w3 samples hpa3
      have h3 := hpa _ _ _ hpa3
      split at h <;> injection h with h <;> subst h <;>
        simpa [DispatchTrustedEvent, DispatchEvent, passive_sr hp, SetState] using h3
  · -- Estimating, audio data
    unfold WaitForEstimation at h
    dsimp only at h
    split at h
    · cases h
    · rename_i w3 samples hpa3
      have h3 := hpa _ _ _ hpa3
      split at h <;> injection h with h <;> subst h <;>
        simpa [SetState] using h3
  · -- WaitingForSpeech, audio data
    unfold DetectSpeech at h
    dsimp only at h
    split at h
    · cases h
    · rename_i w3 samples hpa3
      have h3 := hpa _ _ _ hpa3
      split at h <;> injection h with h <;> subst h <;>
        simpa [DispatchTrustedEvent, DispatchEvent, passive_sr hp, SetState, CancelTimer]
          using h3
  · -- Recognizing, audio data
    unfold WaitForSpeechEnd at h
    dsimp only at h
    split at h
    · cases h
    · rename_i w3 samples hpa3
      have h3 := hpa _ _ _ hpa3
      split at h
      · split at h
        · have h4 := hstop _ _ h
          simpa [DispatchTrustedEvent, DispatchEvent, passive_sr hp, SetState, h3] using h4
        · injection h with h
          subst h
          simpa [DispatchTrustedEvent, DispatchEvent, passive_sr hp, SetState] using h3
      · injection h with h
        subst h
        simpa [SetState] using h3

theorem priorityLoop_eq_transitions (env : Env) (hp : Passive env) :
    ∀ (fuel i : Nat) (w : World), i + fuel = w.sr.mPriorityEvents.length →
      ProcessEvent.priorityLoop env fuel i w =
        transitions env (w.sr.mPriorityEvents.drop i) w := by
  intro fuel
  induction fuel with
  | zero =>
    intro i w h
    simp only [Nat.add_zero] at h
    simp [ProcessEvent.priorityLoop, h, transitions]
  | succ fuel ih =>
    intro i w h
    have hi : i < w.sr.mPriorityEvents.length := by omega
    rw [ProcessEvent.priorityLoop, List.getElem?_eq_getElem hi, List.drop_eq_getElem_cons hi]
    simp only [transitions]
    cases ht : Transition env (w.sr.mPriorityEvents[i]) w with
    | error f => rfl
    | ok w1 =>
      have hk := Transition_keeps_priority_events env hp _ _ _ ht
      simp only
      rw [ih (i + 1) w1 (by rw [hk]; omega), hk]

theorem ProcessEvent_no_priority (env : Env) (e : SpeechEvent) (w : World)
    (hnil : w.sr.mPriorityEvents = []) : ProcessEvent env e w = Transition env e w := by
  have hw : ({ w with sr := { w.sr with mPriorityEvents := [] } } : World) = w := by
    cases w with
    | mk sr trace queue =>
      cases sr
      simp only at hnil
      subst hnil
      rfl
  simp only [ProcessEvent, hnil, List.length_nil, ProcessEvent.priorityLoop, Nat.lt_irrefl,
    if_false]
  exact congrArg (Transition env e) hw

/-- With a service attached and the stream held, the stop action returns: the state
is WaitingForResult, the service has received `SoundEnd`, the capture is stopped. -/
theorem StopRecordingAndRecognize_held (env : Env) (e : SpeechEvent) (w : World)
    (hb : w.sr.mRecognitionService.isSome = true) (hh : w.sr.streamHeld = true) :
    StopRecordingAndRecognize env e w = .ok (DispatchTrustedEvent env "audioend"
      { w with
        sr := { w.sr with
                mCurrentState := .STATE_WAITING_FOR_RESULT
                mDOMStream := none
                mEndpointer := { w.sr.mEndpointer with inSession := false } }
        trace := w.trace ++ [.setState .STATE_WAITING_FOR_RESULT, .serviceSoundEnd,
          .removeListener] }) := by
  obtain ⟨svc, hsvc⟩ := Option.isSome_iff_exists.mp hb
  obtain ⟨stream, hst, hhas⟩ := (streamHeld_iff _).mp hh
  simp [StopRecordingAndRecognize, SetState, StopRecording, hsvc, hst, hhas]

theorem stop_while_capturing (env : Env) (hp : Passive env) (w : World)
    (hs : isCapturing w.sr.mCurrentState = true)
    (hb : w.sr.mRecognitionService.isSome = true) (hh : w.sr.streamHeld = true) :
    ∃ w2, Transition env { mType := .EVENT_STOP } w = .ok w2 ∧
      w2.trace = w.trace ++ [.setState .STATE_WAITING_FOR_RESULT, .serviceSoundEnd,
        .removeListener, .notify (.trusted "audioend")] ∧
      w2.sr.mCurrentState = .STATE_WAITING_FOR_RESULT := by
  have hrun : Transition env { mType := .EVENT_STOP } w =
      StopRecordingAndRecognize env { mType := .EVENT_STOP } w := by
    cases hs2 : w.sr.mCurrentState <;> simp_all [isCapturing, Transition]
  rw [hrun, StopRecordingAndRecognize_held env _ w hb hh]
  exact ⟨_, rfl, by simp [DispatchTrustedEvent, DispatchEvent, passive_trace hp],
    by simp [DispatchTrustedEvent, DispatchEvent, passive_sr hp]⟩

/-- C20: with passive listeners, `ProcessEvent(e)` is the run of `Transition` over the
pending priority events in arrival order, followed by `Transition(e)` on a session
whose priority list has been cleared; when it returns, the priority list is empty;
with no pending priority events it is exactly `Transition(e)`. -/
theorem C20_ProcessEvent_runs_priority_events_first (env : Env) (hp : Passive env)
    (e : SpeechEvent) (w : World) :
    ProcessEvent env e w =
        (match transitions env w.sr.mPriorityEvents w with
         | .error f => .error f
         | .ok w1 => Transition env e { w1 with sr := { w1.sr with mPriorityEvents := [] } }) ∧
      (∀ w2, ProcessEvent env e w = .ok w2 → w2.sr.mPriorityEvents = []) ∧
      (w.sr.mPriorityEvents = [] → ProcessEvent env e w = Transition env e w) := by
  have hloop := priorityLoop_eq_transitions env hp w.sr.mPriorityEvents.length 0 w
    (Nat.zero_add _)
  rw [List.drop_zero] at hloop
  have hfirst : ProcessEvent env e w =
      (match transitions env w.sr.mPriorityEvents w with
       | .error f => .error f
       | .ok w1 => Transition env e { w1 with sr := { w1.sr with mPriorityEvents := [] } }) := by
    rw [ProcessEvent, hloop]
  refine ⟨hfirst, ?_, ?_⟩
  · intro w2 h2
    rw [hfirst] at h2
    split at h2
    · cases h2
    · exact Transition_keeps_priority_events env hp _ _ _ h2
  · intro hnil
    rw [hfirst, hnil]
    simp only [transitions]
    have : ({ w with sr := { w.sr with mPriorityEvents := [] } } : World) = w := by
      cases w with
      | mk sr trace queue =>
        cases sr
        simp only at hnil
        subst hnil
        rfl
    rw [this]

/-- Witness of C20: a stop request is dispatched in `priorityWorld`, where an abort
request is pending with priority. -/
theorem C20_ProcessEvent_runs_priority_events_first_witness :
    ProcessEvent quietEnv { mType := .EVENT_STOP } priorityWorld =
        (match transitions quietEnv priorityWorld.sr.mPriorityEvents priorityWorld with
         | .error f => .error f
         | .ok w1 =>
           Transition quietEnv { mType := .EVENT_STOP }
             { w1 with sr := { w1.sr with mPriorityEvents := [] } }) ∧
      (∀ w2, ProcessEvent quietEnv { mType := .EVENT_STOP } priorityWorld = .ok w2 →
        w2.sr.mPriorityEvents = []) ∧
      (priorityWorld.sr.mPriorityEvents = [] →
        ProcessEvent quietEnv { mType := .EVENT_STOP } priorityWorld =
          Transition quietEnv { mType := .EVENT_STOP } priorityWorld) :=
  C20_ProcessEvent_runs_priority_events_first quietEnv quietEnv_passive
    { mType := .EVENT_STOP } priorityWorld

theorem stopOnSpeechstartEnv_passive : Passive stopOnSpeechstartEnv := by
  intro n w
  simp only [stopOnSpeechstartEnv]
  split <;> exact ⟨rfl, rfl⟩

/-- C18 (the code departs from it): after the run `staleAudioRun` the session is in
Estimating with no stream held. Two more audio events take it to WaitingForSpeech and
to `DetectSpeech` with speech detected; the listener of `speechstart` calls `Stop()`:
`DetectSpeech` returns with state Recognizing and exactly one stop request queued.
The dispatch of that request does not perform the transition to WaitingForResult:
`StopRecording` dereferences the null `mDOMStream`, and no `audioend` is emitted. -/
theorem C18_stop_inside_speechstart_without_stream :
    (∃ w1, run stopOnSpeechstartEnv
        (staleAudioRun ++ [.post (audioEvent 4800), .dispatch, .post (audioEvent 160),
          .dispatch]) (World.fresh 160) = .ok w1 ∧
      w1.sr.mCurrentState = .STATE_RECOGNIZING ∧
      w1.queue = [{ mType := .EVENT_STOP }] ∧
      w1.sr.mRecognitionService.isSome = true ∧
      w1.sr.mDOMStream = none ∧
      ProcessEvent stopOnSpeechstartEnv { mType := .EVENT_STOP } w1 = .error .nullDeref) ∧
    run stopOnSpeechstartEnv
      (staleAudioRun ++ [.post (audioEvent 4800), .dispatch, .post (audioEvent 160),
        .dispatch, .dispatch]) (World.fresh 160) = .error .nullDeref :=
  ⟨⟨_, rfl, rfl, rfl, rfl, rfl, rfl⟩, rfl⟩

/-! ## The estimation quota -/

theorem samples_fold (segment : AudioSegment) :
    ∀ a, a < UINT32_MOD →
      segment.foldl (fun acc c => (acc + c.mDuration) % UINT32_MOD) a =
        (a + segmentDuration segment) % UINT32_MOD := by
  induction segment with
  | nil =>
    intro a ha
    simp [segmentDuration, Nat.mod_eq_of_lt ha]
  | cons c t ih =>
    intro a _
    have hpos : 0 < UINT32_MOD := by decide
    rw [List.foldl_cons, ih _ (Nat.mod_lt _ hpos)]
    simp only [segmentDuration, List.map_cons, List.sum_cons, Nat.mod_add_mod, Nat.add_assoc]

/-- What `WaitForEstimation` does with a service attached when the counter does not
wrap: the counter grows by the duration of the segment, and the session moves to
WaitingForSpeech (detector in user-input mode) exactly when the new count exceeds
`kESTIMATION_SAMPLES`. -/
theorem WaitForEstimation_spec (e : SpeechEvent) (w : World)
    (hb : w.sr.mRecognitionService.isSome = true)
    (hw : w.sr.mEstimationSamples + segmentDuration e.mAudioSegment < UINT32_MOD) :
    ∃ w1, WaitForEstimation e w = .ok w1 ∧
      w1.sr.mEstimationSamples =
        w.sr.mEstimationSamples + segmentDuration e.mAudioSegment ∧
      (kESTIMATION_SAMPLES < w.sr.mEstimationSamples + segmentDuration e.mAudioSegment →
        w1.sr.mCurrentState = .STATE_WAITING_FOR_SPEECH ∧
          w1.sr.mEndpointer.mode = .userInput) ∧
      (w.sr.mEstimationSamples + segmentDuration e.mAudioSegment ≤ kESTIMATION_SAMPLES →
        w1.sr.mCurrentState = .STATE_ESTIMATING ∧
          w1.sr.mEndpointer.mode = w.sr.mEndpointer.mode) := by
  obtain ⟨svc, hsvc⟩ := Option.isSome_iff_exists.mp hb
  have hpos : 0 < UINT32_MOD := by decide
  have hk : segmentDuration e.mAudioSegment % UINT32_MOD = segmentDuration e.mAudioSegment :=
    Nat.mod_eq_of_lt (by omega)
  have hsum : (w.sr.mEstimationSamples + segmentDuration e.mAudioSegment) % UINT32_MOD =
      w.sr.mEstimationSamples + segmentDuration e.mAudioSegment := Nat.mod_eq_of_lt hw
  by_cases hq : kESTIMATION_SAMPLES <
      w.sr.mEstimationSamples + segmentDuration e.mAudioSegment
  · refine ⟨_, by
      simp [WaitForEstimation, ProcessAudioSegment, SetState, hsvc,
        samples_fold _ 0 hpos, hk, hsum, hq]; rfl, ?_, ?_, ?_⟩
    · simp [SetState]
    · intro _; exact ⟨rfl, rfl⟩
    · intro h; omega
  · refine ⟨_, by
      simp [WaitForEstimation, ProcessAudioSegment, SetState, hsvc,
        samples_fold _ 0 hpos, hk, hsum, hq]; rfl, ?_, ?_, ?_⟩
    · simp
    · intro h; exact absurd h hq
    · intro _; exact ⟨rfl, rfl⟩

/-- C15 (amended): with quota `kESTIMATION_SAMPLES = 4800`, for every session in
Estimating with a service attached, estimation count `c`, and every audio event
carrying `k` samples with `c + k < 2 ^ 32`, after `Transition` the count is `c + k`
and the state is WaitingForSpeech (detector in user-input mode) iff `c + k > quota`,
and Estimating otherwise: `c + k = quota - 1` and `c + k = quota` both stay in
Estimating, `c + k = quota + 1` switches. -/
theorem C15_estimation_switches_above_quota (env : Env) (e : SpeechEvent) (w : World)
    (hs : w.sr.mCurrentState = .STATE_ESTIMATING) (ht : e.mType = .EVENT_AUDIO_DATA)
    (hb : w.sr.mRecognitionService.isSome = true)
    (hw : w.sr.mEstimationSamples + segmentDuration e.mAudioSegment < UINT32_MOD) :
    kESTIMATION_SAMPLES = 4800 ∧
    ∃ w1, Transition env e w = .ok w1 ∧
      w1.sr.mEstimationSamples =
        w.sr.mEstimationSamples + segmentDuration e.mAudioSegment ∧
      (w1.sr.mCurrentState = .STATE_WAITING_FOR_SPEECH ↔
        kESTIMATION_SAMPLES < w.sr.mEstimationSamples + segmentDuration e.mAudioSegment) ∧
      (w1.sr.mCurrentState = .STATE_ESTIMATING ↔
        w.sr.mEstimationSamples + segmentDuration e.mAudioSegment ≤ kESTIMATION_SAMPLES) ∧
      (w1.sr.mCurrentState = .STATE_WAITING_FOR_SPEECH →
        w1.sr.mEndpointer.mode = .userInput) := by
  refine ⟨rfl, ?_⟩
  obtain ⟨w1, h1, h2, h3, h4⟩ := WaitForEstimation_spec e w hb hw
  refine ⟨w1, by simp [Transition, hs, ht, h1], h2, ?_, ?_, ?_⟩
  · constructor
    · intro hst
      by_contra hq
      have := (h4 (Nat.le_of_not_lt hq)).1
      rw [hst] at this
      cases this
    · intro hq; exact (h3 hq).1
  · constructor
    · intro hst
      by_contra hq
      have := (h3 (Nat.lt_of_not_le hq)).1
      rw [hst] at this
      cases this
    · intro hq; exact (h4 hq).1
  · intro hst
    by_cases hq : kESTIMATION_SAMPLES <
        w.sr.mEstimationSamples + segmentDuration e.mAudioSegment
    · exact (h3 hq).2
    · have := (h4 (Nat.le_of_not_lt hq)).1
      rw [hst] at this
      cases this

/-- Witness of C15: 4640 samples have been counted and a frame of 160 samples
arrives (`c + k = quota`); then 4641 samples have been counted (`c + k = quota + 1`). -/
theorem C15_estimation_switches_above_quota_witness :
    (∃ w1, Transition quietEnv (audioEvent 160) (estimatingAfter 4640) = .ok w1 ∧
      w1.sr.mCurrentState = .STATE_ESTIMATING) ∧
    (∃ w1, Transition quietEnv (audioEvent 160) (estimatingAfter 4641) = .ok w1 ∧
      w1.sr.mCurrentState = .STATE_WAITING_FOR_SPEECH) := by
  obtain ⟨-, w1, h1, -, -, h4, -⟩ := C15_estimation_switches_above_quota quietEnv
    (audioEvent 160) (estimatingAfter 4640) rfl rfl rfl (by decide)
  obtain ⟨-, w2, h5, -, h7, -, -⟩ := C15_estimation_switches_above_quota quietEnv
    (audioEvent 160) (estimatingAfter 4641) rfl rfl rfl (by decide)
  exact ⟨⟨w1, h1, h4.2 (by decide)⟩, ⟨w2, h5, h7.2 (by decide)⟩⟩

/-- C15 as stated fails: when the count reaches the quota exactly (4640 counted, a
frame of 160 samples arrives), the session does not switch to WaitingForSpeech; the
source compares with `>`. -/
theorem C15_quota_reached_stays_estimating :
    (estimatingAfter 4640).sr.mEstimationSamples = 4640 ∧
    segmentDuration (audioEvent 160).mAudioSegment = 160 ∧
    ¬ ∃ w1, Transition quietEnv (audioEvent 160) (estimatingAfter 4640) = .ok w1 ∧
      w1.sr.mCurrentState = .STATE_WAITING_FOR_SPEECH := by
  refine ⟨rfl, rfl, ?_⟩
  rintro ⟨w1, h1, h2⟩
  obtain ⟨w2, h3, -, -, h5⟩ := WaitForEstimation_spec (audioEvent 160) (estimatingAfter 4640)
    rfl (by decide)
  have hrun : Transition quietEnv (audioEvent 160) (estimatingAfter 4640) =
      WaitForEstimation (audioEvent 160) (estimatingAfter 4640) := rfl
  rw [hrun, h3] at h1
  injection h1 with h1
  subst h1
  have := (h5 (by decide)).1
  rw [h2] at this
  cases this

/-! ## The invariant of the retained count -/

theorem splitLoop_exit (F : Nat) (hF : F < UINT32_MOD) (buf : List Int) (count : Nat)
    (hc : count < UINT32_MOD) :
    ∀ (fuel cs : Nat) (acc res : List SharedBuffer) (cs1 : Nat), cs ≤ count →
      SplitSamplesBufferLoop F buf count fuel cs acc = .ok (res, cs1) →
      cs1 ≤ count ∧ count - cs1 < F := by
  intro fuel
  induction fuel with
  | zero =>
    intro cs acc res cs1 _ h
    simp [SplitSamplesBufferLoop] at h
  | succ fuel ih =>
    intro cs acc res cs1 hcs h
    unfold SplitSamplesBufferLoop at h
    by_cases hle : (cs + F) % UINT32_MOD ≤ count
    · rw [if_pos hle] at h
      exact ih _ _ _ _ hle h
    · rw [if_neg hle] at h
      simp only [Except.ok.injEq, Prod.mk.injEq] at h
      obtain ⟨-, rfl⟩ := h
      refine ⟨hcs, ?_⟩
      by_cases hwrap : cs + F < UINT32_MOD
      · rw [Nat.mod_eq_of_lt hwrap] at hle
        omega
      · have hsub : (cs + F) % UINT32_MOD = cs + F - UINT32_MOD := by
          rw [Nat.mod_eq_sub_mod (by omega), Nat.mod_eq_of_lt (by omega)]
        rw [hsub] at hle
        omega

theorem FillSamplesBuffer_count (sr sr1 : Session) (xs : List Int) (n copied : Nat)
    (hF : sr.mAudioSamplesPerChunk < UINT32_MOD)
    (h : FillSamplesBuffer sr xs n = .ok (sr1, copied)) :
    sr1.mAudioSamplesPerChunk = sr.mAudioSamplesPerChunk ∧
      copied ≤ n ∧ copied ≤ sr.mAudioSamplesPerChunk - sr.mBufferedSamples ∧
      sr1.mBufferedSamples = sr.mBufferedSamples + copied ∧
      sr.mBufferedSamples < sr.mAudioSamplesPerChunk := by
  unfold FillSamplesBuffer at h
  by_cases hb : sr.mBufferedSamples < sr.mAudioSamplesPerChunk
  · simp only [hb, not_true_eq_false, if_false] at h
    cases hbuf : sr.mAudioSamplesBuffer with
    | none => simp [hbuf] at h
    | some buf =>
      simp only [hbuf, Except.ok.injEq, Prod.mk.injEq] at h
      obtain ⟨rfl, rfl⟩ := h
      have hm : (sr.mAudioSamplesPerChunk - sr.mBufferedSamples) % UINT32_MOD =
          sr.mAudioSamplesPerChunk - sr.mBufferedSamples := Nat.mod_eq_of_lt (by omega)
      rw [hm]
      have h1 := Nat.min_le_left n (sr.mAudioSamplesPerChunk - sr.mBufferedSamples)
      have h2 := Nat.min_le_right n (sr.mAudioSamplesPerChunk - sr.mBufferedSamples)
      refine ⟨rfl, h1, h2, ?_, hb⟩
      exact Nat.mod_eq_of_lt (by omega)
  · simp [hb] at h

/-- Whenever `FeedAudioData` returns, fewer than a frame of samples is retained and
the frame size is unchanged; frame size and sample count are `uint32_t` values. -/
theorem FeedAudioData_keeps_count_below_frame (fuel : Nat) (xs : List Int) (n : Nat)
    (prov : Option Nat) (w w1 : World)
    (hb : w.sr.mBufferedSamples < w.sr.mAudioSamplesPerChunk)
    (hF : w.sr.mAudioSamplesPerChunk < UINT32_MOD) (hn : n < UINT32_MOD)
    (h : FeedAudioData fuel xs n prov w = .ok w1) :
    w1.sr.mBufferedSamples < w1.sr.mAudioSamplesPerChunk ∧
      w1.sr.mAudioSamplesPerChunk = w.sr.mAudioSamplesPerChunk := by
  unfold FeedAudioData at h
  split at h
  · cases h
  · rename_i sr1 idx1 chunks1 htop
    -- first block
    have h1 : sr1.mAudioSamplesPerChunk = w.sr.mAudioSamplesPerChunk ∧
        sr1.mBufferedSamples < w.sr.mAudioSamplesPerChunk := by
      unfold FeedAudioData.topOff at htop
      split at htop
      · split at htop
        · cases htop
        · rename_i sr0 copied hfill
          obtain ⟨f1, -, f3, f4, -⟩ := FillSamplesBuffer_count _ _ _ _ _ hF hfill
          split at htop
          · split at htop
            · cases htop
            · simp only [Except.ok.injEq, Prod.mk.injEq] at htop
              obtain ⟨rfl, -, -⟩ := htop
              exact ⟨f1, by simp only; omega⟩
          · rename_i hne
            simp only [Except.ok.injEq, Prod.mk.injEq] at htop
            obtain ⟨rfl, -, -⟩ := htop
            exact ⟨f1, by omega⟩
      · simp only [Except.ok.injEq, Prod.mk.injEq] at htop
        obtain ⟨rfl, -, -⟩ := htop
        exact ⟨rfl, hb⟩
    split at h
    · cases h
    · rename_i idx2 chunks2 hsplit
      split at h
      · cases h
      · rename_i sr3 hretain
        simp only [Except.ok.injEq] at h
        subst h
        simp only
        -- second block: what is left after the split is shorter than a frame
        have h2 : idx2 < n → n - idx2 < sr1.mAudioSamplesPerChunk := by
          intro hlt
          unfold FeedAudioData.split at hsplit
          split at hsplit
          · rename_i hidx
            split at hsplit
            · cases hsplit
            · rename_i res off hloop
              simp only [Except.ok.injEq, Prod.mk.injEq] at hsplit
              obtain ⟨rfl, -⟩ := hsplit
              have hm : (n - idx1) % UINT32_MOD = n - idx1 := Nat.mod_eq_of_lt (by omega)
              unfold SplitSamplesBuffer at hloop
              rw [hm] at hloop
              obtain ⟨e1, e2⟩ := splitLoop_exit _ (by rw [h1.1]; exact hF) _ _ (by omega)
                _ _ _ _ _ (Nat.zero_le _) hloop
              rw [Nat.mod_eq_of_lt (by omega)] at hlt ⊢
              omega
          · simp only [Except.ok.injEq, Prod.mk.injEq] at hsplit
            obtain ⟨rfl, -⟩ := hsplit
            omega
        -- third block
        unfold FeedAudioData.retain at hretain
        split at hretain
        · rename_i hlt
          dsimp only at hretain
          split at hretain
          · cases hretain
          · rename_i sr4 c4 hfill
            simp only [Except.ok.injEq] at hretain
            subst hretain
            obtain ⟨f1, f2, -, f4, -⟩ := FillSamplesBuffer_count _ _ _ _ _
              (by simp only; rw [h1.1]; exact hF) hfill
            simp only at f1 f4
            have hm : (n - idx2) % UINT32_MOD = n - idx2 := Nat.mod_eq_of_lt (by omega)
            rw [hm] at f2
            have := h2 hlt
            exact ⟨by rw [f1, f4]; omega, by rw [f1, h1.1]⟩
        · simp only [Except.ok.injEq] at hretain
          subst hretain
          exact ⟨by rw [h1.1]; exact h1.2, h1.1⟩

theorem runCalls_keeps_count_below_frame (F : Nat) (hF : F < UINT32_MOD) :
    ∀ (calls : List RechunkerCall) (w w1 : World), w.sr.mAudioSamplesPerChunk = F →
      w.sr.mBufferedSamples < F → (∀ c ∈ calls, c.fits = true) →
      runCalls calls w = .ok w1 →
      w1.sr.mBufferedSamples < F ∧ w1.sr.mAudioSamplesPerChunk = F := by
  intro calls
  induction calls with
  | nil =>
    intro w w1 hwF hb _ h
    simp only [runCalls, Except.ok.injEq] at h
    subst h
    exact ⟨hb, hwF⟩
  | cons c cs ih =>
    intro w w1 hwF hb hfit h
    have hcs : ∀ c ∈ cs, c.fits = true := fun c hc => hfit c (List.mem_cons_of_mem _ hc)
    cases c with
    | reset =>
      simp only [runCalls] at h
      exact ih (Reset w) w1 (by simpa [Reset, SetState, CancelTimer] using hwF)
        (by simp [Reset, SetState, CancelTimer]; omega) hcs h
    | feed fuel xs prov =>
      have hx : xs.length < UINT32_MOD := by
        have := hfit _ (List.mem_cons_self _ _)
        simpa [RechunkerCall.fits] using this
      simp only [runCalls] at h
      split at h
      · cases h
      · rename_i w2 hfeed
        obtain ⟨h1, h2⟩ := FeedAudioData_keeps_count_below_frame fuel xs xs.length prov w w2
          (by rw [hwF]; exact hb) (by rw [hwF]; exact hF) hx hfeed
        exact ih w2 w1 (by rw [h2, hwF]) (by rw [← hwF, ← h2]; exact h1) hcs h

/-- C12: for every frame size `F` with `0 < F` (a `uint32_t` value): if fewer than
`F` samples are retained before a `FeedAudioData` call, fewer than `F` are retained
after it returns, for every input length (a `uint32_t` value); hence this holds
after every sequence of `FeedAudioData` and `Reset` calls that returns, starting
from construction. When moreover the retained buffer is in order and the input has
`n` samples with `n + F < 2 ^ 32`, the call does return (with fuel above `n`). -/
theorem C12_buffered_count_stays_below_frame (F : Nat) (hF0 : 0 < F)
    (hF : F < UINT32_MOD) :
    (∀ fuel xs prov (w w1 : World), w.sr.mAudioSamplesPerChunk = F →
      w.sr.mBufferedSamples < F → xs.length < UINT32_MOD →
      FeedAudioData fuel xs xs.length prov w = .ok w1 → w1.sr.mBufferedSamples < F) ∧
    (∀ calls (w1 : World), (∀ c ∈ calls, c.fits = true) →
      runCalls calls (World.fresh F) = .ok w1 → w1.sr.mBufferedSamples < F) ∧
    (∀ fuel xs prov (w : World), w.sr.mAudioSamplesPerChunk = F →
      w.sr.bufferOk = true → xs.length + F < UINT32_MOD → xs.length < fuel →
      ∃ w1, FeedAudioData fuel xs xs.length prov w = .ok w1) := by
  refine ⟨?_, ?_, ?_⟩
  · intro fuel xs prov w w1 hwF hb hx h
    obtain ⟨h1, h2⟩ := FeedAudioData_keeps_count_below_frame fuel xs xs.length prov w w1
      (by rw [hwF]; exact hb) (by rw [hwF]; exact hF) hx h
    rw [h2, hwF] at h1
    exact h1
  · intro calls w1 hfit h
    exact (runCalls_keeps_count_below_frame F hF calls (World.fresh F) w1 rfl hF0 hfit h).1
  · intro fuel xs prov w hwF hok hb hfuel
    obtain ⟨w1, h1, -⟩ := FeedAudioData_spec fuel xs prov w hok (by rw [hwF]; exact hb) hfuel
    exact ⟨w1, h1⟩

/-- Witness of C12: with frames of 4 samples, ten samples are fed, the session is
reset, and two more samples are fed. -/
theorem C12_buffered_count_stays_below_frame_witness :
    ∃ w1, runCalls [.feed 11 [1, 2, 3, 4, 5, 6, 7, 8, 9, 10] none, .reset,
        .feed 3 [11, 12] none] (World.fresh 4) = .ok w1 ∧
      w1.sr.mBufferedSamples < 4 :=
  ⟨_, rfl, (C12_buffered_count_stays_below_frame 4 (by decide) (by decide)).2.1
    [.feed 11 [1, 2, 3, 4, 5, 6, 7, 8, 9, 10] none, .reset, .feed 3 [11, 12] none] _
    (by decide) rfl⟩

/-! ## Feeds in one call and in two calls -/

theorem frames_small (F : Nat) (l : List Int) (h : l.length < F) : frames F l = [] := by
  simp [frames, Nat.div_eq_of_lt h]

theorem frames_cons (F : Nat) (hF : 0 < F) (l : List Int) (h : F ≤ l.length) :
    frames F l = l.take F :: frames F (l.drop F) := by
  have hdiv : l.length / F = (l.length - F) / F + 1 := by
    have : l.length = (l.length - F) + F := by omega
    conv_lhs => rw [this]
    rw [Nat.add_div_right _ hF]
  unfold frames
  rw [hdiv]
  have := range_map_shift F 0 ((l.length - F) / F) l
  simp only [Nat.zero_add, List.drop_zero] at this
  rw [this, List.length_drop]
  congr 1
  apply List.map_congr_left
  intro i _
  rw [List.drop_drop]

theorem frames_append_multiple (F : Nat) (hF : 0 < F) (m : List Int) :
    ∀ (k : Nat) (p : List Int), p.length = F * k →
      frames F (p ++ m) = frames F p ++ frames F m := by
  intro k
  induction k with
  | zero =>
    intro p hp
    have : p = [] := List.eq_nil_of_length_eq_zero (by simpa using hp)
    subst this
    simp [frames]
  | succ k ih =>
    intro p hp
    rw [Nat.mul_succ] at hp
    have hle : F ≤ p.length := by omega
    rw [frames_cons F hF (p ++ m) (by simp only [List.length_append]; omega),
      frames_cons F hF p hle, List.take_append_of_le_length hle,
      List.drop_append_of_le_length hle, ih (p.drop F) (by simp only [List.length_drop]; omega)]
    rfl

theorem frames_take_multiple (F : Nat) (hF : 0 < F) (l : List Int) :
    frames F (l.take (F * (l.length / F))) = frames F l := by
  have hle : F * (l.length / F) ≤ l.length := Nat.mul_div_le _ _
  have hlen : (l.take (F * (l.length / F))).length = F * (l.length / F) := by
    rw [List.length_take]; omega
  have h := frames_append_multiple F hF (l.drop (F * (l.length / F))) (l.length / F)
    (l.take (F * (l.length / F))) hlen
  rw [List.take_append_drop] at h
  have hsmall : frames F (l.drop (F * (l.length / F))) = [] := by
    apply frames_small
    rw [List.length_drop]
    have := Nat.div_add_mod l.length F
    have := Nat.mod_lt l.length hF
    omega
  rw [hsmall, List.append_nil] at h
  exact h.symm

theorem drop_frames_append (F : Nat) (hF : 0 < F) (k : Nat) (p m : List Int)
    (hp : p.length = F * k) :
    (p ++ m).drop (F * ((p ++ m).length / F)) = m.drop (F * (m.length / F)) := by
  rw [List.length_append, hp, Nat.mul_add_div hF, Nat.mul_add, ← hp, List.drop_append]

/-- C13 (amended): for a session whose retained buffer is in order and sample
sequences `xs`, `ys` with `|xs| + |ys| + F < 2 ^ 32`, feeding `xs ++ ys` in one
`FeedAudioData` call and feeding `xs` and then `ys` in two calls all return (with
enough fuel); the chunks of the one call are the chunks of the two calls
concatenated, and the retained samples and their count are the same at the end. -/
theorem C13_one_call_or_two (fuel fuel1 fuel2 : Nat) (xs ys : List Int) (prov : Option Nat)
    (w : World) (hok : w.sr.bufferOk = true)
    (hb : (xs ++ ys).length + w.sr.mAudioSamplesPerChunk < UINT32_MOD)
    (hfuel : (xs ++ ys).length < fuel) (hfuel1 : xs.length < fuel1)
    (hfuel2 : ys.length < fuel2) :
    ∃ w12 w1 w2 seg12 seg1 seg2,
      FeedAudioData fuel (xs ++ ys) (xs ++ ys).length prov w = .ok w12 ∧
      w12.queue = w.queue ++
        [{ mType := .EVENT_AUDIO_DATA, mAudioSegment := seg12, mProvider := prov }] ∧
      FeedAudioData fuel1 xs xs.length prov w = .ok w1 ∧
      w1.queue = w.queue ++
        [{ mType := .EVENT_AUDIO_DATA, mAudioSegment := seg1, mProvider := prov }] ∧
      FeedAudioData fuel2 ys ys.length prov w1 = .ok w2 ∧
      w2.queue = w1.queue ++
        [{ mType := .EVENT_AUDIO_DATA, mAudioSegment := seg2, mProvider := prov }] ∧
      seg12 = seg1 ++ seg2 ∧
      w12.sr.retained = w2.sr.retained ∧
      w12.sr.mBufferedSamples = w2.sr.mBufferedSamples := by
  have hF : 0 < w.sr.mAudioSamplesPerChunk := by
    simp [Session.bufferOk] at hok; omega
  have hlen : (xs ++ ys).length = xs.length + ys.length := List.length_append _ _
  obtain ⟨w12, a1, a2, -, -, a5, a6, -⟩ := FeedAudioData_spec fuel (xs ++ ys) prov w hok hb hfuel
  obtain ⟨w1, b1, b2, -, b4, b5, b6, b7⟩ := FeedAudioData_spec fuel1 xs prov w hok
    (by omega) hfuel1
  have hF1 : w1.sr.mAudioSamplesPerChunk = w.sr.mAudioSamplesPerChunk := by
    have h := congrArg Session.mAudioSamplesPerChunk b7
    exact h
  obtain ⟨w2, c1, c2, -, -, c5, c6, -⟩ := FeedAudioData_spec fuel2 ys prov w1 b4
    (by rw [hF1]; omega) hfuel2
  rw [hF1] at c2 c5 c6
  -- the list fed so far, split at the last frame boundary
  set a := w.sr.retained ++ xs with ha
  set F := w.sr.mAudioSamplesPerChunk with hFdef
  have hle : F * (a.length / F) ≤ a.length := Nat.mul_div_le _ _
  have hplen : (a.take (F * (a.length / F))).length = F * (a.length / F) := by
    rw [List.length_take]; omega
  have hsplit : w.sr.retained ++ (xs ++ ys) =
      a.take (F * (a.length / F)) ++ (a.drop (F * (a.length / F)) ++ ys) := by
    calc w.sr.retained ++ (xs ++ ys) = a ++ ys := by rw [ha, List.append_assoc]
      _ = (a.take (F * (a.length / F)) ++ a.drop (F * (a.length / F))) ++ ys := by
          rw [List.take_append_drop]
      _ = _ := List.append_assoc _ _ _
  have hframes : frames F (w.sr.retained ++ (xs ++ ys)) =
      frames F a ++ frames F (a.drop (F * (a.length / F)) ++ ys) := by
    rw [hsplit, frames_append_multiple F hF _ _ _ hplen, frames_take_multiple F hF]
  refine ⟨w12, w1, w2, _, _, _, a1, a2, b1, b2, c1, c2, ?_, ?_, ?_⟩
  · rw [hframes, b5, List.map_append]
  · rw [a5, c5, b5, hsplit]
    exact drop_frames_append F hF _ _ _ hplen
  · rw [a6, c6, b5, hsplit, List.length_append, hplen, Nat.mul_add_mod]

/-- Witness of C13: a session retaining three samples is fed two samples and then
four, or the six at once. -/
theorem C13_one_call_or_two_witness :
    ∃ w12 w1 w2 seg12 seg1 seg2,
      FeedAudioData 7 ([1, 2] ++ [3, 4, 5, 6]) ([1, 2] ++ [3, 4, 5, 6]).length (some 1)
        retainingWorld = .ok w12 ∧
      w12.queue = retainingWorld.queue ++
        [{ mType := .EVENT_AUDIO_DATA, mAudioSegment := seg12, mProvider := some 1 }] ∧
      FeedAudioData 3 [1, 2] [1, 2].length (some 1) retainingWorld = .ok w1 ∧
      w1.queue = retainingWorld.queue ++
        [{ mType := .EVENT_AUDIO_DATA, mAudioSegment := seg1, mProvider := some 1 }] ∧
      FeedAudioData 5 [3, 4, 5, 6] [3, 4, 5, 6].length (some 1) w1 = .ok w2 ∧
      w2.queue = w1.queue ++
        [{ mType := .EVENT_AUDIO_DATA, mAudioSegment := seg2, mProvider := some 1 }] ∧
      seg12 = seg1 ++ seg2 ∧
      w12.sr.retained = w2.sr.retained ∧
      w12.sr.mBufferedSamples = w2.sr.mBufferedSamples :=
  C13_one_call_or_two 7 3 5 [1, 2] [3, 4, 5, 6] (some 1) retainingWorld
    (by decide) (by decide) (by decide) (by decide) (by decide)

/-- C13 as stated fails: with frames of `2 ^ 31` samples and an empty retained
buffer, two calls with `2 ^ 30` samples each return (the second completes a chunk),
while one call with the `2 ^ 31` samples never returns: after the first chunk the
32-bit sum `chunkStart + F` wraps to 0. -/
theorem C13_one_call_diverges_where_two_return :
    (∃ w1 w2,
      FeedAudioData (2 ^ 30 + 1) (List.replicate (2 ^ 30) 0) (2 ^ 30) none
        (World.fresh (2 ^ 31)) = .ok w1 ∧
      FeedAudioData (2 ^ 30 + 1) (List.replicate (2 ^ 30) 0) (2 ^ 30) none w1 = .ok w2) ∧
    ¬ ∃ fuel w12,
      FeedAudioData fuel (List.replicate (2 ^ 30) 0 ++ List.replicate (2 ^ 30) 0) (2 ^ 31)
        none (World.fresh (2 ^ 31)) = .ok w12 := by
  constructor
  · have hl : (List.replicate (2 ^ 30) (0 : Int)).length = 2 ^ 30 := List.length_replicate _ _
    have hF : (World.fresh (2 ^ 31)).sr.mAudioSamplesPerChunk = 2 ^ 31 := rfl
    have hsum : 2 ^ 30 + 2 ^ 31 < UINT32_MOD := by decide
    obtain ⟨w1, b1, -, -, b4, -, -, b7⟩ := FeedAudioData_spec (2 ^ 30 + 1)
      (List.replicate (2 ^ 30) 0) none (World.fresh (2 ^ 31))
      (by simp [Session.bufferOk, World.fresh, Session.fresh])
      (by rw [hl, hF]; exact hsum) (by rw [hl]; exact Nat.lt_succ_self _)
    have hF1 : w1.sr.mAudioSamplesPerChunk = 2 ^ 31 := by
      have h := congrArg Session.mAudioSamplesPerChunk b7
      exact h
    obtain ⟨w2, c1, -⟩ := FeedAudioData_spec (2 ^ 30 + 1)
      (List.replicate (2 ^ 30) 0) none w1 b4
      (by rw [hl, hF1]; exact hsum) (by rw [hl]; exact Nat.lt_succ_self _)
    rw [hl] at b1 c1
    exact ⟨w1, w2, b1, c1⟩
  · rintro ⟨fuel, w12, h⟩
    rw [FeedAudioData_wraps] at h
    cases h

/-! ## One audio event per call -/

theorem frames_production_order (F : Nat) (hF : 0 < F) (r xs : List Int)
    (hr : r.length < F) :
    frames F (r ++ xs) =
      (if 0 < r.length ∧ F ≤ r.length + xs.length then [r ++ xs.take (F - r.length)]
        else []) ++
      (List.range
          ((xs.length - (if 0 < r.length then min xs.length (F - r.length) else 0)) / F)).map
        (fun i =>
          (xs.drop ((if 0 < r.length then min xs.length (F - r.length) else 0) + i * F)).take
            F) := by
  rcases Nat.eq_zero_or_pos r.length with h0 | h0
  · have hnil : r = [] := List.eq_nil_of_length_eq_zero h0
    subst hnil
    simp [frames]
  · by_cases hlt : r.length + xs.length < F
    · have hmin : min xs.length (F - r.length) = xs.length := Nat.min_eq_left (by omega)
      rw [frames_small F _ (by simp only [List.length_append]; exact hlt)]
      simp [h0, hmin, Nat.not_le.mpr hlt]
    · have hmin : min xs.length (F - r.length) = F - r.length := Nat.min_eq_right (by omega)
      have hle : F ≤ r.length + xs.length := by omega
      rw [frames_cons F hF _ (by simp only [List.length_append]; exact hle)]
      simp only [h0, hle, and_self, if_true, hmin, List.singleton_append]
      have htake : (r ++ xs).take F = r ++ xs.take (F - r.length) := by
        rw [List.take_append_eq_append_take, List.take_of_length_le (Nat.le_of_lt hr)]
      have hdrop : (r ++ xs).drop F = xs.drop (F - r.length) := by
        have : F = r.length + (F - r.length) := by omega
        conv_lhs => rw [this]
        rw [List.drop_append]
      rw [htake, hdrop]
      congr 1
      unfold frames
      rw [List.length_drop]
      apply List.map_congr_left
      intro i _
      rw [List.drop_drop]

/-- C14 (amended): for a session whose retained buffer is in order (`b` samples
retained, frames of `F`) and an input of `n` samples with `n + F < 2 ^ 32`, a
`FeedAudioData` call returns and adds exactly one audio event to the queue. Its
segment holds the chunks of the call in production order, each with duration `F`:
first the topped-off retained buffer (when `0 < b` and `b + n >= F`), then the
successive slices of `F` samples of the rest of the input. When `b + n < F` the
call completes no chunk and the segment of its one event is empty. -/
theorem C14_one_event_per_call (fuel : Nat) (xs : List Int) (prov : Option Nat)
    (w : World) (hok : w.sr.bufferOk = true)
    (hb : xs.length + w.sr.mAudioSamplesPerChunk < UINT32_MOD) (hfuel : xs.length < fuel) :
    ∃ w1 segment, FeedAudioData fuel xs xs.length prov w = .ok w1 ∧
      w1.queue = w.queue ++
        [{ mType := .EVENT_AUDIO_DATA, mAudioSegment := segment, mProvider := prov }] ∧
      segment.map AudioChunk.mBuffer =
        (if 0 < w.sr.mBufferedSamples ∧
            w.sr.mAudioSamplesPerChunk ≤ w.sr.mBufferedSamples + xs.length then
          [w.sr.retained ++ xs.take (w.sr.mAudioSamplesPerChunk - w.sr.mBufferedSamples)]
        else []) ++
        (List.range
          ((xs.length -
              (if 0 < w.sr.mBufferedSamples then
                min xs.length (w.sr.mAudioSamplesPerChunk - w.sr.mBufferedSamples)
              else 0)) / w.sr.mAudioSamplesPerChunk)).map
          (fun i =>
            (xs.drop
              ((if 0 < w.sr.mBufferedSamples then
                  min xs.length (w.sr.mAudioSamplesPerChunk - w.sr.mBufferedSamples)
                else 0) + i * w.sr.mAudioSamplesPerChunk)).take
              w.sr.mAudioSamplesPerChunk) ∧
      (∀ c ∈ segment, c.mDuration = w.sr.mAudioSamplesPerChunk) ∧
      (w.sr.mBufferedSamples + xs.length < w.sr.mAudioSamplesPerChunk → segment = []) := by
  obtain ⟨w1, h1, h2, -⟩ := FeedAudioData_spec fuel xs prov w hok hb hfuel
  have hrl := retained_length w.sr hok
  have hbF : w.sr.mBufferedSamples < w.sr.mAudioSamplesPerChunk := by
    simp [Session.bufferOk] at hok; omega
  refine ⟨w1, _, h1, h2, ?_, ?_, ?_⟩
  · rw [List.map_map]
    have hid : (AudioChunk.mBuffer ∘
        fun c => (⟨c, w.sr.mAudioSamplesPerChunk⟩ : AudioChunk)) = id := rfl
    rw [hid, List.map_id,
      frames_production_order _ (by omega) _ _ (by rw [hrl]; exact hbF), hrl]
  · intro c hc
    simp only [List.mem_map] at hc
    obtain ⟨b, -, rfl⟩ := hc
    rfl
  · intro hlt
    rw [frames_small _ _ (by simp only [List.length_append, hrl]; exact hlt)]
    rfl

/-- Witness of C14: a session retaining three samples (frames of 4) is fed six. -/
theorem C14_one_event_per_call_witness :
    ∃ w1 segment,
      FeedAudioData 7 [1, 2, 3, 4, 5, 6] [1, 2, 3, 4, 5, 6].length (some 1) retainingWorld =
        .ok w1 ∧
      w1.queue = retainingWorld.queue ++
        [{ mType := .EVENT_AUDIO_DATA, mAudioSegment := segment, mProvider := some 1 }] ∧
      segment.map AudioChunk.mBuffer = [[7, 8, 9, 1], [2, 3, 4, 5]] ∧
      (∀ c ∈ segment, c.mDuration = 4) := by
  obtain ⟨w1, segment, h1, h2, h3, h4, -⟩ := C14_one_event_per_call 7 [1, 2, 3, 4, 5, 6]
    (some 1) retainingWorld (by decide) (by decide) (by decide)
  exact ⟨w1, segment, h1, h2, h3.trans (by decide), h4⟩

/-- C14 as stated fails: on the wrapping input (frames of `2 ^ 31` samples, an input
of `2 ^ 31` samples) the call never returns, so it adds no event to the queue. -/
theorem C14_no_event_on_wrap :
    ¬ ∃ fuel w1 event,
      FeedAudioData fuel (List.replicate (2 ^ 31) 0) (2 ^ 31) none (World.fresh (2 ^ 31)) =
        .ok w1 ∧
      w1.queue = [event] ∧ event.mType = .EVENT_AUDIO_DATA := by
  rintro ⟨fuel, w1, event, h, -⟩
  rw [FeedAudioData_wraps] at h
  cases h

/-! ## Intermediate results and the abort handlers -/

/-- C27 (amended): `Transition` on an intermediate result of the service returns
normally, leaves the session unchanged and emits nothing in every state of the table
other than WaitingForResult (Idle, Starting, Estimating, WaitingForSpeech,
Recognizing, Aborting); in WaitingForResult the pair is listed with the unreachable
ones and the transition traps. -/
theorem C27_intermediate_result_ignored_except_waiting_for_result (env : Env)
    (e : SpeechEvent) (w : World)
    (ht : e.mType = .EVENT_RECOGNITIONSERVICE_INTERMEDIATE_RESULT) :
    (ignoresIntermediateResult w.sr.mCurrentState = true → Transition env e w = .ok w) ∧
    (w.sr.mCurrentState = .STATE_WAITING_FOR_RESULT →
      Transition env e w = .error .notReached) := by
  obtain ⟨s, hs⟩ : ∃ s, w.sr.mCurrentState = s := ⟨_, rfl⟩
  cases s <;> simp [Transition, hs, ht, ignoresIntermediateResult, DoNothing]

/-- Witness of C27: an intermediate result while estimating, and one while waiting
for the result. -/
theorem C27_intermediate_result_ignored_except_waiting_for_result_witness :
    Transition quietEnv { mType := .EVENT_RECOGNITIONSERVICE_INTERMEDIATE_RESULT }
        estimatingWorld = .ok estimatingWorld ∧
      Transition quietEnv { mType := .EVENT_RECOGNITIONSERVICE_INTERMEDIATE_RESULT }
        waitingWorld = .error .notReached :=
  ⟨(C27_intermediate_result_ignored_except_waiting_for_result quietEnv
      { mType := .EVENT_RECOGNITIONSERVICE_INTERMEDIATE_RESULT } estimatingWorld rfl).1 rfl,
    (C27_intermediate_result_ignored_except_waiting_for_result quietEnv
      { mType := .EVENT_RECOGNITIONSERVICE_INTERMEDIATE_RESULT } waitingWorld rfl).2 rfl⟩

/-- C27 as stated fails: in WaitingForResult, `Transition` on an intermediate result
does not return normally. -/
theorem C27_intermediate_result_traps_in_waiting_for_result :
    waitingWorld.sr.mCurrentState = .STATE_WAITING_FOR_RESULT ∧
      ¬ ∃ w1, Transition quietEnv
        { mType := .EVENT_RECOGNITIONSERVICE_INTERMEDIATE_RESULT } waitingWorld = .ok w1 := by
  refine ⟨rfl, ?_⟩
  rintro ⟨w1, h⟩
  have h2 : Transition quietEnv { mType := .EVENT_RECOGNITIONSERVICE_INTERMEDIATE_RESULT }
      waitingWorld = .error .notReached := rfl
  rw [h2] at h
  cases h

/-- C25: for every state and every error event `e`, `AbortError` is `AbortSilently`
on the same state followed by the delivery of one `error` event that carries the
error of `e`: it fails where `AbortSilently` fails and otherwise delivers `error` in
the world `AbortSilently` returns. With passive listeners the session is the one
`AbortSilently` leaves, the actions are those of `AbortSilently` followed by that
single `error`, and the last action of `AbortSilently` is the `end` event, so `end`
precedes `error`. `AbortSilently` returns whenever the capture is not active or the
capture stream is held. -/
theorem C25_AbortError_is_AbortSilently_then_error (env : Env) (e : SpeechEvent)
    (w : World) :
    AbortError env e w =
        (match AbortSilently env e w with
         | .error f => .error f
         | .ok w0 => .ok (DispatchEvent env (.error e.mError) w0)) ∧
    (∀ w0, AbortSilently env e w = .ok w0 → Passive env →
      ∃ w1 before, AbortError env e w = .ok w1 ∧ w1.sr = w0.sr ∧
        w1.trace = w0.trace ++ [.notify (.error e.mError)] ∧
        w0.trace = w.trace ++ before ++ [.notify (.trusted "end")] ∧
        w1.trace = w.trace ++ before ++ [.notify (.trusted "end"), .notify (.error e.mError)] ∧
        ((notifications before).filter Notification.isError).length = 0 ∧
        countEnd before = 0) ∧
    ((isCapturing w.sr.mCurrentState = true → w.sr.streamHeld = true) →
      ∃ w0, AbortSilently env e w = .ok w0) := by
  refine ⟨rfl, ?_, AbortSilently_returns env e w⟩
  intro w0 h0 hp
  have htr := (AbortSilently_returned env hp e w w0 h0).1
  have h1 : (DispatchEvent env (.error e.mError) w0).trace =
      w0.trace ++ [.notify (.error e.mError)] := by
    simp [DispatchEvent, passive_trace hp]
  refine ⟨_, [.setState .STATE_ABORTING] ++
      (if w.sr.mRecognitionService.isSome then [.serviceAbort] else []) ++
      (if isCapturing w.sr.mCurrentState then
        [.removeListener, .notify (.trusted "audioend")] else []) ++
      [.setState .STATE_IDLE, .timerCancel], AbortError_ok env e w w0 h0,
    by simp [DispatchEvent, passive_sr hp], h1, ?_, ?_, ?_, ?_⟩
  · rw [htr]; simp
  · rw [h1, htr]; simp
  · cases w.sr.mRecognitionService <;> cases isCapturing w.sr.mCurrentState <;>
      simp [notifications, Notification.isError]
  · cases w.sr.mRecognitionService <;> cases isCapturing w.sr.mCurrentState <;>
      simp [countEnd, notifications]

/-- Witness of C25: the capture error `AUDIO_CAPTURE` (message `lost`) while
estimating, the capture stream being held. -/
theorem C25_AbortError_is_AbortSilently_then_error_witness :
    ∃ w0 w1, AbortSilently quietEnv
        { mType := .EVENT_AUDIO_ERROR, mError := ⟨.AUDIO_CAPTURE, "lost"⟩ }
        estimatingWorld = .ok w0 ∧
      AbortError quietEnv { mType := .EVENT_AUDIO_ERROR, mError := ⟨.AUDIO_CAPTURE, "lost"⟩ }
        estimatingWorld = .ok w1 ∧
      w1.trace = w0.trace ++ [.notify (.error ⟨.AUDIO_CAPTURE, "lost"⟩)] ∧
      notifications w1.trace =
        [.trusted "audioend", .trusted "end", .error ⟨.AUDIO_CAPTURE, "lost"⟩] := by
  obtain ⟨w1, before, h1, -, h3, -⟩ :=
    (C25_AbortError_is_AbortSilently_then_error quietEnv
      { mType := .EVENT_AUDIO_ERROR, mError := ⟨.AUDIO_CAPTURE, "lost"⟩ }
      estimatingWorld).2.1 _ rfl quietEnv_passive
  exact ⟨_, w1, rfl, h1, h3, by rw [h3]; rfl⟩

/-- C26 (amended): for every starting state in which the capture stream is held
whenever the capture is active, `AbortSilently` performs its effects in this order:
it sets the state to Aborting first, then instructs the service to abort (if one is
attached), then stops the capture (only if the state was between Estimating and
Recognizing inclusive), which emits `audioend`, then resets the session (state
Idle, timer cancelled), then emits `end`. -/
theorem C26_AbortSilently_order (env : Env) (hp : Passive env) (e : SpeechEvent)
    (w : World)
    (hh : StateBetween w.sr .STATE_ESTIMATING .STATE_RECOGNIZING = true →
      w.sr.streamHeld = true) :
    ∃ w1, AbortSilently env e w = .ok w1 ∧
      w1.trace = w.trace ++
        ([.setState .STATE_ABORTING] ++
          (if w.sr.mRecognitionService.isSome then [.serviceAbort] else []) ++
          (if StateBetween w.sr .STATE_ESTIMATING .STATE_RECOGNIZING then
            [.removeListener, .notify (.trusted "audioend")] else []) ++
          [.setState .STATE_IDLE, .timerCancel, .notify (.trusted "end")]) ∧
      w1.sr.mCurrentState = .STATE_IDLE := by
  have hsb : StateBetween w.sr .STATE_ESTIMATING .STATE_RECOGNIZING =
      isCapturing w.sr.mCurrentState := by
    obtain ⟨s, hs⟩ : ∃ s, w.sr.mCurrentState = s := ⟨_, rfl⟩
    cases s <;> simp [StateBetween, hs, isCapturing, FSMState.toNat]
  rw [hsb] at hh ⊢
  obtain ⟨w1, h0, h1, h2, -⟩ := AbortSilently_passive env hp e w hh
  exact ⟨w1, h0, h1, h2⟩

/-- Witness of C26: an abort request while estimating, the capture stream being
held. -/
theorem C26_AbortSilently_order_witness :
    ∃ w1, AbortSilently quietEnv { mType := .EVENT_ABORT } estimatingWorld = .ok w1 ∧
      w1.trace =
        [.setState .STATE_ABORTING, .serviceAbort, .removeListener,
          .notify (.trusted "audioend"), .setState .STATE_IDLE, .timerCancel,
          .notify (.trusted "end")] := by
  obtain ⟨w1, h0, h1, -⟩ := C26_AbortSilently_order quietEnv quietEnv_passive
    { mType := .EVENT_ABORT } estimatingWorld (fun _ => rfl)
  exact ⟨w1, h0, h1⟩

/-- C26 as stated fails: on an abort request while estimating (the capture stream
being held), the capture is not stopped before the state is set to Aborting, it is
stopped after it, and after the service has been told to abort. -/
theorem C26_capture_stops_after_aborting_state :
    ∃ w1, AbortSilently quietEnv { mType := .EVENT_ABORT } estimatingWorld = .ok w1 ∧
      occursBefore .removeListener (.setState .STATE_ABORTING) w1.trace = false ∧
      occursBefore (.setState .STATE_ABORTING) .removeListener w1.trace = true ∧
      occursBefore .serviceAbort .removeListener w1.trace = true :=
  ⟨_, rfl, by decide, by decide, by decide⟩

/-! ## Audio events while capturing -/

/-- With a service attached `ProcessAudioSegment` returns: the detector has been
fed the segment, the service has received it, and the number of samples is the
duration of the segment (32-bit). -/
theorem ProcessAudioSegment_attached (seg : AudioSegment) (w : World)
    (hb : w.sr.mRecognitionService.isSome = true) :
    ProcessAudioSegment seg w = .ok
      ({ w with
          sr := { w.sr with
                  mEndpointer :=
                    { w.sr.mEndpointer with frames := w.sr.mEndpointer.frames ++ seg } }
          trace := w.trace ++ [.serviceProcessAudioSegment seg] },
        segmentDuration seg % UINT32_MOD) := by
  obtain ⟨svc, hsvc⟩ := Option.isSome_iff_exists.mp hb
  have hpos : 0 < UINT32_MOD := by decide
  unfold ProcessAudioSegment
  rw [hsvc]
  simp only [samples_fold _ 0 hpos, Nat.zero_add]

/-- C21: for every session in Starting with a service attached, `Transition` on an
audio event sets the state to Estimating, puts the detector in
environment-estimation mode, feeds it the segment, adds the segment's sample count
to the estimation counter (32-bit addition) and delivers `audiostart` in that
state; `start` is emitted after it exactly when the state is still Estimating once
the listeners of `audiostart` have run. With passive listeners both are emitted, in
that order, and the session is the one in which `audiostart` was delivered. -/
theorem C21_first_audio_starts_estimation (env : Env) (e : SpeechEvent) (w : World)
    (hs : w.sr.mCurrentState = .STATE_STARTING) (ht : e.mType = .EVENT_AUDIO_DATA)
    (hb : w.sr.mRecognitionService.isSome = true) :
    ∃ w4 : World,
      w4.sr.mCurrentState = .STATE_ESTIMATING ∧
      w4.sr.mEndpointer.mode = .environmentEstimation ∧
      w4.sr.mEndpointer.frames = w.sr.mEndpointer.frames ++ e.mAudioSegment ∧
      w4.sr.mEstimationSamples =
        (w.sr.mEstimationSamples + segmentDuration e.mAudioSegment) % UINT32_MOD ∧
      w4.trace = w.trace ++ [.setState .STATE_ESTIMATING,
        .serviceProcessAudioSegment e.mAudioSegment, .notify (.trusted "audiostart")] ∧
      Transition env e w = .ok
        (if (env.observer (.trusted "audiostart") w4).sr.mCurrentState = .STATE_ESTIMATING
          then DispatchTrustedEvent env "start" (env.observer (.trusted "audiostart") w4)
          else env.observer (.trusted "audiostart") w4) ∧
      (Passive env → ∃ w1, Transition env e w = .ok w1 ∧ w1.sr = w4.sr ∧
        w1.trace = w4.trace ++ [.notify (.trusted "start")]) := by
  have hrun : Transition env e w = .ok
      (if (env.observer (.trusted "audiostart")
            { sr := { w.sr with
                      mCurrentState := .STATE_ESTIMATING
                      mEndpointer :=
                        { w.sr.mEndpointer with
                          mode := .environmentEstimation
                          frames := w.sr.mEndpointer.frames ++ e.mAudioSegment }
                      mEstimationSamples :=
                        (w.sr.mEstimationSamples + segmentDuration e.mAudioSegment) %
                          UINT32_MOD }
              trace := w.trace ++ [.setState .STATE_ESTIMATING,
                .serviceProcessAudioSegment e.mAudioSegment,
                .notify (.trusted "audiostart")]
              queue := w.queue }).sr.mCurrentState = .STATE_ESTIMATING
        then DispatchTrustedEvent env "start" (env.observer (.trusted "audiostart")
            { sr := { w.sr with
                      mCurrentState := .STATE_ESTIMATING
                      mEndpointer :=
                        { w.sr.mEndpointer with
                          mode := .environmentEstimation
                          frames := w.sr.mEndpointer.frames ++ e.mAudioSegment }
                      mEstimationSamples :=
                        (w.sr.mEstimationSamples + segmentDuration e.mAudioSegment) %
                          UINT32_MOD }
              trace := w.trace ++ [.setState .STATE_ESTIMATING,
                .serviceProcessAudioSegment e.mAudioSegment,
                .notify (.trusted "audiostart")]
              queue := w.queue })
        else env.observer (.trusted "audiostart")
            { sr := { w.sr with
                      mCurrentState := .STATE_ESTIMATING
                      mEndpointer :=
                        { w.sr.mEndpointer with
                          mode := .environmentEstimation
                          frames := w.sr.mEndpointer.frames ++ e.mAudioSegment }
                      mEstimationSamples :=
                        (w.sr.mEstimationSamples + segmentDuration e.mAudioSegment) %
                          UINT32_MOD }
              trace := w.trace ++ [.setState .STATE_ESTIMATING,
                .serviceProcessAudioSegment e.mAudioSegment,
                .notify (.trusted "audiostart")]
              queue := w.queue }) := by
    simp only [Transition, hs, ht, StartedAudioCapture, ProcessAudioSegment_attached, hb,
      DispatchTrustedEvent, DispatchEvent, SetState, Nat.add_mod_mod, List.append_assoc,
      List.singleton_append, List.cons_append, List.nil_append, apply_ite Except.ok]
  refine ⟨_, rfl, rfl, rfl, rfl, rfl, hrun, ?_⟩
  intro hp
  refine ⟨_, hrun, ?_, ?_⟩
  · simp [passive_sr hp, DispatchTrustedEvent, DispatchEvent]
  · simp [passive_sr hp, passive_trace hp, DispatchTrustedEvent, DispatchEvent]

/-- Witness of C21: the first audio event of a session, one chunk of 160 samples. -/
theorem C21_first_audio_starts_estimation_witness :
    ∃ w1, Transition quietEnv (audioEvent 160) startingWorld = .ok w1 ∧
      w1.sr.mCurrentState = .STATE_ESTIMATING ∧
      w1.sr.mEndpointer.mode = .environmentEstimation ∧
      w1.sr.mEstimationSamples = 160 ∧
      notifications w1.trace = [.trusted "audiostart", .trusted "start"] := by
  obtain ⟨w4, h1, h2, -, h4, h5, -, h7⟩ :=
    C21_first_audio_starts_estimation quietEnv (audioEvent 160) startingWorld rfl rfl rfl
  obtain ⟨w1, hrun, hsr, htr⟩ := h7 quietEnv_passive
  refine ⟨w1, hrun, by rw [hsr, h1], by rw [hsr, h2], by rw [hsr, h4]; rfl, ?_⟩
  rw [htr, h5]
  rfl

/-- C22: for every session in WaitingForSpeech (a service is attached there),
`Transition` on an audio event feeds the segment to the detector; if the detector
then reports that speech has started, the timer is cancelled, the state becomes
Recognizing and `speechstart` is emitted once, after the state change; otherwise the
state stays WaitingForSpeech, the timer is untouched and nothing is emitted. -/
theorem C22_speech_start_detection (env : Env) (e : SpeechEvent) (w : World)
    (hs : w.sr.mCurrentState = .STATE_WAITING_FOR_SPEECH) (ht : e.mType = .EVENT_AUDIO_DATA)
    (hb : w.sr.mRecognitionService.isSome = true) :
    (env.DidStartReceivingSpeech
        { w.sr.mEndpointer with frames := w.sr.mEndpointer.frames ++ e.mAudioSegment } = true →
      ∃ w3 : World,
        w3.sr.mCurrentState = .STATE_RECOGNIZING ∧
        w3.sr.mSpeechDetectionTimer = false ∧
        w3.sr.mEndpointer.frames = w.sr.mEndpointer.frames ++ e.mAudioSegment ∧
        w3.trace = w.trace ++ [.setState .STATE_WAITING_FOR_SPEECH,
          .serviceProcessAudioSegment e.mAudioSegment, .timerCancel,
          .setState .STATE_RECOGNIZING, .notify (.trusted "speechstart")] ∧
        Transition env e w = .ok (env.observer (.trusted "speechstart") w3) ∧
        (Passive env → ∃ w1, Transition env e w = .ok w1 ∧ w1.sr = w3.sr ∧
          w1.trace = w3.trace)) ∧
    (env.DidStartReceivingSpeech
        { w.sr.mEndpointer with frames := w.sr.mEndpointer.frames ++ e.mAudioSegment } = false →
      ∃ w1, Transition env e w = .ok w1 ∧
        w1.sr.mCurrentState = .STATE_WAITING_FOR_SPEECH ∧
        w1.sr.mSpeechDetectionTimer = w.sr.mSpeechDetectionTimer ∧
        w1.sr.mEndpointer.frames = w.sr.mEndpointer.frames ++ e.mAudioSegment ∧
        w1.trace = w.trace ++ [.setState .STATE_WAITING_FOR_SPEECH,
          .serviceProcessAudioSegment e.mAudioSegment]) := by
  constructor
  · intro hd
    have hrun : Transition env e w = .ok (env.observer (.trusted "speechstart")
        { sr := { w.sr with
                  mCurrentState := .STATE_RECOGNIZING
                  mSpeechDetectionTimer := false
                  mEndpointer :=
                    { w.sr.mEndpointer with
                      frames := w.sr.mEndpointer.frames ++ e.mAudioSegment } }
          trace := w.trace ++ [.setState .STATE_WAITING_FOR_SPEECH,
            .serviceProcessAudioSegment e.mAudioSegment, .timerCancel,
            .setState .STATE_RECOGNIZING, .notify (.trusted "speechstart")]
          queue := w.queue }) := by
      simp only [Transition, hs, ht, DetectSpeech, ProcessAudioSegment_attached, hb, hd,
        DispatchTrustedEvent, DispatchEvent, SetState, CancelTimer, List.append_assoc,
        List.singleton_append, List.cons_append, List.nil_append, if_true]
    refine ⟨_, rfl, rfl, rfl, rfl, hrun, ?_⟩
    intro hp
    exact ⟨_, hrun, passive_sr hp _ _, passive_trace hp _ _⟩
  · intro hd
    refine ⟨{ sr := { w.sr with
                  mCurrentState := .STATE_WAITING_FOR_SPEECH
                  mEndpointer :=
                    { w.sr.mEndpointer with
                      frames := w.sr.mEndpointer.frames ++ e.mAudioSegment } }
              trace := w.trace ++ [.setState .STATE_WAITING_FOR_SPEECH,
                .serviceProcessAudioSegment e.mAudioSegment]
              queue := w.queue }, ?_, rfl, rfl, rfl, rfl⟩
    simp only [Transition, hs, ht, DetectSpeech, ProcessAudioSegment_attached, hb, hd,
      SetState, List.append_assoc, List.singleton_append, List.cons_append, List.nil_append]
    rfl

/-- Witness of C22: a frame arrives while waiting for speech, with a detector that
reports speech as soon as it has seen a frame. -/
theorem C22_speech_start_detection_witness :
    ∃ w1, Transition stopOnSpeechstartEnv (audioEvent 160) waitingForSpeechWorld = .ok w1 ∧
      w1.sr.mCurrentState = .STATE_RECOGNIZING ∧
      w1.sr.mSpeechDetectionTimer = false ∧
      notifications w1.trace = [.trusted "speechstart"] := by
  obtain ⟨w3, h1, h2, -, h4, -, h6⟩ :=
    (C22_speech_start_detection stopOnSpeechstartEnv (audioEvent 160) waitingForSpeechWorld
      rfl rfl rfl).1 rfl
  obtain ⟨w1, hrun, hsr, htr⟩ := h6 stopOnSpeechstartEnv_passive
  refine ⟨w1, hrun, by rw [hsr, h1], by rw [hsr, h2], ?_⟩
  rw [htr, h4]
  rfl

/-- For every session in Recognizing with a service attached, `Transition` on an audio
event feeds the segment to the detector; if the detector reports that speech has
ended, `speechend` is emitted and then, only if the state is still Recognizing after
its listeners have run, the stop action runs (`StopRecordingAndRecognize`); if a
listener changed the state the stop action does not run; if speech has not ended the
state stays Recognizing and nothing is emitted. The stop action returns (state
WaitingForResult, `SoundEnd` to the service, capture stopped) when the stream is
held. -/
theorem speech_end_detection (env : Env) (e : SpeechEvent) (w : World)
    (hs : w.sr.mCurrentState = .STATE_RECOGNIZING) (ht : e.mType = .EVENT_AUDIO_DATA)
    (hb : w.sr.mRecognitionService.isSome = true) :
    (env.speech_input_complete
        { w.sr.mEndpointer with frames := w.sr.mEndpointer.frames ++ e.mAudioSegment } = true →
      ∃ w3 : World,
        w3.sr.mCurrentState = .STATE_RECOGNIZING ∧
        w3.sr.mEndpointer.frames = w.sr.mEndpointer.frames ++ e.mAudioSegment ∧
        w3.trace = w.trace ++ [.setState .STATE_RECOGNIZING,
          .serviceProcessAudioSegment e.mAudioSegment, .notify (.trusted "speechend")] ∧
        ((env.observer (.trusted "speechend") w3).sr.mCurrentState = .STATE_RECOGNIZING →
          Transition env e w =
            StopRecordingAndRecognize env e (env.observer (.trusted "speechend") w3)) ∧
        ((env.observer (.trusted "speechend") w3).sr.mCurrentState ≠ .STATE_RECOGNIZING →
          Transition env e w = .ok (env.observer (.trusted "speechend") w3)) ∧
        (Passive env → w.sr.streamHeld = true → ∃ w1, Transition env e w = .ok w1 ∧
          w1.sr.mCurrentState = .STATE_WAITING_FOR_RESULT ∧
          w1.sr.mDOMStream = none ∧
          w1.trace = w3.trace ++ [.setState .STATE_WAITING_FOR_RESULT, .serviceSoundEnd,
            .removeListener, .notify (.trusted "audioend")])) ∧
    (env.speech_input_complete
        { w.sr.mEndpointer with frames := w.sr.mEndpointer.frames ++ e.mAudioSegment } = false →
      ∃ w1, Transition env e w = .ok w1 ∧
        w1.sr.mCurrentState = .STATE_RECOGNIZING ∧
        w1.sr.mEndpointer.frames = w.sr.mEndpointer.frames ++ e.mAudioSegment ∧
        w1.trace = w.trace ++ [.setState .STATE_RECOGNIZING,
          .serviceProcessAudioSegment e.mAudioSegment]) := by
  obtain ⟨svc, hsvc⟩ := Option.isSome_iff_exists.mp hb
  constructor
  · intro hd
    have hrun : ∀ w3 : World,
        w3 = { sr := { w.sr with
                      mCurrentState := .STATE_RECOGNIZING
                      mEndpointer :=
                        { w.sr.mEndpointer with
                          frames := w.sr.mEndpointer.frames ++ e.mAudioSegment } }
               trace := w.trace ++ [.setState .STATE_RECOGNIZING,
                .serviceProcessAudioSegment e.mAudioSegment, .notify (.trusted "speechend")]
               queue := w.queue } →
        Transition env e w =
          if (env.observer (.trusted "speechend") w3).sr.mCurrentState = .STATE_RECOGNIZING
          then StopRecordingAndRecognize env e (env.observer (.trusted "speechend") w3)
          else .ok (env.observer (.trusted "speechend") w3) := by
      intro w3 h3
      subst h3
      simp only [Transition, hs, ht, WaitForSpeechEnd, ProcessAudioSegment_attached, hb, hd,
        DispatchTrustedEvent, DispatchEvent, SetState, List.append_assoc,
        List.singleton_append, List.cons_append, List.nil_append, if_true]
    refine ⟨{ sr := { w.sr with
                      mCurrentState := .STATE_RECOGNIZING
                      mEndpointer :=
                        { w.sr.mEndpointer with
                          frames := w.sr.mEndpointer.frames ++ e.mAudioSegment } }
              trace := w.trace ++ [.setState .STATE_RECOGNIZING,
                .serviceProcessAudioSegment e.mAudioSegment, .notify (.trusted "speechend")]
              queue := w.queue }, rfl, rfl, rfl, ?_, ?_, ?_⟩ <;> have hrun := hrun _ rfl
    · intro hst
      rw [hrun, if_pos hst]
    · intro hst
      rw [hrun, if_neg hst]
    · intro hp hh
      rw [hrun, if_pos (by rw [passive_sr hp])]
      refine ⟨_, StopRecordingAndRecognize_held env e _
        (by rw [passive_sr hp]; exact hb)
        (by rw [passive_sr hp]; simpa [Session.streamHeld] using hh), ?_, ?_, ?_⟩
      · simp [DispatchTrustedEvent, DispatchEvent, passive_sr hp]
      · simp [DispatchTrustedEvent, DispatchEvent, passive_sr hp]
      · simp [DispatchTrustedEvent, DispatchEvent, passive_trace hp]
  · intro hd
    refine ⟨{ sr := { w.sr with
                  mCurrentState := .STATE_RECOGNIZING
                  mEndpointer :=
                    { w.sr.mEndpointer with
                      frames := w.sr.mEndpointer.frames ++ e.mAudioSegment } }
              trace := w.trace ++ [.setState .STATE_RECOGNIZING,
                .serviceProcessAudioSegment e.mAudioSegment]
              queue := w.queue }, ?_, rfl, rfl, rfl⟩
    simp only [Transition, hs, ht, WaitForSpeechEnd, ProcessAudioSegment_attached, hb, hd,
      SetState, List.append_assoc, List.singleton_append, List.cons_append, List.nil_append]
    rfl

/-- C23 (the code departs from it): after the run `staleAudioRun` the session is in
Estimating with no stream held. With a detector that reports speech, three more audio
events take it to WaitingForSpeech, to Recognizing and to `WaitForSpeechEnd` with the
end of speech detected: `speechend` is emitted, the state is still Recognizing, and
the stop action does not complete, since `StopRecording` dereferences the null
`mDOMStream`; the transition to WaitingForResult with capture stopped is not
performed. -/
theorem C23_speech_end_without_stream :
    (∃ w1, run talkingEnv
        (staleAudioRun ++ [.post (audioEvent 4800), .dispatch, .post (audioEvent 160),
          .dispatch]) (World.fresh 160) = .ok w1 ∧
      w1.sr.mCurrentState = .STATE_RECOGNIZING ∧
      w1.sr.mRecognitionService.isSome = true ∧
      w1.sr.mDOMStream = none ∧
      talkingEnv.speech_input_complete
        { w1.sr.mEndpointer with
          frames := w1.sr.mEndpointer.frames ++ (audioEvent 160).mAudioSegment } = true ∧
      Transition talkingEnv (audioEvent 160) w1 = .error .nullDeref) ∧
    run talkingEnv
      (staleAudioRun ++ [.post (audioEvent 4800), .dispatch, .post (audioEvent 160),
        .dispatch, .post (audioEvent 160), .dispatch]) (World.fresh 160) =
      .error .nullDeref :=
  ⟨⟨_, rfl, rfl, rfl, rfl, rfl, rfl⟩, rfl⟩


/-! ## The estimation phase as a run of audio events -/

/-- A run of `Transition` over two lists of events is the run over the first
followed by the run over the second. -/
theorem transitions_append (env : Env) (p q : List SpeechEvent) (w : World) :
    transitions env (p ++ q) w =
      match transitions env p w with
      | .error f => .error f
      | .ok w1 => transitions env q w1 := by
  induction p generalizing w with
  | nil => rfl
  | cons e p ih =>
    simp only [List.cons_append, transitions]
    cases Transition env e w with
    | error f => rfl
    | ok w1 => exact ih w1

/-- The duration of a list of events, event by event. -/
theorem eventsDuration_cons (e : SpeechEvent) (es : List SpeechEvent) :
    eventsDuration (e :: es) = segmentDuration e.mAudioSegment + eventsDuration es := by
  simp [eventsDuration]

/-- The duration of two lists of events. -/
theorem eventsDuration_append (p q : List SpeechEvent) :
    eventsDuration (p ++ q) = eventsDuration p + eventsDuration q := by
  simp [eventsDuration]

/-- What `StartedAudioCapture` does with a service attached, passive listeners and
a counter that does not wrap: the state is Estimating whatever the segment carries,
the counter grows by the duration of the segment, the service stays attached. -/
theorem StartedAudioCapture_spec (env : Env) (hp : Passive env) (e : SpeechEvent) (w : World)
    (hb : w.sr.mRecognitionService.isSome = true)
    (hw : w.sr.mEstimationSamples + segmentDuration e.mAudioSegment < UINT32_MOD) :
    ∃ w1, StartedAudioCapture env e w = .ok w1 ∧
      w1.sr.mCurrentState = .STATE_ESTIMATING ∧
      w1.sr.mEstimationSamples = w.sr.mEstimationSamples + segmentDuration e.mAudioSegment ∧
      w1.sr.mRecognitionService = w.sr.mRecognitionService := by
  have hsum : (w.sr.mEstimationSamples + segmentDuration e.mAudioSegment) % UINT32_MOD =
      w.sr.mEstimationSamples + segmentDuration e.mAudioSegment := Nat.mod_eq_of_lt hw
  refine ⟨_, by
    simp only [StartedAudioCapture, ProcessAudioSegment_attached, hb,
      DispatchTrustedEvent, DispatchEvent, SetState, passive_sr hp, if_true,
      Nat.add_mod_mod, hsum]; rfl, ?_, ?_, ?_⟩ <;>
  simp [passive_sr hp]

/-- While the count stays within the quota, a run of audio events from Estimating
stays in Estimating and adds up the durations. -/
theorem estimation_run (env : Env) (es : List SpeechEvent) :
    ∀ w : World, w.sr.mCurrentState = .STATE_ESTIMATING →
      w.sr.mRecognitionService.isSome = true →
      (∀ e ∈ es, e.mType = .EVENT_AUDIO_DATA) →
      w.sr.mEstimationSamples + eventsDuration es ≤ kESTIMATION_SAMPLES →
      ∃ w1, transitions env es w = .ok w1 ∧
        w1.sr.mCurrentState = .STATE_ESTIMATING ∧
        w1.sr.mRecognitionService.isSome = true ∧
        w1.sr.mEstimationSamples = w.sr.mEstimationSamples + eventsDuration es := by
  induction es with
  | nil =>
    intro w hs hb _ _
    exact ⟨w, rfl, hs, hb, by simp [eventsDuration]⟩
  | cons e es ih =>
    intro w hs hb haudio hq
    rw [eventsDuration_cons] at hq
    have hk : kESTIMATION_SAMPLES < UINT32_MOD := by decide
    obtain ⟨w1, h1, h2, -, h4⟩ := WaitForEstimation_spec e w hb (by omega)
    have hb1 : w1.sr.mRecognitionService.isSome = true := by
      unfold WaitForEstimation at h1
      dsimp only at h1
      split at h1
      · cases h1
      · rename_i w2 samples hpa
        obtain ⟨-, -, hsv, -⟩ := ProcessAudioSegment_ok _ _ _ _ hpa
        split at h1 <;>
          (simp only [Except.ok.injEq] at h1; subst h1; simpa [SetState, hsv] using hb)
    obtain ⟨w2, h5, h6, h7, h8⟩ := ih w1 (h4 (by omega)).1 hb1
      (fun x hx => haudio x (List.mem_cons_of_mem _ hx)) (by omega)
    refine ⟨w2, ?_, h6, h7, by rw [h8, h2, eventsDuration_cons]; omega⟩
    simp only [transitions, Transition, hs, haudio e (List.mem_cons_self _ _), h1]
    exact h5

/-- C24 (amended): for every sequence of audio events dispatched from Starting (no
other events in between, counter not wrapping), with quota
`kESTIMATION_SAMPLES = 4800`: the very first audio event of the session leaves the
state Estimating whatever it carries; the state stays Estimating as long as the
cumulative count has not exceeded the quota; and the state becomes WaitingForSpeech
while processing the first event, other than the very first one, after which the
cumulative count exceeds the quota, never while processing an earlier event. -/
theorem C24_estimation_ends_above_quota (env : Env) (hp : Passive env) (w : World)
    (first : SpeechEvent) (later : List SpeechEvent) (last : SpeechEvent)
    (hs : w.sr.mCurrentState = .STATE_STARTING)
    (hb : w.sr.mRecognitionService.isSome = true)
    (haudio : ∀ e ∈ first :: later ++ [last], e.mType = .EVENT_AUDIO_DATA)
    (hw : w.sr.mEstimationSamples + eventsDuration (first :: later ++ [last]) < UINT32_MOD)
    (hq : later = [] ∨
      w.sr.mEstimationSamples + eventsDuration (first :: later) ≤ kESTIMATION_SAMPLES) :
    kESTIMATION_SAMPLES = 4800 ∧
    (∃ w1, Transition env first w = .ok w1 ∧ w1.sr.mCurrentState = .STATE_ESTIMATING ∧
      w1.sr.mEstimationSamples =
        w.sr.mEstimationSamples + segmentDuration first.mAudioSegment) ∧
    (∃ w2, transitions env (first :: later) w = .ok w2 ∧
      w2.sr.mCurrentState = .STATE_ESTIMATING ∧
      w2.sr.mEstimationSamples = w.sr.mEstimationSamples + eventsDuration (first :: later)) ∧
    ∃ w3, transitions env (first :: later ++ [last]) w = .ok w3 ∧
      w3.sr.mEstimationSamples =
        w.sr.mEstimationSamples + eventsDuration (first :: later ++ [last]) ∧
      (w3.sr.mCurrentState = .STATE_WAITING_FOR_SPEECH ↔
        kESTIMATION_SAMPLES <
          w.sr.mEstimationSamples + eventsDuration (first :: later ++ [last])) ∧
      (w3.sr.mCurrentState = .STATE_ESTIMATING ↔
        w.sr.mEstimationSamples + eventsDuration (first :: later ++ [last]) ≤
          kESTIMATION_SAMPLES) := by
  have hdur : eventsDuration (first :: later ++ [last]) =
      segmentDuration first.mAudioSegment + eventsDuration later +
        segmentDuration last.mAudioSegment := by
    rw [List.cons_append, eventsDuration_cons, eventsDuration_append, eventsDuration_cons]
    simp [eventsDuration]
    omega
  rw [hdur] at hw
  have hfirst : first.mType = .EVENT_AUDIO_DATA := haudio first (by simp)
  have hlast : last.mType = .EVENT_AUDIO_DATA := haudio last (by simp)
  have hlater : ∀ e ∈ later, e.mType = .EVENT_AUDIO_DATA := fun e he => haudio e (by simp [he])
  obtain ⟨w1, h1, h1s, h1c, h1b⟩ := StartedAudioCapture_spec env hp first w hb (by omega)
  have hT1 : Transition env first w = .ok w1 := by
    simp only [Transition, hs, hfirst, h1]
  have hb1 : w1.sr.mRecognitionService.isSome = true := by rw [h1b]; exact hb
  -- the run over the later events stays in Estimating
  have hrun2 : ∃ w2, transitions env later w1 = .ok w2 ∧
      w2.sr.mCurrentState = .STATE_ESTIMATING ∧
      w2.sr.mRecognitionService.isSome = true ∧
      w2.sr.mEstimationSamples = w1.sr.mEstimationSamples + eventsDuration later := by
    rcases hq with hnil | hle
    · subst hnil
      exact ⟨w1, rfl, h1s, hb1, by simp [eventsDuration]⟩
    · rw [eventsDuration_cons] at hle
      exact estimation_run env later w1 h1s hb1 hlater (by omega)
  obtain ⟨w2, h2, h2s, h2b, h2c⟩ := hrun2
  have hT2 : transitions env (first :: later) w = .ok w2 := by
    simp only [transitions, hT1]
    exact h2
  obtain ⟨w3, h3, h3c, h3a, h3b⟩ := WaitForEstimation_spec last w2 h2b (by omega)
  have hT3 : transitions env (first :: later ++ [last]) w = .ok w3 := by
    rw [transitions_append, hT2]
    simp only [transitions, Transition, h2s, hlast, h3]
  refine ⟨rfl, ⟨w1, hT1, h1s, h1c⟩, ⟨w2, hT2, h2s, by rw [h2c, h1c, eventsDuration_cons]; omega⟩,
    w3, hT3, by rw [h3c, h2c, h1c, hdur]; omega, ?_, ?_⟩
  · rw [hdur]
    constructor
    · intro hst
      by_contra hcon
      have := (h3b (by omega)).1
      rw [hst] at this
      cases this
    · intro hgt
      exact (h3a (by omega)).1
  · rw [hdur]
    constructor
    · intro hst
      by_contra hcon
      have := (h3a (by omega)).1
      rw [hst] at this
      cases this
    · intro hle
      exact (h3b (by omega)).1

/-- Witness of C24: the very first audio event carries 5000 samples, more than the
quota, and the state is Estimating after it; the next event, which carries nothing,
moves the session to WaitingForSpeech. -/
theorem C24_estimation_ends_above_quota_witness :
    (∃ w1, Transition quietEnv (audioEvent 5000) startingWorld = .ok w1 ∧
      w1.sr.mCurrentState = .STATE_ESTIMATING ∧ w1.sr.mEstimationSamples = 5000) ∧
    ∃ w3, transitions quietEnv [audioEvent 5000, audioEvent 0] startingWorld = .ok w3 ∧
      w3.sr.mCurrentState = .STATE_WAITING_FOR_SPEECH := by
  have haudio : ∀ e ∈ audioEvent 5000 :: [] ++ [audioEvent 0], e.mType = .EVENT_AUDIO_DATA := by
    intro e he
    simp only [List.cons_append, List.nil_append, List.mem_cons, List.mem_singleton,
      List.mem_nil_iff, or_false] at he
    rcases he with he | he <;> (subst he; rfl)
  have h := C24_estimation_ends_above_quota quietEnv quietEnv_passive startingWorld
    (audioEvent 5000) [] (audioEvent 0) rfl rfl haudio (by decide) (Or.inl rfl)
  obtain ⟨-, ⟨w1, h1, h2, h3⟩, -, w3, h4, -, h6, -⟩ := h
  exact ⟨⟨w1, h1, h2, by rw [h3]; rfl⟩, w3, h4, h6.mpr (by decide)⟩

/-- C24 as stated fails: when the very first audio event of a session carries 4800
samples, the cumulative count has reached the quota after it, and the state is
Estimating, not WaitingForSpeech; and when the count reaches exactly 4800 with the
second event (160 samples, then 4640) the state is still Estimating after it. -/
theorem C24_first_audio_never_ends_estimation :
    (∃ w1, Transition quietEnv (audioEvent 4800) startingWorld = .ok w1 ∧
      w1.sr.mEstimationSamples = 4800 ∧
      kESTIMATION_SAMPLES ≤ w1.sr.mEstimationSamples ∧
      w1.sr.mCurrentState ≠ .STATE_WAITING_FOR_SPEECH) ∧
    ∃ w2, transitions quietEnv [audioEvent 160, audioEvent 4640] startingWorld = .ok w2 ∧
      w2.sr.mEstimationSamples = 4800 ∧
      kESTIMATION_SAMPLES ≤ w2.sr.mEstimationSamples ∧
      w2.sr.mCurrentState ≠ .STATE_WAITING_FOR_SPEECH := by
  constructor
  · obtain ⟨w1, h1, h2, h3, -⟩ := StartedAudioCapture_spec quietEnv quietEnv_passive
      (audioEvent 4800) startingWorld rfl (by decide)
    have hc : w1.sr.mEstimationSamples = 4800 := by rw [h3]; rfl
    have hT1 : Transition quietEnv (audioEvent 4800) startingWorld =
        StartedAudioCapture quietEnv (audioEvent 4800) startingWorld := rfl
    refine ⟨w1, by rw [hT1, h1], hc, ?_, ?_⟩
    · rw [hc]; decide
    · rw [h2]; decide
  · obtain ⟨w1, h1, h2, h3, h4⟩ := StartedAudioCapture_spec quietEnv quietEnv_passive
      (audioEvent 160) startingWorld rfl (by decide)
    have hc : w1.sr.mEstimationSamples = 160 := by rw [h3]; rfl
    have haudio : ∀ e ∈ [audioEvent 4640], e.mType = .EVENT_AUDIO_DATA := by
      intro e he
      simp only [List.mem_singleton] at he
      subst he
      rfl
    obtain ⟨w2, h5, h6, h7, h8⟩ := estimation_run quietEnv [audioEvent 4640] w1 h2
      (by rw [h4]; rfl) haudio (by rw [hc]; decide)
    have hc2 : w2.sr.mEstimationSamples = 4800 := by rw [h8, hc]; rfl
    have hT1 : Transition quietEnv (audioEvent 160) startingWorld =
        StartedAudioCapture quietEnv (audioEvent 160) startingWorld := rfl
    refine ⟨w2, ?_, hc2, ?_, ?_⟩
    · simp only [transitions, hT1, h1] at h5 ⊢
      exact h5
    · rw [hc2]; decide
    · rw [h6]; decide


/-! ## State changes and DOM events inside one handler -/

/-- C28 (amended): with passive listeners, `WaitForAudioData`, `StartedAudioCapture`,
`StopRecordingAndRecognize`, `WaitForEstimation`, `DetectSpeech` and
`NotifyFinalResult` make no change of the session state after a DOM event they
emit; so do `WaitForSpeechEnd` when the speech has not ended, and `AbortSilently`
and `AbortError` when the capture was not active (they return then). When the speech
has ended, `WaitForSpeechEnd` emits `speechend` and sets the state to
WaitingForResult after it; when the capture was active (Estimating to Recognizing)
and the stream is held, `AbortSilently` and `AbortError` return, having emitted
`audioend` in state Aborting and set the state to Idle after it. -/
theorem C28_state_changes_and_notifications (env : Env) (hp : Passive env)
    (e : SpeechEvent) (w : World) :
    commitsStateFirst w (WaitForAudioData e w) ∧
    (∀ w1, StartedAudioCapture env e w = .ok w1 → commitsStateFirst w w1) ∧
    (∀ w1, StopRecordingAndRecognize env e w = .ok w1 → commitsStateFirst w w1) ∧
    (∀ w1, WaitForEstimation e w = .ok w1 → commitsStateFirst w w1) ∧
    (∀ w1, DetectSpeech env e w = .ok w1 → commitsStateFirst w w1) ∧
    commitsStateFirst w (NotifyFinalResult env e w) ∧
    (∀ w1, WaitForSpeechEnd env e w = .ok w1 →
      (env.speech_input_complete
          { w.sr.mEndpointer with frames := w.sr.mEndpointer.frames ++ e.mAudioSegment } =
            false → commitsStateFirst w w1) ∧
      (env.speech_input_complete
          { w.sr.mEndpointer with frames := w.sr.mEndpointer.frames ++ e.mAudioSegment } =
            true →
        w1.trace = w.trace ++ [.setState .STATE_RECOGNIZING,
          .serviceProcessAudioSegment e.mAudioSegment, .notify (.trusted "speechend"),
          .setState .STATE_WAITING_FOR_RESULT, .serviceSoundEnd, .removeListener,
          .notify (.trusted "audioend")])) ∧
    (isCapturing w.sr.mCurrentState = false →
      ∃ w1 w2, AbortSilently env e w = .ok w1 ∧ AbortError env e w = .ok w2 ∧
        commitsStateFirst w w1 ∧ commitsStateFirst w w2) ∧
    (isCapturing w.sr.mCurrentState = true → w.sr.streamHeld = true →
      ∃ before w1 w2, AbortSilently env e w = .ok w1 ∧ AbortError env e w = .ok w2 ∧
        w1.trace = w.trace ++ before ++
          [.removeListener, .notify (.trusted "audioend"), .setState .STATE_IDLE,
            .timerCancel, .notify (.trusted "end")] ∧
        w2.trace = w.trace ++ before ++
          [.removeListener, .notify (.trusted "audioend"), .setState .STATE_IDLE,
            .timerCancel, .notify (.trusted "end"), .notify (.error e.mError)]) := by
  have herr : ∀ w0 : World, (DispatchEvent env (.error e.mError) w0).trace =
      w0.trace ++ [.notify (.error e.mError)] := by
    intro w0
    simp [DispatchEvent, passive_trace hp]
  refine ⟨⟨[.setState .STATE_STARTING], rfl, rfl⟩, ?_, ?_, ?_, ?_, ?_, ?_, ?_, ?_⟩
  · intro w1 h
    exact ⟨_, (StartedAudioCapture_ok env hp e w w1 h).1, rfl⟩
  · intro w1 h
    exact ⟨_, (StopRecordingAndRecognize_ok env hp e w w1 h).1, rfl⟩
  · intro w1 h
    unfold WaitForEstimation at h
    dsimp only at h
    split at h
    · cases h
    · rename_i w2 samples hpa
      obtain ⟨ht, -, -, -⟩ := ProcessAudioSegment_ok _ _ _ _ hpa
      split at h <;> simp only [Except.ok.injEq] at h <;> subst h
      · exact ⟨[.setState .STATE_ESTIMATING, .serviceProcessAudioSegment e.mAudioSegment,
          .setState .STATE_WAITING_FOR_SPEECH], by simp [SetState, ht], rfl⟩
      · exact ⟨[.setState .STATE_ESTIMATING, .serviceProcessAudioSegment e.mAudioSegment],
          by simp [SetState, ht], rfl⟩
  · intro w1 h
    unfold DetectSpeech at h
    dsimp only at h
    split at h
    · cases h
    · rename_i w2 samples hpa
      obtain ⟨ht, -, -, -⟩ := ProcessAudioSegment_ok _ _ _ _ hpa
      split at h <;> simp only [Except.ok.injEq] at h <;> subst h
      · exact ⟨[.setState .STATE_WAITING_FOR_SPEECH,
            .serviceProcessAudioSegment e.mAudioSegment, .timerCancel,
            .setState .STATE_RECOGNIZING, .notify (.trusted "speechstart")],
          by simp [DispatchTrustedEvent, DispatchEvent, passive_trace hp, SetState,
            CancelTimer, ht], rfl⟩
      · exact ⟨[.setState .STATE_WAITING_FOR_SPEECH,
            .serviceProcessAudioSegment e.mAudioSegment], by simp [SetState, ht], rfl⟩
  · exact ⟨[.setState .STATE_IDLE, .timerCancel, .notify (.trusted "end"),
        .notify (.result e.mRecognitionResultList)],
      by simp [NotifyFinalResult, ResetAndEnd, Reset, SetState, CancelTimer,
        DispatchTrustedEvent, DispatchEvent, passive_trace hp], rfl⟩
  · intro w1 h
    have hb : w.sr.mRecognitionService.isSome = true := by
      cases hsvc : w.sr.mRecognitionService with
      | none => simp [WaitForSpeechEnd, ProcessAudioSegment, SetState, hsvc] at h
      | some svc => rfl
    obtain ⟨svc, hsvc⟩ := Option.isSome_iff_exists.mp hb
    constructor
    · intro hd
      simp only [WaitForSpeechEnd, ProcessAudioSegment_attached, hb, hd, SetState,
        Bool.false_eq_true, if_false, Except.ok.injEq] at h
      subst h
      exact ⟨[.setState .STATE_RECOGNIZING, .serviceProcessAudioSegment e.mAudioSegment],
        by simp, rfl⟩
    · intro hd
      simp only [WaitForSpeechEnd, ProcessAudioSegment_attached, hb, hd, SetState,
        DispatchTrustedEvent, DispatchEvent, passive_sr hp, if_true] at h
      obtain ⟨ht1, -⟩ := StopRecordingAndRecognize_ok env hp e _ _ h
      rw [ht1]
      simp [passive_trace hp]
  · intro hc
    obtain ⟨w1, h0, h1, -⟩ := AbortSilently_passive env hp e w
      (by intro h; rw [hc] at h; cases h)
    rw [hc] at h1
    refine ⟨w1, _, h0, AbortError_ok env e w w1 h0, ⟨_, h1, ?_⟩,
      ⟨_, by rw [herr, h1, List.append_assoc], ?_⟩⟩ <;>
      cases w.sr.mRecognitionService <;> rfl
  · intro hc hh
    obtain ⟨w1, h0, h1, -⟩ := AbortSilently_passive env hp e w (fun _ => hh)
    rw [hc] at h1
    refine ⟨[.setState .STATE_ABORTING] ++
      (if w.sr.mRecognitionService.isSome then [.serviceAbort] else []), w1, _, h0,
      AbortError_ok env e w w1 h0, ?_, ?_⟩
    · rw [h1]; simp
    · rw [herr, h1]; simp

/-- Witness of C28: the first audio event of a session (`StartedAudioCapture`), and
an abort request while estimating, the capture stream being held. -/
theorem C28_state_changes_and_notifications_witness :
    (∃ w1, StartedAudioCapture quietEnv (audioEvent 160) startingWorld = .ok w1 ∧
      commitsStateFirst startingWorld w1) ∧
    estimatingWorld.sr.streamHeld = true ∧
    ∃ before w1 w2,
      AbortSilently quietEnv { mType := .EVENT_ABORT } estimatingWorld = .ok w1 ∧
      AbortError quietEnv { mType := .EVENT_ABORT } estimatingWorld = .ok w2 ∧
      w1.trace = estimatingWorld.trace ++ before ++
        [.removeListener, .notify (.trusted "audioend"), .setState .STATE_IDLE,
          .timerCancel, .notify (.trusted "end")] ∧
      w2.trace = estimatingWorld.trace ++ before ++
        [.removeListener, .notify (.trusted "audioend"), .setState .STATE_IDLE,
          .timerCancel, .notify (.trusted "end"),
          .notify (.error ({ mType := .EVENT_ABORT } : SpeechEvent).mError)] :=
  ⟨⟨_, rfl, (C28_state_changes_and_notifications quietEnv quietEnv_passive (audioEvent 160)
    startingWorld).2.1 _ rfl⟩, rfl,
    (C28_state_changes_and_notifications quietEnv quietEnv_passive { mType := .EVENT_ABORT }
      estimatingWorld).2.2.2.2.2.2.2.2 rfl rfl⟩

/-- C28 as stated fails: when the detector reports the end of speech,
`WaitForSpeechEnd` changes the state (to WaitingForResult) after it has emitted
`speechend`; and on an abort request while estimating, `AbortSilently` changes the
state (to Idle) after it has emitted `audioend`. -/
theorem C28_state_changes_after_a_notification :
    (∃ w1, WaitForSpeechEnd speechEndEnv (audioEvent 160) recognizingWorld = .ok w1 ∧
      w1.trace = [.setState .STATE_RECOGNIZING,
        .serviceProcessAudioSegment (audioEvent 160).mAudioSegment,
        .notify (.trusted "speechend"), .setState .STATE_WAITING_FOR_RESULT,
        .serviceSoundEnd, .removeListener, .notify (.trusted "audioend")] ∧
      noStateChangeAfterNotification w1.trace = false) ∧
    (∃ w1, AbortSilently quietEnv { mType := .EVENT_ABORT } estimatingWorld = .ok w1 ∧
      w1.trace = [.setState .STATE_ABORTING, .serviceAbort, .removeListener,
        .notify (.trusted "audioend"), .setState .STATE_IDLE, .timerCancel,
        .notify (.trusted "end")] ∧
      noStateChangeAfterNotification w1.trace = false) :=
  ⟨⟨_, rfl, rfl, rfl⟩, ⟨_, rfl, rfl, rfl⟩⟩


/-! ## The attached service and the detection timer along a run -/

theorem Session.sameControl_refl (a : Session) : a.sameControl a := ⟨rfl, rfl, rfl⟩

theorem Session.sameControl_trans {a b c : Session} (h1 : a.sameControl b)
    (h2 : b.sameControl c) : a.sameControl c :=
  ⟨h2.1.trans h1.1, h2.2.1.trans h1.2.1, h2.2.2.trans h1.2.2⟩

theorem FillSamplesBuffer_control (sr sr1 : Session) (xs : List Int) (n copied : Nat)
    (h : FillSamplesBuffer sr xs n = .ok (sr1, copied)) : sr.sameControl sr1 := by
  unfold FillSamplesBuffer at h
  split at h
  · cases h
  · split at h
    · cases h
    · simp only [Except.ok.injEq, Prod.mk.injEq] at h
      obtain ⟨rfl, -⟩ := h
      exact ⟨rfl, rfl, rfl⟩

/-- The rechunker leaves the state, the attached service, the detection timer and
the actions alone. -/
theorem FeedAudioData_control (fuel : Nat) (xs : List Int) (n : Nat) (prov : Option Nat)
    (w w1 : World) (h : FeedAudioData fuel xs n prov w = .ok w1) :
    w.sr.sameControl w1.sr ∧ w1.trace = w.trace := by
  unfold FeedAudioData at h
  split at h
  · cases h
  · rename_i sr1 idx1 chunks1 htop
    have h1 : w.sr.sameControl sr1 := by
      unfold FeedAudioData.topOff at htop
      split at htop
      · split at htop
        · cases htop
        · rename_i sr0 copied hfill
          have hf := FillSamplesBuffer_control _ _ _ _ _ hfill
          split at htop
          · split at htop
            · cases htop
            · simp only [Except.ok.injEq, Prod.mk.injEq] at htop
              obtain ⟨rfl, -, -⟩ := htop
              exact hf
          · simp only [Except.ok.injEq, Prod.mk.injEq] at htop
            obtain ⟨rfl, -, -⟩ := htop
            exact hf
      · simp only [Except.ok.injEq, Prod.mk.injEq] at htop
        obtain ⟨rfl, -, -⟩ := htop
        exact Session.sameControl_refl _
    split at h
    · cases h
    · split at h
      · cases h
      · rename_i sr3 hretain
        simp only [Except.ok.injEq] at h
        subst h
        refine ⟨Session.sameControl_trans h1 ?_, rfl⟩
        unfold FeedAudioData.retain at hretain
        split at hretain
        · dsimp only at hretain
          split at hretain
          · cases hretain
          · rename_i sr4 c4 hfill
            simp only [Except.ok.injEq] at hretain
            subst hretain
            have hf := FillSamplesBuffer_control _ _ _ _ _ hfill
            exact hf
        · simp only [Except.ok.injEq] at hretain
          subst hretain
          exact Session.sameControl_refl _

/-- A handler that calls `ProcessAudioSegment` returns only with a service attached. -/
theorem ProcessAudioSegment_needs_service (seg : AudioSegment) (w : World) (r : World × Nat)
    (h : ProcessAudioSegment seg w = .ok r) : w.sr.mRecognitionService.isSome = true :=
  (ProcessAudioSegment_ok seg w r.1 r.2 h).2.2.2

/-- What every returning transition does to the state, the attached service and the
detection timer, with passive listeners. -/
theorem Transition_outcome (env : Env) (hp : Passive env) (e : SpeechEvent)
    (w w1 : World) (h : Transition env e w = .ok w1) : transitionOutcome w w1 := by
  have hsilent : ∀ w0, AbortSilently env e w = .ok w0 →
      w0.sr.mCurrentState = .STATE_IDLE ∧ w0.sr.mRecognitionService = none ∧
        w0.sr.mSpeechDetectionTimer = false := by
    intro w0 h0
    obtain ⟨-, h2, h3, -, -, h6, -⟩ := AbortSilently_returned env hp e w w0 h0
    exact ⟨h2, h3, h6⟩
  have herror : ∀ w0, AbortError env e w = .ok w0 →
      w0.sr.mCurrentState = .STATE_IDLE ∧ w0.sr.mRecognitionService = none ∧
        w0.sr.mSpeechDetectionTimer = false := by
    intro w0 h0
    obtain ⟨w2, h2, rfl⟩ := AbortError_returned env e w w0 h0
    simpa [DispatchEvent, passive_sr hp] using hsilent w2 h2
  have hstop : ∀ w0 w2, StopRecordingAndRecognize env e w0 = .ok w2 →
      w2.sr.mRecognitionService.isSome = true ∧
        w2.sr.mSpeechDetectionTimer = w0.sr.mSpeechDetectionTimer ∧
        w2.sr.mCurrentState = .STATE_WAITING_FOR_RESULT := by
    intro w0 w2 h
    unfold StopRecordingAndRecognize at h
    cases hb : w0.sr.mRecognitionService with
    | none => simp [SetState, hb] at h
    | some svc =>
      simp only [SetState, hb] at h
      obtain ⟨-, rfl⟩ := StopRecording_ok env _ _ h
      simp [DispatchTrustedEvent, DispatchEvent, passive_sr hp, hb]
  obtain ⟨s, hs⟩ : ∃ s, w.sr.mCurrentState = s := ⟨_, rfl⟩
  obtain ⟨t, ht⟩ : ∃ t, e.mType = t := ⟨_, rfl⟩
  cases s <;> cases t <;> simp only [Transition, hs, ht] at h <;>
    first
    | (cases h; done)
    | exact Or.inl (hsilent w1 h)
    | exact Or.inl (herror w1 h)
    | (injection h with h; subst h
       first
       | exact Or.inr (Or.inl (Session.sameControl_refl _))
       | exact Or.inr (Or.inr (Or.inl ⟨rfl, rfl⟩))
       | (exact Or.inl (by
            simp [NotifyFinalResult, ResetAndEnd, Reset, SetState, CancelTimer,
              DispatchTrustedEvent, DispatchEvent, passive_sr hp])))
    | exact Or.inr (Or.inr (Or.inr (Or.inl
        ⟨(hstop w w1 h).1, (hstop w w1 h).2.1, Or.inr (Or.inr (hstop w w1 h).2.2)⟩)))
    | skip
  · -- Starting, audio data
    have hb : w.sr.mRecognitionService.isSome = true := by
      cases hsvc : w.sr.mRecognitionService with
      | none => simp [StartedAudioCapture, ProcessAudioSegment, SetState, hsvc] at h
      | some svc => rfl
    simp only [StartedAudioCapture, ProcessAudioSegment_attached, hb, DispatchTrustedEvent,
      DispatchEvent, SetState, passive_sr hp, if_true, Except.ok.injEq] at h
    subst h
    exact Or.inr (Or.inr (Or.inr (Or.inl
      ⟨by simpa [passive_sr hp] using hb, by simp [passive_sr hp],
        Or.inl (by simp [passive_sr hp])⟩)))
  · -- Estimating, audio data
    have hb : w.sr.mRecognitionService.isSome = true := by
      cases hsvc : w.sr.mRecognitionService with
      | none => simp [WaitForEstimation, ProcessAudioSegment, SetState, hsvc] at h
      | some svc => rfl
    simp only [WaitForEstimation, ProcessAudioSegment_attached, hb, SetState] at h
    split at h <;> simp only [Except.ok.injEq] at h <;> subst h
    · exact Or.inr (Or.inr (Or.inr (Or.inl ⟨hb, rfl, Or.inr (Or.inl rfl)⟩)))
    · exact Or.inr (Or.inr (Or.inr (Or.inl ⟨hb, rfl, Or.inl rfl⟩)))
  · -- WaitingForSpeech, audio data
    have hb : w.sr.mRecognitionService.isSome = true := by
      cases hsvc : w.sr.mRecognitionService with
      | none => simp [DetectSpeech, ProcessAudioSegment, SetState, hsvc] at h
      | some svc => rfl
    simp only [DetectSpeech, ProcessAudioSegment_attached, hb, SetState, CancelTimer,
      DispatchTrustedEvent, DispatchEvent] at h
    split at h <;> simp only [Except.ok.injEq] at h <;> subst h
    · exact Or.inr (Or.inr (Or.inr (Or.inr (Or.inl
        ⟨by simpa [passive_sr hp] using hb, by simp [passive_sr hp],
          by simp [passive_sr hp]⟩))))
    · exact Or.inr (Or.inr (Or.inr (Or.inl ⟨hb, rfl, Or.inr (Or.inl rfl)⟩)))
  · -- Recognizing, audio data
    have hb : w.sr.mRecognitionService.isSome = true := by
      cases hsvc : w.sr.mRecognitionService with
      | none => simp [WaitForSpeechEnd, ProcessAudioSegment, SetState, hsvc] at h
      | some svc => rfl
    simp only [WaitForSpeechEnd, ProcessAudioSegment_attached, hb, SetState,
      DispatchTrustedEvent, DispatchEvent, passive_sr hp, if_true] at h
    split at h
    · obtain ⟨a, b, c⟩ := hstop _ _ h
      exact Or.inr (Or.inr (Or.inr (Or.inl
        ⟨a, by simpa [passive_sr hp] using b, Or.inr (Or.inr c)⟩)))
    · simp only [Except.ok.injEq] at h
      subst h
      exact Or.inr (Or.inr (Or.inr (Or.inr (Or.inr ⟨hb, rfl, hs, rfl⟩))))

theorem outcome_keeps_backend (w w1 : World) (h : transitionOutcome w w1)
    (hinv : backendAttachedWhenNeeded w) : backendAttachedWhenNeeded w1 := by
  intro hn
  rcases h with ⟨h1, -, -⟩ | ⟨h1, h2, -⟩ | ⟨h1, -⟩ | ⟨h1, -, -⟩ | ⟨h1, -, -⟩ | ⟨h1, -, -, -⟩
  · rw [h1] at hn; cases hn
  · rw [h2]; exact hinv (by rw [← h1]; exact hn)
  · rw [h1] at hn; cases hn
  · exact h1
  · exact h1
  · exact h1

theorem outcome_keeps_timer (w w1 : World) (h : transitionOutcome w w1)
    (hinv : timerArmedOnlyEarly w) : timerArmedOnlyEarly w1 := by
  intro ht
  rcases h with ⟨-, -, h3⟩ | ⟨h1, -, h3⟩ | ⟨h1, -⟩ | ⟨-, -, h3⟩ | ⟨-, -, h3⟩ | ⟨-, -, h2, h3⟩
  · rw [h3] at ht; cases ht
  · rw [h1]; exact hinv (by rw [← h3]; exact ht)
  · rw [h1]; rfl
  · rcases h3 with h3 | h3 | h3 <;> (rw [h3]; rfl)
  · rw [h3] at ht; cases ht
  · have := hinv (by rw [← h3]; exact ht)
    rw [h2] at this
    cases this

/-- A property of worlds that every returning transition keeps, and that does not
depend on the priority list, is kept by every returning run of transitions. -/
theorem transitions_invariant (env : Env) (P : World → Prop)
    (hT : ∀ e w w1, Transition env e w = .ok w1 → P w → P w1) :
    ∀ (es : List SpeechEvent) (w w1 : World), transitions env es w = .ok w1 → P w → P w1 := by
  intro es
  induction es with
  | nil =>
    intro w w1 h hw
    simp only [transitions, Except.ok.injEq] at h
    subst h
    exact hw
  | cons e es ih =>
    intro w w1 h hw
    simp only [transitions] at h
    split at h
    · cases h
    · rename_i w2 h2
      exact ih w2 w1 h (hT e w w2 h2 hw)

/-- A property of the state, the attached service and the detection timer that
every returning transition keeps is kept by every returning `ProcessEvent`. -/
theorem ProcessEvent_invariant (env : Env) (hp : Passive env) (P : World → Prop)
    (hT : ∀ e w w1, Transition env e w = .ok w1 → P w → P w1)
    (hctl : ∀ w w1 : World, w.sr.sameControl w1.sr → P w → P w1)
    (e : SpeechEvent) (w w1 : World) (h : ProcessEvent env e w = .ok w1) (hw : P w) :
    P w1 := by
  unfold ProcessEvent at h
  rw [priorityLoop_eq_transitions env hp _ 0 w (by simp)] at h
  split at h
  · cases h
  · rename_i w2 h2
    have hP2 := transitions_invariant env P hT _ w w2 h2 hw
    exact hT e _ w1 h (hctl w2 _ ⟨rfl, rfl, rfl⟩ hP2)

/-- The call `Start()` changes neither the state nor the detection timer. -/
theorem Start_keeps_state (env : Env) (w : World) :
    (Start env w).sr.mCurrentState = w.sr.mCurrentState ∧
      (Start env w).sr.mSpeechDetectionTimer = w.sr.mSpeechDetectionTimer := by
  cases hg : env.do_GetService (GetRecognitionServiceCID env) <;>
    cases hi : env.initializeOk <;> cases hf : env.mFakeFSMEvents <;>
    simp only [Start, hg, hi, hf] <;> split_ifs <;> exact ⟨rfl, rfl⟩

/-- Outside Idle the call `Start()` leaves the session as it is. -/
theorem Start_outside_idle (env : Env) (w : World)
    (h : w.sr.mCurrentState ≠ .STATE_IDLE) : (Start env w).sr = w.sr := by
  obtain ⟨s, hs⟩ : ∃ s, w.sr.mCurrentState = s := ⟨_, rfl⟩
  cases s <;> first
    | exact absurd hs h
    | simp [Start, hs, FSMState.toNat]

/-- Every returning run keeps the service attached in the states that need it. -/
theorem run_keeps_backend (env : Env) (hp : Passive env) :
    ∀ (actions : List Action) (w w1 : World), run env actions w = .ok w1 →
      backendAttachedWhenNeeded w → backendAttachedWhenNeeded w1 := by
  intro actions
  induction actions with
  | nil =>
    intro w w1 h hw
    simp only [run, Except.ok.injEq] at h
    subst h
    exact hw
  | cons a rest ih =>
    intro w w1 h hw
    simp only [run] at h
    split at h
    · cases h
    · rename_i w2 h2
      refine ih w2 w1 h ?_
      have hctl : ∀ u v : World, u.sr.sameControl v.sr →
          backendAttachedWhenNeeded u → backendAttachedWhenNeeded v := by
        intro u v huv hu hn
        rw [huv.2.1]
        exact hu (by rw [← huv.1]; exact hn)
      cases a with
      | callStart =>
        simp only [step, Except.ok.injEq] at h2
        subst h2
        by_cases hidle : w.sr.mCurrentState = .STATE_IDLE
        · intro hn
          rw [(Start_keeps_state env w).1, hidle] at hn
          cases hn
        · exact hctl w _ (by rw [Start_outside_idle env w hidle]; exact ⟨rfl, rfl, rfl⟩) hw
      | callStop =>
        simp only [step, Except.ok.injEq] at h2
        subst h2
        exact hctl w _ ⟨rfl, rfl, rfl⟩ hw
      | callAbort =>
        simp only [step, Except.ok.injEq] at h2
        subst h2
        exact hctl w _ ⟨rfl, rfl, rfl⟩ hw
      | post e =>
        simp only [step, Except.ok.injEq] at h2
        subst h2
        exact hctl w _ ⟨rfl, rfl, rfl⟩ hw
      | dispatch =>
        simp only [step] at h2
        split at h2
        · simp only [Except.ok.injEq] at h2
          subst h2
          exact hw
        · rename_i e q hq
          exact ProcessEvent_invariant env hp backendAttachedWhenNeeded
            (fun e u v huv => outcome_keeps_backend u v (Transition_outcome env hp e u v huv))
            hctl e _ w2 h2 (hctl w _ ⟨rfl, rfl, rfl⟩ hw)
      | startRecording stream =>
        simp only [step, Except.ok.injEq] at h2
        subst h2
        intro hn
        have h1 : (StartRecording stream w).sr.mCurrentState = w.sr.mCurrentState := by
          unfold StartRecording; split <;> rfl
        have h3 : (StartRecording stream w).sr.mRecognitionService =
            w.sr.mRecognitionService := by
          unfold StartRecording; split <;> rfl
        rw [h3]
        exact hw (by rw [← h1]; exact hn)
      | feed fuel xs prov =>
        simp only [step] at h2
        exact hctl w w2 (FeedAudioData_control _ _ _ _ _ _ h2).1 hw

/-- Every returning run in which `StartRecording` is only called in Idle or Starting
keeps the detection timer armed only in the states of `timerMayBeArmed`. -/
theorem run_keeps_timer (env : Env) (hp : Passive env) :
    ∀ (actions : List Action) (w w1 : World), run env actions w = .ok w1 →
      recordingStartsEarly env actions w = true →
      timerArmedOnlyEarly w → timerArmedOnlyEarly w1 := by
  intro actions
  induction actions with
  | nil =>
    intro w w1 h _ hw
    simp only [run, Except.ok.injEq] at h
    subst h
    exact hw
  | cons a rest ih =>
    intro w w1 h hearly hw
    simp only [run] at h
    split at h
    · cases h
    · rename_i w2 h2
      simp only [recordingStartsEarly, h2, Bool.and_eq_true] at hearly
      refine ih w2 w1 h hearly.2 ?_
      have hctl : ∀ u v : World, u.sr.sameControl v.sr →
          timerArmedOnlyEarly u → timerArmedOnlyEarly v := by
        intro u v huv hu hn
        rw [huv.1]
        exact hu (by rw [← huv.2.2]; exact hn)
      cases a with
      | callStart =>
        simp only [step, Except.ok.injEq] at h2
        subst h2
        intro hn
        rw [(Start_keeps_state env w).1]
        exact hw (by rw [← (Start_keeps_state env w).2]; exact hn)
      | callStop =>
        simp only [step, Except.ok.injEq] at h2
        subst h2
        exact hctl w _ ⟨rfl, rfl, rfl⟩ hw
      | callAbort =>
        simp only [step, Except.ok.injEq] at h2
        subst h2
        exact hctl w _ ⟨rfl, rfl, rfl⟩ hw
      | post e =>
        simp only [step, Except.ok.injEq] at h2
        subst h2
        exact hctl w _ ⟨rfl, rfl, rfl⟩ hw
      | dispatch =>
        simp only [step] at h2
        split at h2
        · simp only [Except.ok.injEq] at h2
          subst h2
          exact hw
        · rename_i e q hq
          exact ProcessEvent_invariant env hp timerArmedOnlyEarly
            (fun e u v huv => outcome_keeps_timer u v (Transition_outcome env hp e u v huv))
            hctl e _ w2 h2 (hctl w _ ⟨rfl, rfl, rfl⟩ hw)
      | startRecording stream =>
        simp only [step, Except.ok.injEq] at h2
        subst h2
        have hst := hearly.1
        simp only [decide_eq_true_eq] at hst
        have h1 : (StartRecording stream w).sr.mCurrentState = w.sr.mCurrentState := by
          unfold StartRecording; split <;> rfl
        intro _
        rw [h1]
        rcases hst with hst | hst <;> (rw [hst]; rfl)
      | feed fuel xs prov =>
        simp only [step] at h2
        exact hctl w w2 (FeedAudioData_control _ _ _ _ _ _ h2).1 hw

/-- C29 (amended): after construction the state is Idle and no service is attached;
after every public API call (`Start`, `Stop`, `Abort`) and every dispatched event of
a run from construction, a service is attached whenever the state is one of
Estimating, WaitingForSpeech, Recognizing, WaitingForResult; and `Start()` attaches
the service it finds while the state is still Idle, so a service can be attached in
Idle. -/
theorem C29_backend_attached_while_capturing (env : Env) (hp : Passive env)
    (frameSize : Nat) (actions : List Action) (w1 : World)
    (h : run env actions (World.fresh frameSize) = .ok w1) :
    ((World.fresh frameSize).sr.mCurrentState = .STATE_IDLE ∧
      (World.fresh frameSize).sr.mRecognitionService = none) ∧
    (needsBackend w1.sr.mCurrentState = true → w1.sr.mRecognitionService.isSome = true) ∧
    (∀ service, env.do_GetService (GetRecognitionServiceCID env) = some service →
      w1.sr.mCurrentState = .STATE_IDLE →
      (Start env w1).sr.mCurrentState = .STATE_IDLE ∧
        (Start env w1).sr.mRecognitionService = some service) := by
  refine ⟨⟨rfl, rfl⟩, ?_, ?_⟩
  · exact run_keeps_backend env hp actions _ w1 h (fun hn => by cases hn)
  · intro service hg hidle
    refine ⟨by rw [(Start_keeps_state env w1).1, hidle], ?_⟩
    cases hi : env.initializeOk <;> cases hf : env.mFakeFSMEvents <;>
      simp [Start, hg, hi, hf, hidle, FSMState.toNat]

/-- Witness of C29: a session is started, granted the capture, receives a frame and
is stopped; it is in WaitingForResult with the service attached. -/
theorem C29_backend_attached_while_capturing_witness :
    ∃ w1, run quietEnv [.callStart, .startRecording ⟨true⟩, .dispatch,
        .post (audioEvent 160), .dispatch, .callStop, .dispatch] (World.fresh 160) = .ok w1 ∧
      w1.sr.mCurrentState = .STATE_WAITING_FOR_RESULT ∧
      w1.sr.mRecognitionService.isSome = true :=
  ⟨_, rfl, rfl,
    (C29_backend_attached_while_capturing quietEnv quietEnv_passive 160
      [.callStart, .startRecording ⟨true⟩, .dispatch, .post (audioEvent 160), .dispatch,
        .callStop, .dispatch] _ rfl).2.1 rfl⟩

/-- C29 as stated fails: after `Start()` on a fresh session the state is Idle and a
service is attached; and when an error event is pending at the time of `Start()`,
its dispatch resets the session, so the start request that follows enters Starting
with no service attached. -/
theorem C29_backend_attached_in_idle :
    ((Start quietEnv (World.fresh 160)).sr.mCurrentState = .STATE_IDLE ∧
      (Start quietEnv (World.fresh 160)).sr.mRecognitionService.isSome = true) ∧
    ∃ w1, run quietEnv [.post { mType := .EVENT_AUDIO_ERROR }, .callStart, .dispatch,
        .dispatch] (World.fresh 160) = .ok w1 ∧
      w1.sr.mCurrentState = .STATE_STARTING ∧ w1.sr.mRecognitionService = none :=
  ⟨⟨rfl, rfl⟩, _, rfl, rfl, rfl⟩

/-- C30 (amended): after every `StartRecording` call and every dispatched event of a
run from construction in which `StartRecording` is called in Idle or Starting, if
the detection timer is armed then the state is one of Idle, Starting, Estimating,
WaitingForSpeech or WaitingForResult; every transition that enters Recognizing
leaves the timer cancelled; `StartRecording` keeps the state and arms the timer
when the stream is live; and the stop action, which enters WaitingForResult, leaves
the timer as it was. -/
theorem C30_timer_armed_only_early (env : Env) (hp : Passive env)
    (frameSize : Nat) (actions : List Action) (w1 : World)
    (h : run env actions (World.fresh frameSize) = .ok w1)
    (hearly : recordingStartsEarly env actions (World.fresh frameSize) = true) :
    (w1.sr.mSpeechDetectionTimer = true → timerMayBeArmed w1.sr.mCurrentState = true) ∧
    (∀ e w w2, Transition env e w = .ok w2 → w.sr.mCurrentState ≠ .STATE_RECOGNIZING →
      w2.sr.mCurrentState = .STATE_RECOGNIZING → w2.sr.mSpeechDetectionTimer = false) ∧
    (∀ stream w, (StartRecording stream w).sr.mCurrentState = w.sr.mCurrentState ∧
      (stream.hasStream = true → (StartRecording stream w).sr.mSpeechDetectionTimer = true)) ∧
    (∀ e w w2, StopRecordingAndRecognize env e w = .ok w2 →
      w2.sr.mCurrentState = .STATE_WAITING_FOR_RESULT ∧
        w2.sr.mSpeechDetectionTimer = w.sr.mSpeechDetectionTimer) := by
  refine ⟨?_, ?_, ?_, ?_⟩
  · exact run_keeps_timer env hp actions _ w1 h hearly (fun hn => by cases hn)
  · intro e w w2 hT hne hrec
    rcases Transition_outcome env hp e w w2 hT with
      ⟨h1, -, -⟩ | ⟨h1, -, -⟩ | ⟨h1, -⟩ | ⟨-, -, h3⟩ | ⟨-, -, h3⟩ | ⟨-, -, h2, -⟩
    · rw [h1] at hrec; cases hrec
    · exact absurd (h1 ▸ hrec) hne
    · rw [h1] at hrec; cases hrec
    · rcases h3 with h3 | h3 | h3 <;> (rw [h3] at hrec; cases hrec)
    · exact h3
    · exact absurd h2 hne
  · intro stream w
    cases hstream : stream.hasStream <;> simp [StartRecording, hstream]
  · intro e w w2 hstop
    unfold StopRecordingAndRecognize at hstop
    cases hb : w.sr.mRecognitionService with
    | none => simp [SetState, hb] at hstop
    | some svc =>
      simp only [SetState, hb] at hstop
      obtain ⟨-, rfl⟩ := StopRecording_ok env _ _ hstop
      simp [DispatchTrustedEvent, DispatchEvent, passive_sr hp]

/-- Witness of C30: a session is started, granted the capture and receives a frame;
it is in Estimating with the timer armed. -/
theorem C30_timer_armed_only_early_witness :
    ∃ w1, run quietEnv [.callStart, .startRecording ⟨true⟩, .dispatch,
        .post (audioEvent 160), .dispatch] (World.fresh 160) = .ok w1 ∧
      w1.sr.mCurrentState = .STATE_ESTIMATING ∧
      w1.sr.mSpeechDetectionTimer = true ∧
      timerMayBeArmed w1.sr.mCurrentState = true :=
  ⟨_, rfl, rfl, rfl,
    (C30_timer_armed_only_early quietEnv quietEnv_passive 160
      [.callStart, .startRecording ⟨true⟩, .dispatch, .post (audioEvent 160), .dispatch]
      _ rfl rfl).1 rfl⟩

/-- C30 as stated fails: a session that is started, granted the capture (timer
armed), receives a frame and is then stopped enters WaitingForResult with the timer
still armed; `StartRecording` was called in Idle. -/
theorem C30_timer_armed_in_waiting_for_result :
    ∃ w1, run quietEnv [.callStart, .startRecording ⟨true⟩, .dispatch,
        .post (audioEvent 160), .dispatch, .callStop, .dispatch] (World.fresh 160) = .ok w1 ∧
      recordingStartsEarly quietEnv [.callStart, .startRecording ⟨true⟩, .dispatch,
        .post (audioEvent 160), .dispatch, .callStop, .dispatch] (World.fresh 160) = true ∧
      w1.sr.mCurrentState = .STATE_WAITING_FOR_RESULT ∧
      w1.sr.mSpeechDetectionTimer = true :=
  ⟨_, rfl, rfl, rfl, rfl⟩


/-! ## The splitter and the assertions of the rechunker -/

/-- C39: for every frame size `F > 0` and every sample count `c` with
`c + F < 2 ^ 32`, `SplitSamplesBuffer` returns (any fuel above `c / F` is enough for
the loop of the model), appends exactly `c / F` chunks to the result, the `i`-th
holding the input samples `[i * F, (i + 1) * F)`, and returns the offset
`F * (c / F)`, which is at most `c` and leaves fewer than `F` samples unsplit. -/
theorem C39_SplitSamplesBuffer_spec (fuel : Nat) (sr : Session) (buf : List Int) (c : Nat)
    (acc : List SharedBuffer) (hF : 0 < sr.mAudioSamplesPerChunk)
    (hb : c + sr.mAudioSamplesPerChunk < UINT32_MOD)
    (hfuel : c / sr.mAudioSamplesPerChunk < fuel) :
    ∃ chunks, SplitSamplesBuffer fuel sr buf c acc =
        .ok (acc ++ chunks, sr.mAudioSamplesPerChunk * (c / sr.mAudioSamplesPerChunk)) ∧
      chunks.length = c / sr.mAudioSamplesPerChunk ∧
      (∀ i, i < c / sr.mAudioSamplesPerChunk →
        chunks[i]? = some ((buf.drop (i * sr.mAudioSamplesPerChunk)).take
          sr.mAudioSamplesPerChunk)) ∧
      sr.mAudioSamplesPerChunk * (c / sr.mAudioSamplesPerChunk) ≤ c ∧
      c - sr.mAudioSamplesPerChunk * (c / sr.mAudioSamplesPerChunk) <
        sr.mAudioSamplesPerChunk := by
  have h := splitLoop_spec sr.mAudioSamplesPerChunk hF buf c hb fuel 0 acc (Nat.zero_le _)
    (by simpa using hfuel)
  simp only [Nat.sub_zero, Nat.zero_add] at h
  refine ⟨_, h, by simp, ?_, Nat.mul_div_le _ _, ?_⟩
  · intro i hi
    simp [List.getElem?_map, List.getElem?_range hi]
  · have h1 := Nat.div_add_mod c sr.mAudioSamplesPerChunk
    have h2 := Nat.mod_lt c hF
    omega

/-- Witness of C39: ten samples are split in frames of 4. -/
theorem C39_SplitSamplesBuffer_spec_witness :
    ∃ chunks, SplitSamplesBuffer 3 (Session.fresh 4) [1, 2, 3, 4, 5, 6, 7, 8, 9, 10] 10 [] =
        .ok (chunks, 8) ∧
      chunks.length = 2 ∧ chunks[0]? = some [1, 2, 3, 4] ∧ chunks[1]? = some [5, 6, 7, 8] := by
  obtain ⟨chunks, h, hlen, hget, -⟩ := C39_SplitSamplesBuffer_spec 3 (Session.fresh 4)
    [1, 2, 3, 4, 5, 6, 7, 8, 9, 10] 10 [] (by decide) (by decide) (by decide)
  exact ⟨chunks, h.trans (by simp [Session.fresh]), hlen.trans (by decide),
    (hget 0 (by decide)).trans (by decide), (hget 1 (by decide)).trans (by decide)⟩


/-- What `FillSamplesBuffer` does when its two assertions hold: it copies exactly
`min count (F - buffered)` samples behind the retained ones, adds that number to the
retained count and returns it. -/
theorem FillSamplesBuffer_spec (sr : Session) (buf xs : List Int) (count : Nat)
    (hb : sr.mBufferedSamples < sr.mAudioSamplesPerChunk)
    (hF : sr.mAudioSamplesPerChunk < UINT32_MOD)
    (hbuf : sr.mAudioSamplesBuffer = some buf) :
    FillSamplesBuffer sr xs count = .ok
      ({ sr with
          mAudioSamplesBuffer := some
            (buf.take sr.mBufferedSamples ++
              xs.take (min count (sr.mAudioSamplesPerChunk - sr.mBufferedSamples)) ++
              buf.drop (sr.mBufferedSamples +
                min count (sr.mAudioSamplesPerChunk - sr.mBufferedSamples)))
          mBufferedSamples := sr.mBufferedSamples +
            min count (sr.mAudioSamplesPerChunk - sr.mBufferedSamples) },
        min count (sr.mAudioSamplesPerChunk - sr.mBufferedSamples)) := by
  have hm : (sr.mAudioSamplesPerChunk - sr.mBufferedSamples) % UINT32_MOD =
      sr.mAudioSamplesPerChunk - sr.mBufferedSamples := Nat.mod_eq_of_lt (by omega)
  have h2 := Nat.min_le_right count (sr.mAudioSamplesPerChunk - sr.mBufferedSamples)
  have hs : (sr.mBufferedSamples +
      min count (sr.mAudioSamplesPerChunk - sr.mBufferedSamples)) % UINT32_MOD =
      sr.mBufferedSamples + min count (sr.mAudioSamplesPerChunk - sr.mBufferedSamples) :=
    Nat.mod_eq_of_lt (by omega)
  unfold FillSamplesBuffer
  simp only [hb, not_true_eq_false, if_false, hbuf, hm, hs]

/-- After `FillSamplesBuffer` has returned, a retained buffer object exists. -/
theorem FillSamplesBuffer_buffer (sr sr1 : Session) (xs : List Int) (n copied : Nat)
    (h : FillSamplesBuffer sr xs n = .ok (sr1, copied)) :
    sr1.mAudioSamplesBuffer.isSome = true := by
  unfold FillSamplesBuffer at h
  split at h
  · cases h
  · split at h
    · cases h
    · simp only [Except.ok.injEq, Prod.mk.injEq] at h
      obtain ⟨rfl, -⟩ := h
      rfl

/-- The loop of the splitter fails in one way only: the fuel of the model runs out. -/
theorem splitLoop_fault (F : Nat) (buf : List Int) (count : Nat) :
    ∀ (fuel cs : Nat) (acc : List SharedBuffer) (f : Fault),
      SplitSamplesBufferLoop F buf count fuel cs acc = .error f → f = .outOfFuel := by
  intro fuel
  induction fuel with
  | zero =>
    intro cs acc f h
    simp only [SplitSamplesBufferLoop, Except.error.injEq] at h
    exact h.symm
  | succ fuel ih =>
    intro cs acc f h
    unfold SplitSamplesBufferLoop at h
    split at h
    · exact ih _ _ _ h
    · cases h

/-- Under the invariant the first block of `FeedAudioData` returns: the two
assertions of `FillSamplesBuffer` hold at the first call site. -/
theorem topOff_returns (sr : Session) (xs : List Int) (n : Nat)
    (hinv : sr.rechunkerInvariant) (hF : sr.mAudioSamplesPerChunk < UINT32_MOD) :
    ∃ sr1 idx chunks, FeedAudioData.topOff sr xs n = .ok (sr1, idx, chunks) ∧
      sr1.mAudioSamplesPerChunk = sr.mAudioSamplesPerChunk ∧ idx ≤ n ∧
      (0 < sr1.mBufferedSamples → sr1.mAudioSamplesBuffer.isSome = true) := by
  unfold FeedAudioData.topOff
  by_cases h0 : 0 < sr.mBufferedSamples
  · obtain ⟨buf, hbuf⟩ := Option.isSome_iff_exists.mp (hinv.2 h0)
    have hle := Nat.min_le_left n (sr.mAudioSamplesPerChunk - sr.mBufferedSamples)
    have hmod : min n (sr.mAudioSamplesPerChunk - sr.mBufferedSamples) % UINT32_MOD ≤ n :=
      Nat.le_trans (Nat.mod_le _ _) hle
    simp only [h0, if_true, FillSamplesBuffer_spec sr buf xs n hinv.1 hF hbuf]
    split
    · exact ⟨_, _, _, rfl, rfl, hmod, fun h => absurd h (Nat.lt_irrefl 0)⟩
    · exact ⟨_, _, _, rfl, rfl, hmod, fun _ => rfl⟩
  · simp only [h0, if_false]
    exact ⟨_, _, _, rfl, rfl, Nat.zero_le _, fun h => absurd h h0⟩

/-- The third block of `FeedAudioData` returns for every frame size `0 < F < 2 ^ 32`:
the two assertions of `FillSamplesBuffer` hold at the second call site; and a
retained buffer object exists afterwards if one existed before or samples remain. -/
theorem retain_returns (sr : Session) (xs : List Int) (n idx : Nat)
    (h0 : 0 < sr.mAudioSamplesPerChunk) (hF : sr.mAudioSamplesPerChunk < UINT32_MOD)
    (hbuf : 0 < sr.mBufferedSamples → sr.mAudioSamplesBuffer.isSome = true) :
    ∃ sr3, FeedAudioData.retain sr xs n idx = .ok sr3 ∧
      (0 < sr3.mBufferedSamples → sr3.mAudioSamplesBuffer.isSome = true) := by
  unfold FeedAudioData.retain
  by_cases hlt : idx < n
  · simp only [hlt, if_true]
    have hfill := FillSamplesBuffer_spec
      { sr with
        mBufferedSamples := 0
        mAudioSamplesBuffer := some (List.replicate sr.mAudioSamplesPerChunk 0) }
      (List.replicate sr.mAudioSamplesPerChunk 0) (xs.drop idx) ((n - idx) % UINT32_MOD)
      h0 hF rfl
    rw [hfill]
    exact ⟨_, rfl, fun _ => rfl⟩
  · simp only [hlt, if_false]
    exact ⟨_, rfl, hbuf⟩

/-- The second block of `FeedAudioData` fails in one way only: the fuel of the model
runs out. -/
theorem split_fault (fuel : Nat) (sr : Session) (xs : List Int) (n idx : Nat)
    (chunks : List SharedBuffer) (f : Fault)
    (h : FeedAudioData.split fuel sr xs n idx chunks = .error f) : f = .outOfFuel := by
  unfold FeedAudioData.split at h
  split at h
  · split at h
    · rename_i f1 hloop
      simp only [Except.error.injEq] at h
      subst h
      exact splitLoop_fault _ _ _ _ _ _ _ hloop
    · cases h
  · cases h

/-- The second block of `FeedAudioData` returns when the 32-bit sum does not wrap
and the fuel exceeds the number of samples. -/
theorem split_returns (fuel : Nat) (sr : Session) (xs : List Int) (n idx : Nat)
    (chunks : List SharedBuffer) (h0 : 0 < sr.mAudioSamplesPerChunk)
    (hb : n + sr.mAudioSamplesPerChunk < UINT32_MOD) (hfuel : n < fuel) :
    ∃ r, FeedAudioData.split fuel sr xs n idx chunks = .ok r := by
  unfold FeedAudioData.split
  by_cases hlt : idx < n
  · have hm : (n - idx) % UINT32_MOD = n - idx := Nat.mod_eq_of_lt (by omega)
    have hdiv : (n - idx - 0) / sr.mAudioSamplesPerChunk < fuel :=
      Nat.lt_of_le_of_lt (Nat.div_le_self _ _) (by omega)
    simp only [hlt, if_true, SplitSamplesBuffer, hm,
      splitLoop_spec sr.mAudioSamplesPerChunk h0 (xs.drop idx) (n - idx) (by omega) fuel 0
        chunks (Nat.zero_le _) hdiv]
    exact ⟨_, rfl⟩
  · simp only [hlt, if_false]
    exact ⟨_, rfl⟩

/-- Under the invariant `FeedAudioData` fails in one way only (the fuel of the
model runs out in the splitter), returns with a retained buffer object whenever
samples are retained, and does return when the 32-bit sum does not wrap. -/
theorem FeedAudioData_assertions (fuel : Nat) (xs : List Int) (n : Nat) (prov : Option Nat)
    (w : World) (hinv : w.sr.rechunkerInvariant) (h0 : 0 < w.sr.mAudioSamplesPerChunk)
    (hF : w.sr.mAudioSamplesPerChunk < UINT32_MOD) :
    (∀ f, FeedAudioData fuel xs n prov w = .error f → f = .outOfFuel) ∧
    (∀ w1, FeedAudioData fuel xs n prov w = .ok w1 →
      (0 < w1.sr.mBufferedSamples → w1.sr.mAudioSamplesBuffer.isSome = true)) ∧
    (n + w.sr.mAudioSamplesPerChunk < UINT32_MOD → n < fuel →
      ∃ w1, FeedAudioData fuel xs n prov w = .ok w1) := by
  obtain ⟨sr1, idx, chunks, htop, hF1, -, hbuf1⟩ := topOff_returns w.sr xs n hinv hF
  unfold FeedAudioData
  rw [htop]
  simp only
  refine ⟨?_, ?_, ?_⟩
  · intro f h
    split at h
    · rename_i f1 hsplit
      simp only [Except.error.injEq] at h
      subst h
      exact split_fault _ _ _ _ _ _ _ hsplit
    · rename_i idx2 chunks2 hsplit
      obtain ⟨sr3, hret, -⟩ := retain_returns sr1 xs n idx2 (by rw [hF1]; exact h0)
        (by rw [hF1]; exact hF) hbuf1
      rw [hret] at h
      cases h
  · intro w1 h
    split at h
    · cases h
    · rename_i idx2 chunks2 hsplit
      obtain ⟨sr3, hret, hbuf3⟩ := retain_returns sr1 xs n idx2 (by rw [hF1]; exact h0)
        (by rw [hF1]; exact hF) hbuf1
      rw [hret] at h
      simp only [Except.ok.injEq] at h
      subst h
      exact hbuf3
  · intro hb hfuel
    obtain ⟨r, hsplit⟩ := split_returns fuel sr1 xs n idx chunks (by rw [hF1]; exact h0)
      (by rw [hF1]; exact hb) hfuel
    rw [hsplit]
    obtain ⟨sr3, hret, -⟩ := retain_returns sr1 xs n r.1 (by rw [hF1]; exact h0)
      (by rw [hF1]; exact hF) hbuf1
    simp only [hret]
    exact ⟨_, rfl⟩

/-- C38: under the session invariant (fewer than `F` samples retained, and a retained
buffer object whenever samples are retained) with `0 < F`, frame size and sample
count being 32-bit values, `FeedAudioData` never fails an assertion of
`FillSamplesBuffer` nor meets a missing buffer at either call site (the only fault
of the model is the fuel of the splitter loop running out); `FillSamplesBuffer`
copies exactly `min count (F - buffered)` samples whenever its assertions hold;
whenever `FeedAudioData` returns, the invariant holds again; and it does return
when `n + F < 2 ^ 32`. -/
theorem C38_FillSamplesBuffer_assertions_hold (fuel : Nat) (xs : List Int) (n : Nat)
    (prov : Option Nat) (w : World) (hinv : w.sr.rechunkerInvariant)
    (h0 : 0 < w.sr.mAudioSamplesPerChunk) (hF : w.sr.mAudioSamplesPerChunk < UINT32_MOD)
    (hn : n < UINT32_MOD) :
    (∀ f, FeedAudioData fuel xs n prov w = .error f → f ≠ .assertion ∧ f ≠ .nullDeref) ∧
    (∀ (sr : Session) (buf ys : List Int) (count : Nat),
      sr.mBufferedSamples < sr.mAudioSamplesPerChunk →
      sr.mAudioSamplesPerChunk < UINT32_MOD → sr.mAudioSamplesBuffer = some buf →
      ∃ sr1, FillSamplesBuffer sr ys count =
          .ok (sr1, min count (sr.mAudioSamplesPerChunk - sr.mBufferedSamples)) ∧
        sr1.mBufferedSamples = sr.mBufferedSamples +
          min count (sr.mAudioSamplesPerChunk - sr.mBufferedSamples) ∧
        sr1.mAudioSamplesBuffer = some
          (buf.take sr.mBufferedSamples ++
            ys.take (min count (sr.mAudioSamplesPerChunk - sr.mBufferedSamples)) ++
            buf.drop (sr.mBufferedSamples +
              min count (sr.mAudioSamplesPerChunk - sr.mBufferedSamples)))) ∧
    (∀ w1, FeedAudioData fuel xs n prov w = .ok w1 →
      w1.sr.rechunkerInvariant ∧
        w1.sr.mAudioSamplesPerChunk = w.sr.mAudioSamplesPerChunk) ∧
    (n + w.sr.mAudioSamplesPerChunk < UINT32_MOD → n < fuel →
      ∃ w1, FeedAudioData fuel xs n prov w = .ok w1) := by
  obtain ⟨hfault, hbuf, hret⟩ := FeedAudioData_assertions fuel xs n prov w hinv h0 hF
  refine ⟨?_, ?_, ?_, hret⟩
  · intro f h
    rw [hfault f h]
    exact ⟨by decide, by decide⟩
  · intro sr buf ys count hb hFs hsome
    exact ⟨_, FillSamplesBuffer_spec sr buf ys count hb hFs hsome, rfl, rfl⟩
  · intro w1 h
    obtain ⟨h1, h2⟩ := FeedAudioData_keeps_count_below_frame fuel xs n prov w w1 hinv.1 hF hn h
    exact ⟨⟨h1, hbuf w1 h⟩, h2⟩

/-- Witness of C38: a session retaining three samples (frames of 4) is fed six. -/
theorem C38_FillSamplesBuffer_assertions_hold_witness :
    ∃ w1, FeedAudioData 7 [1, 2, 3, 4, 5, 6] 6 (some 1) retainingWorld = .ok w1 ∧
      w1.sr.rechunkerInvariant ∧ w1.sr.mBufferedSamples = 1 :=
  ⟨_, rfl,
    ((C38_FillSamplesBuffer_assertions_hold 7 [1, 2, 3, 4, 5, 6] 6 (some 1) retainingWorld
      ⟨by decide, fun _ => rfl⟩ (by decide) (by decide) (by decide)).2.2.1 _ rfl).1, rfl⟩


/-! ## Returning to Idle and moving along the chain of states -/

/-- What `Reset` leaves behind. -/
theorem Reset_spec (w : World) :
    (Reset w).sr.mCurrentState = .STATE_IDLE ∧
      (Reset w).sr.mRecognitionService = none ∧
      (Reset w).sr.mEstimationSamples = 0 ∧
      (Reset w).sr.mBufferedSamples = 0 ∧
      (Reset w).sr.mSpeechDetectionTimer = false ∧
      (Reset w).trace = w.trace ++ [.setState .STATE_IDLE, .timerCancel] := by
  simp [Reset, SetState, CancelTimer]

/-- Whatever the listeners do, a returning `AbortSilently` ends with `Reset` followed
by the delivery of `end`. -/
theorem AbortSilently_ends_with_reset (env : Env) (e : SpeechEvent) (w w1 : World)
    (h : AbortSilently env e w = .ok w1) :
    ∃ w3, w1 = DispatchTrustedEvent env "end" (Reset w3) := by
  unfold AbortSilently at h
  dsimp only at h
  split at h
  · split at h
    · cases h
    · rename_i w3 _
      injection h with h
      exact ⟨w3, by rw [← h]; rfl⟩
  · injection h with h
    exact ⟨_, by rw [← h]; rfl⟩

/-- The state in which each handler that can fail leaves the session, with passive
listeners. -/
theorem handler_states (env : Env) (hp : Passive env) (e : SpeechEvent) (w w1 : World) :
    (StartedAudioCapture env e w = .ok w1 → w1.sr.mCurrentState = .STATE_ESTIMATING) ∧
    (WaitForEstimation e w = .ok w1 → w1.sr.mCurrentState = .STATE_ESTIMATING ∨
      w1.sr.mCurrentState = .STATE_WAITING_FOR_SPEECH) ∧
    (DetectSpeech env e w = .ok w1 → w1.sr.mCurrentState = .STATE_WAITING_FOR_SPEECH ∨
      w1.sr.mCurrentState = .STATE_RECOGNIZING) ∧
    (WaitForSpeechEnd env e w = .ok w1 → w1.sr.mCurrentState = .STATE_RECOGNIZING ∨
      w1.sr.mCurrentState = .STATE_WAITING_FOR_RESULT) ∧
    (StopRecordingAndRecognize env e w = .ok w1 →
      w1.sr.mCurrentState = .STATE_WAITING_FOR_RESULT) := by
  refine ⟨fun h => (StartedAudioCapture_ok env hp e w w1 h).2, fun h => ?_, fun h => ?_,
    fun h => ?_, fun h => (StopRecordingAndRecognize_ok env hp e w w1 h).2⟩
  · obtain ⟨_, -, -, h3⟩ := WaitForEstimation_ok e w w1 h
    exact h3
  · obtain ⟨_, -, -, h3⟩ := DetectSpeech_ok env hp e w w1 h
    exact h3
  · obtain ⟨_, -, -, h3⟩ := WaitForSpeechEnd_ok env hp e w w1 h
    exact h3

/-- With passive listeners, a transition that returns in Idle from a non-Idle state
has reset the session, and it is one of the transitions of `returnsToIdle`. -/
theorem idle_return_passive (env : Env) (hp : Passive env) (e : SpeechEvent)
    (w w1 : World) (hne : w.sr.mCurrentState ≠ .STATE_IDLE)
    (h : Transition env e w = .ok w1) (hidle : w1.sr.mCurrentState = .STATE_IDLE) :
    w1.sr.mRecognitionService = none ∧
      w1.sr.mEstimationSamples = 0 ∧
      w1.sr.mBufferedSamples = 0 ∧
      w1.sr.mSpeechDetectionTimer = false ∧
      (∃ new, w1.trace = w.trace ++ new ∧ .timerCancel ∈ new) ∧
      ((w.sr.mCurrentState = .STATE_STARTING ∧ e.mType = .EVENT_STOP) ∨
        e.mType = .EVENT_ABORT ∨ isErrorType e.mType = true ∨
        e.mType = .EVENT_RECOGNITIONSERVICE_FINAL_RESULT) ∧
      returnsToIdle w.sr.mCurrentState e.mType = true := by
  have hst := handler_states env hp e w w1
  obtain ⟨s, hs⟩ : ∃ s, w.sr.mCurrentState = s := ⟨_, rfl⟩
  obtain ⟨t, ht⟩ : ∃ t, e.mType = t := ⟨_, rfl⟩
  have hcase : ((w1 = Reset w ∧ s = .STATE_STARTING ∧ t = .EVENT_STOP) ∨
      (AbortSilently env e w = .ok w1 ∧ t = .EVENT_ABORT) ∨
      (AbortError env e w = .ok w1 ∧ isErrorType t = true) ∨
      (w1 = NotifyFinalResult env e w ∧ t = .EVENT_RECOGNITIONSERVICE_FINAL_RESULT)) ∧
      returnsToIdle s t = true := by
    cases s <;> cases t <;> simp only [Transition, hs, ht] at h <;>
      first
      | exact absurd hs hne
      | (cases h; done)
      | exact ⟨Or.inr (Or.inl ⟨h, rfl⟩), rfl⟩
      | exact ⟨Or.inr (Or.inr (Or.inl ⟨h, rfl⟩)), rfl⟩
      | (injection h with h
         first
         | exact ⟨Or.inl ⟨h.symm, rfl, rfl⟩, rfl⟩
         | exact ⟨Or.inr (Or.inr (Or.inr ⟨h.symm, rfl⟩)), rfl⟩
         | (have hw : w = w1 := h
            rw [← hw] at hidle
            exact absurd hidle hne))
      | (have h5 := hst.1 h; rw [hidle] at h5; cases h5)
      | (have h5 := hst.2.1 h; rw [hidle] at h5; rcases h5 with h5 | h5 <;> cases h5)
      | (have h5 := hst.2.2.1 h; rw [hidle] at h5; rcases h5 with h5 | h5 <;> cases h5)
      | (have h5 := hst.2.2.2.1 h; rw [hidle] at h5; rcases h5 with h5 | h5 <;> cases h5)
      | (have h5 := hst.2.2.2.2 h; rw [hidle] at h5; cases h5)
  obtain ⟨hcase, hk⟩ := hcase
  rw [ht, hs]
  rcases hcase with ⟨rfl, c1, c2⟩ | ⟨h0, c⟩ | ⟨h0, c⟩ | ⟨rfl, c⟩
  · exact ⟨rfl, rfl, rfl, rfl, ⟨[.setState .STATE_IDLE, .timerCancel],
      by simp [Reset, SetState, CancelTimer], by simp⟩, Or.inl ⟨c1, c2⟩, hk⟩
  · obtain ⟨h1, -, h3, h4, h5, h6, -⟩ := AbortSilently_returned env hp e w w1 h0
    exact ⟨h3, h4, h5, h6, ⟨_, h1, by simp⟩, Or.inr (Or.inl c), hk⟩
  · obtain ⟨w0, hw0, rfl⟩ := AbortError_returned env e w w1 h0
    obtain ⟨h1, -, h3, h4, h5, h6, -⟩ := AbortSilently_returned env hp e w w0 hw0
    obtain ⟨acts, hacts, hmem⟩ : ∃ acts, w0.trace = w.trace ++ acts ∧
        Effect.timerCancel ∈ acts := ⟨_, h1, by simp⟩
    refine ⟨?_, ?_, ?_, ?_, ⟨acts ++ [.notify (.error e.mError)], ?_, ?_⟩,
      Or.inr (Or.inr (Or.inl c)), hk⟩
    · simpa [DispatchEvent, passive_sr hp] using h3
    · simpa [DispatchEvent, passive_sr hp] using h4
    · simpa [DispatchEvent, passive_sr hp] using h5
    · simpa [DispatchEvent, passive_sr hp] using h6
    · simp only [DispatchEvent, passive_trace hp, hacts, List.append_assoc]
    · simp [hmem]
  · refine ⟨?_, ?_, ?_, ?_, ⟨[.setState .STATE_IDLE, .timerCancel, .notify (.trusted "end"),
        .notify (.result e.mRecognitionResultList)], ?_, by simp⟩,
        Or.inr (Or.inr (Or.inr c)), hk⟩ <;>
      simp [NotifyFinalResult, ResetAndEnd, Reset, SetState, CancelTimer,
        DispatchTrustedEvent, DispatchEvent, passive_sr hp, passive_trace hp]

/-- Whatever the listeners do, a returning transition of `returnsToIdle` has run
`Reset` and, after it, has only delivered `end` and then `error` or `result`. -/
theorem returnsToIdle_resets (env : Env) (e : SpeechEvent) (w w1 : World)
    (h : Transition env e w = .ok w1)
    (hk : returnsToIdle w.sr.mCurrentState e.mType = true) :
    ∃ w3, w1 = Reset w3 ∨
      w1 = DispatchTrustedEvent env "end" (Reset w3) ∨
      w1 = DispatchEvent env (.error e.mError) (DispatchTrustedEvent env "end" (Reset w3)) ∨
      w1 = DispatchEvent env (.result e.mRecognitionResultList)
        (DispatchTrustedEvent env "end" (Reset w3)) := by
  have hsil : AbortSilently env e w = .ok w1 → ∃ w3, w1 = Reset w3 ∨
      w1 = DispatchTrustedEvent env "end" (Reset w3) ∨
      w1 = DispatchEvent env (.error e.mError) (DispatchTrustedEvent env "end" (Reset w3)) ∨
      w1 = DispatchEvent env (.result e.mRecognitionResultList)
        (DispatchTrustedEvent env "end" (Reset w3)) := by
    intro h0
    obtain ⟨w3, h3⟩ := AbortSilently_ends_with_reset env e w w1 h0
    exact ⟨w3, Or.inr (Or.inl h3)⟩
  have herr : AbortError env e w = .ok w1 → ∃ w3, w1 = Reset w3 ∨
      w1 = DispatchTrustedEvent env "end" (Reset w3) ∨
      w1 = DispatchEvent env (.error e.mError) (DispatchTrustedEvent env "end" (Reset w3)) ∨
      w1 = DispatchEvent env (.result e.mRecognitionResultList)
        (DispatchTrustedEvent env "end" (Reset w3)) := by
    intro h0
    obtain ⟨w0, h0, h1⟩ := AbortError_returned env e w w1 h0
    obtain ⟨w3, h3⟩ := AbortSilently_ends_with_reset env e w w0 h0
    exact ⟨w3, Or.inr (Or.inr (Or.inl (by rw [h1, h3])))⟩
  obtain ⟨s, hs⟩ : ∃ s, w.sr.mCurrentState = s := ⟨_, rfl⟩
  obtain ⟨t, ht⟩ : ∃ t, e.mType = t := ⟨_, rfl⟩
  rw [hs, ht] at hk
  cases s <;> cases t <;> simp only [Transition, hs, ht] at h <;>
    first
    | (cases hk; done)
    | (cases h; done)
    | exact hsil h
    | exact herr h
    | (injection h with h
       first
       | exact ⟨w, Or.inl h.symm⟩
       | exact ⟨w, Or.inr (Or.inr (Or.inr h.symm))⟩)

/-- C31 (amended): for a transition from a non-Idle state that returns, (1) whatever
the listeners do, if it is a STOP in Starting, an ABORT, a handled error or a final
result (in an active state), then `Reset` has run (no service attached, both counts
0, timer cancelled, state Idle) and after it the transition has only delivered `end`
and then `error` or `result`; (2) with listeners that leave the session alone, if
the transition ends in Idle then at its return no service is attached, both counts
are 0 and the timer is cancelled (its `Cancel` is among the actions), and the
transition is one of those four. -/
theorem C31_return_to_idle_resets (env : Env) (e : SpeechEvent)
    (w w1 : World) (hne : w.sr.mCurrentState ≠ .STATE_IDLE)
    (h : Transition env e w = .ok w1) :
    (returnsToIdle w.sr.mCurrentState e.mType = true →
      ∃ w0, w0.sr.mCurrentState = .STATE_IDLE ∧
        w0.sr.mRecognitionService = none ∧
        w0.sr.mEstimationSamples = 0 ∧
        w0.sr.mBufferedSamples = 0 ∧
        w0.sr.mSpeechDetectionTimer = false ∧
        (w1 = w0 ∨
          w1 = DispatchTrustedEvent env "end" w0 ∨
          w1 = DispatchEvent env (.error e.mError) (DispatchTrustedEvent env "end" w0) ∨
          w1 = DispatchEvent env (.result e.mRecognitionResultList)
            (DispatchTrustedEvent env "end" w0))) ∧
    (Passive env → w1.sr.mCurrentState = .STATE_IDLE →
      w1.sr.mRecognitionService = none ∧
        w1.sr.mEstimationSamples = 0 ∧
        w1.sr.mBufferedSamples = 0 ∧
        w1.sr.mSpeechDetectionTimer = false ∧
        (∃ new, w1.trace = w.trace ++ new ∧ .timerCancel ∈ new) ∧
        ((w.sr.mCurrentState = .STATE_STARTING ∧ e.mType = .EVENT_STOP) ∨
          e.mType = .EVENT_ABORT ∨ isErrorType e.mType = true ∨
          e.mType = .EVENT_RECOGNITIONSERVICE_FINAL_RESULT) ∧
        returnsToIdle w.sr.mCurrentState e.mType = true) := by
  refine ⟨fun hk => ?_, fun hp hidle => idle_return_passive env hp e w w1 hne h hidle⟩
  obtain ⟨w3, h3⟩ := returnsToIdle_resets env e w w1 h hk
  obtain ⟨r1, r2, r3, r4, r5, -⟩ := Reset_spec w3
  exact ⟨Reset w3, r1, r2, r3, r4, r5, h3⟩

/-- Witness of C31: an abort request while estimating, 4640 samples counted and the
timer armed, without listeners; and the same request with a listener of `end` that
calls `Start()`: the session is reset in the world `w0` in which `end` is
delivered. -/
theorem C31_return_to_idle_resets_witness :
    (∃ w1, Transition quietEnv { mType := .EVENT_ABORT } (estimatingAfter 4640) = .ok w1 ∧
      (estimatingAfter 4640).sr.mSpeechDetectionTimer = true ∧
      w1.sr.mRecognitionService = none ∧ w1.sr.mEstimationSamples = 0 ∧
      w1.sr.mBufferedSamples = 0 ∧ w1.sr.mSpeechDetectionTimer = false) ∧
    ∃ w1 w0, Transition restartOnEndEnv { mType := .EVENT_ABORT } (estimatingAfter 4640) =
        .ok w1 ∧
      returnsToIdle (estimatingAfter 4640).sr.mCurrentState .EVENT_ABORT = true ∧
      w0.sr.mCurrentState = .STATE_IDLE ∧ w0.sr.mRecognitionService = none ∧
      w0.sr.mEstimationSamples = 0 ∧ w0.sr.mBufferedSamples = 0 ∧
      w0.sr.mSpeechDetectionTimer = false ∧
      (w1 = w0 ∨
        w1 = DispatchTrustedEvent restartOnEndEnv "end" w0 ∨
        w1 = DispatchEvent restartOnEndEnv
          (.error ({ mType := .EVENT_ABORT } : SpeechEvent).mError)
          (DispatchTrustedEvent restartOnEndEnv "end" w0) ∨
        w1 = DispatchEvent restartOnEndEnv
          (.result ({ mType := .EVENT_ABORT } : SpeechEvent).mRecognitionResultList)
          (DispatchTrustedEvent restartOnEndEnv "end" w0)) := by
  have h := (C31_return_to_idle_resets quietEnv { mType := .EVENT_ABORT }
    (estimatingAfter 4640) _ (by decide) rfl).2 quietEnv_passive rfl
  obtain ⟨w0, h0⟩ := (C31_return_to_idle_resets restartOnEndEnv { mType := .EVENT_ABORT }
    (estimatingAfter 4640) _ (by decide) rfl).1 rfl
  exact ⟨⟨_, rfl, rfl, h.1, h.2.1, h.2.2.1, h.2.2.2.1⟩, _, w0, rfl, rfl, h0⟩

/-- C31 as stated fails: with a listener of `end` that calls `Start()`, an abort
request while estimating returns in Idle with a service attached again (and a start
request queued); the session had been reset when `end` was delivered. -/
theorem C31_end_listener_restarts :
    ∃ w1, Transition restartOnEndEnv { mType := .EVENT_ABORT } estimatingWorld = .ok w1 ∧
      estimatingWorld.sr.mCurrentState = .STATE_ESTIMATING ∧
      w1.sr.mCurrentState = .STATE_IDLE ∧
      w1.sr.mRecognitionService.isSome = true ∧
      w1.queue = [{ mType := .EVENT_START }] ∧
      notifications w1.trace = [.trusted "audioend", .trusted "end"] :=
  ⟨_, rfl, rfl, by decide, by decide, by decide, by decide⟩

/-- C32: for every non-Aborting state `s` and every event on which `Transition`
returns normally (passive listeners), the resulting state is Idle, `s` itself, the
immediate successor of `s` in the chain Idle, Starting, Estimating,
WaitingForSpeech, Recognizing, WaitingForResult, or WaitingForResult; it is never
Aborting and never an earlier non-Idle state. -/
theorem C32_state_moves_forward (env : Env) (hp : Passive env) (e : SpeechEvent)
    (w w1 : World) (hna : w.sr.mCurrentState ≠ .STATE_ABORTING)
    (h : Transition env e w = .ok w1) :
    (w1.sr.mCurrentState = .STATE_IDLE ∨ w1.sr.mCurrentState = w.sr.mCurrentState ∨
      w.sr.mCurrentState.successor = some w1.sr.mCurrentState ∨
      w1.sr.mCurrentState = .STATE_WAITING_FOR_RESULT) ∧
    w1.sr.mCurrentState ≠ .STATE_ABORTING ∧
    ¬ (w1.sr.mCurrentState ≠ .STATE_IDLE ∧
      w1.sr.mCurrentState.toNat < w.sr.mCurrentState.toNat) := by
  have hsil : AbortSilently env e w = .ok w1 → w1.sr.mCurrentState = .STATE_IDLE :=
    fun h0 => (AbortSilently_returned env hp e w w1 h0).2.1
  have herr : AbortError env e w = .ok w1 → w1.sr.mCurrentState = .STATE_IDLE := by
    intro h0
    obtain ⟨w0, hw0, rfl⟩ := AbortError_returned env e w w1 h0
    simpa [DispatchEvent, passive_sr hp] using (AbortSilently_returned env hp e w w0 hw0).2.1
  have hfin : (NotifyFinalResult env e w).sr.mCurrentState = .STATE_IDLE := by
    simp [NotifyFinalResult, ResetAndEnd, Reset, SetState, CancelTimer,
      DispatchTrustedEvent, DispatchEvent, passive_sr hp]
  have hst := handler_states env hp e w w1
  have hidle : w1.sr.mCurrentState = .STATE_IDLE →
      (w1.sr.mCurrentState = .STATE_IDLE ∨ w1.sr.mCurrentState = w.sr.mCurrentState ∨
        w.sr.mCurrentState.successor = some w1.sr.mCurrentState ∨
        w1.sr.mCurrentState = .STATE_WAITING_FOR_RESULT) ∧
      w1.sr.mCurrentState ≠ .STATE_ABORTING ∧
      ¬ (w1.sr.mCurrentState ≠ .STATE_IDLE ∧
        w1.sr.mCurrentState.toNat < w.sr.mCurrentState.toNat) := by
    intro h1
    exact ⟨Or.inl h1, by rw [h1]; decide, fun hc => hc.1 h1⟩
  obtain ⟨s, hs⟩ : ∃ s, w.sr.mCurrentState = s := ⟨_, rfl⟩
  obtain ⟨t, ht⟩ : ∃ t, e.mType = t := ⟨_, rfl⟩
  have hsame : w = w1 →
      (w1.sr.mCurrentState = .STATE_IDLE ∨ w1.sr.mCurrentState = w.sr.mCurrentState ∨
        w.sr.mCurrentState.successor = some w1.sr.mCurrentState ∨
        w1.sr.mCurrentState = .STATE_WAITING_FOR_RESULT) ∧
      w1.sr.mCurrentState ≠ .STATE_ABORTING ∧
      ¬ (w1.sr.mCurrentState ≠ .STATE_IDLE ∧
        w1.sr.mCurrentState.toNat < w.sr.mCurrentState.toNat) := by
    intro hw
    subst hw
    exact ⟨Or.inr (Or.inl rfl), hna, fun hc => Nat.lt_irrefl _ hc.2⟩
  have hgo : ∀ s1 : FSMState, w1.sr.mCurrentState = s1 → s1 ≠ .STATE_ABORTING →
      (s1 = s ∨ s.successor = some s1 ∨ s1 = .STATE_WAITING_FOR_RESULT) →
      s.toNat ≤ s1.toNat →
      (w1.sr.mCurrentState = .STATE_IDLE ∨ w1.sr.mCurrentState = w.sr.mCurrentState ∨
        w.sr.mCurrentState.successor = some w1.sr.mCurrentState ∨
        w1.sr.mCurrentState = .STATE_WAITING_FOR_RESULT) ∧
      w1.sr.mCurrentState ≠ .STATE_ABORTING ∧
      ¬ (w1.sr.mCurrentState ≠ .STATE_IDLE ∧
        w1.sr.mCurrentState.toNat < w.sr.mCurrentState.toNat) := by
    intro s1 h1 h2 h3 h4
    rw [h1, hs]
    exact ⟨Or.inr h3, h2, fun hc => absurd hc.2 (Nat.not_lt.mpr h4)⟩
  cases s <;> cases t <;> simp only [Transition, hs, ht] at h <;>
    first
    | exact absurd hs hna
    | (cases h; done)
    | exact hidle (hsil h)
    | exact hidle (herr h)
    | (injection h with h
       first
       | exact hsame h
       | exact hidle (h ▸ hfin)
       | exact hidle (h ▸ rfl)
       | exact hgo .STATE_STARTING (h ▸ rfl) (by decide) (Or.inr (Or.inl rfl)) (by decide))
    | exact hgo _ (hst.1 h) (by decide) (Or.inr (Or.inl rfl)) (by decide)
    | exact hgo _ (hst.2.2.2.2 h) (by decide) (Or.inr (Or.inr rfl)) (by decide)
    | (rcases hst.2.1 h with h5 | h5
       · exact hgo _ h5 (by decide) (Or.inl rfl) (by decide)
       · exact hgo _ h5 (by decide) (Or.inr (Or.inl rfl)) (by decide))
    | (rcases hst.2.2.1 h with h5 | h5
       · exact hgo _ h5 (by decide) (Or.inl rfl) (by decide)
       · exact hgo _ h5 (by decide) (Or.inr (Or.inl rfl)) (by decide))
    | (rcases hst.2.2.2.1 h with h5 | h5
       · exact hgo _ h5 (by decide) (Or.inl rfl) (by decide)
       · exact hgo _ h5 (by decide) (Or.inr (Or.inl rfl)) (by decide))

/-- Witness of C32: a stop request while estimating moves the session to
WaitingForResult. -/
theorem C32_state_moves_forward_witness :
    ∃ w1, Transition quietEnv { mType := .EVENT_STOP } estimatingWorld = .ok w1 ∧
      w1.sr.mCurrentState = .STATE_WAITING_FOR_RESULT ∧
      w1.sr.mCurrentState ≠ .STATE_ABORTING :=
  ⟨_, rfl, rfl,
    (C32_state_moves_forward quietEnv quietEnv_passive { mType := .EVENT_STOP }
      estimatingWorld _ (by decide) rfl).2.1⟩


/-! ## The constructor and the guard of `Start` -/

/-- C33 (the code departs from it): the constructor reads the long-speech length
from the preference of the speech-complete silence length,
`media.webspeech.silence_length`, with default 3000000; the preference
`media.webspeech.long_speech_length` is never read. So a profile that sets only
`media.webspeech.long_speech_length` (to 2000000) gets the long-speech length
3000000, and a profile that sets only `media.webspeech.silence_length` (to 700000)
gets both the silence length and the long-speech length 700000. -/
theorem C33_long_speech_length_reads_silence_length :
    (∀ GetInt : String → Int → Int,
      (Constructor.thresholds GetInt).long_speech_length =
        GetInt "media.webspeech.silence_length" 3000000) ∧
    (∀ GetInt GetInt2 : String → Int → Int,
      (∀ name default, name ≠ "media.webspeech.long_speech_length" →
        GetInt2 name default = GetInt name default) →
      Constructor.thresholds GetInt2 = Constructor.thresholds GetInt) ∧
    (Constructor.thresholds (prefsWith "media.webspeech.long_speech_length" 2000000)) =
      { speech_input_complete_silence_length := 500000
        long_speech_input_complete_silence_length := 1000000
        long_speech_length := 3000000 } ∧
    (Constructor.thresholds (prefsWith "media.webspeech.silence_length" 700000)) =
      { speech_input_complete_silence_length := 700000
        long_speech_input_complete_silence_length := 1000000
        long_speech_length := 700000 } := by
  refine ⟨fun _ => rfl, ?_, by decide, by decide⟩
  intro g g2 hsame
  simp only [Constructor.thresholds, PREFERENCE_ENDPOINTER_SILENCE_LENGTH,
    PREFERENCE_ENDPOINTER_LONG_SILENCE_LENGTH]
  rw [hsame _ _ (by decide), hsame _ _ (by decide), hsame _ _ (by decide)]

/-- C34: `Start()` throws the invalid-state error, posts no event and leaves the
session unchanged if and only if the state is not Idle: the guard
`!mCurrentState == STATE_IDLE`, with `STATE_IDLE = 0`, holds exactly when the state
is not `STATE_IDLE`, for every state value; in Idle, with a service that is found
and initialises, `Start()` attaches it, does not throw and posts exactly one start
request. -/
theorem C34_Start_guard (env : Env) (w : World) :
    (∀ s : FSMState,
      ((if s.toNat = 0 then 1 else 0) = FSMState.STATE_IDLE.toNat) ↔ s ≠ .STATE_IDLE) ∧
    (Start env w = { w with trace := w.trace ++ [.throwInvalidState] } ↔
      w.sr.mCurrentState ≠ .STATE_IDLE) ∧
    (w.sr.mCurrentState = .STATE_IDLE → ∀ service,
      env.do_GetService (GetRecognitionServiceCID env) = some service →
      env.initializeOk = true →
      (Start env w).sr = { w.sr with mRecognitionService := some service } ∧
        (Start env w).queue = w.queue ++ [{ mType := .EVENT_START }] ∧
        (∃ new, (Start env w).trace = w.trace ++ new ∧ Effect.throwInvalidState ∉ new)) := by
  refine ⟨?_, ?_, ?_⟩
  · intro s
    cases s <;> simp [FSMState.toNat]
  · constructor
    · intro h hidle
      have htr := congrArg World.trace h
      cases hg : env.do_GetService (GetRecognitionServiceCID env) <;>
        cases hi : env.initializeOk <;> cases hf : env.mFakeFSMEvents <;>
        simp [Start, hg, hi, hf, hidle, FSMState.toNat] at htr
    · intro hne
      obtain ⟨s, hs⟩ : ∃ s, w.sr.mCurrentState = s := ⟨_, rfl⟩
      cases s <;> first
        | exact absurd hs hne
        | simp [Start, hs, FSMState.toNat]
  · intro hidle service hg hi
    cases hf : env.mFakeFSMEvents
    · refine ⟨?_, ?_, [.serviceInit, .getUserMedia], ?_, by simp⟩ <;>
        simp [Start, hg, hi, hf, hidle, FSMState.toNat]
    · refine ⟨?_, ?_, [.serviceInit], ?_, by simp⟩ <;>
        simp [Start, hg, hi, hf, hidle, FSMState.toNat]

/-- Witness of C34: `Start()` on a session that is estimating, and on a fresh one. -/
theorem C34_Start_guard_witness :
    Start quietEnv estimatingWorld =
        { estimatingWorld with trace := [.throwInvalidState] } ∧
      (Start quietEnv (World.fresh 160)).queue = [{ mType := .EVENT_START }] ∧
      (Start quietEnv (World.fresh 160)).sr.mRecognitionService =
        some "@mozilla.org/webspeech/service;1?name=fake" := by
  have h := C34_Start_guard quietEnv estimatingWorld
  have h2 := (C34_Start_guard quietEnv (World.fresh 160)).2.2 rfl _ rfl rfl
  exact ⟨h.2.1.mpr (by decide), h2.2.1, by rw [h2.1]; rfl⟩


/-! ## Runs of API calls and dispatches -/

/-- C35 (the code departs from it): on a fresh session `Start()` is called twice
before any event is dispatched. Both calls pass the guard (the state is Idle until
the first start request is dispatched), so two start requests are queued; the first
moves the session to Starting, and the dispatch of the second reaches the
unreachable branch of `Transition`. -/
theorem C35_second_start_reaches_unreachable_branch :
    (∃ w1, run quietEnv [.callStart, .callStart] (World.fresh 160) = .ok w1 ∧
      w1.sr.mCurrentState = .STATE_IDLE ∧
      Effect.throwInvalidState ∉ w1.trace ∧
      w1.queue = [{ mType := .EVENT_START }, { mType := .EVENT_START }]) ∧
    (∃ w2, run quietEnv [.callStart, .callStart, .dispatch] (World.fresh 160) = .ok w2 ∧
      w2.sr.mCurrentState = .STATE_STARTING ∧ w2.queue = [{ mType := .EVENT_START }]) ∧
    run quietEnv [.callStart, .callStart, .dispatch, .dispatch] (World.fresh 160) =
      .error .notReached :=
  ⟨⟨_, rfl, rfl, by decide, rfl⟩, ⟨_, rfl, rfl, rfl⟩, rfl⟩

/-- C36 (the code departs from it): on a fresh session the page calls `Start()`,
`Abort()` and `Start()` before any event is dispatched. The three requests are
dispatched in order: the abort request resets the session, which detaches the
service, and the second start request enters Starting with no service attached.
The capture is granted, a frame of 4 samples is fed (the frame size of the session
is 4), and the dispatch of its audio event dereferences the missing service in
`ProcessAudioSegment`. -/
theorem C36_audio_meets_detached_service :
    (∃ w1, run quietEnv [.callStart, .callAbort, .callStart, .dispatch, .dispatch,
        .dispatch] (World.fresh 4) = .ok w1 ∧
      w1.sr.mCurrentState = .STATE_STARTING ∧ w1.sr.mRecognitionService = none ∧
      w1.queue = []) ∧
    (∃ w2 event, run quietEnv [.callStart, .callAbort, .callStart, .dispatch, .dispatch,
        .dispatch, .startRecording ⟨true⟩, .feed 2 [1, 2, 3, 4] none]
        (World.fresh 4) = .ok w2 ∧
      w2.queue = [event] ∧ event.mType = .EVENT_AUDIO_DATA ∧
      event.mAudioSegment.length = 1) ∧
    run quietEnv [.callStart, .callAbort, .callStart, .dispatch, .dispatch, .dispatch,
      .startRecording ⟨true⟩, .feed 2 [1, 2, 3, 4] none, .dispatch]
      (World.fresh 4) = .error .nullDeref :=
  ⟨⟨_, rfl, rfl, rfl, rfl⟩, ⟨_, _, rfl, rfl, rfl, rfl⟩, rfl⟩


/-! ## Where the audio of an event goes -/

/-- Where the audio of an event goes, with passive listeners: if the event is
processed in Starting, Estimating, WaitingForSpeech or Recognizing with a service
attached (and, in Recognizing, the stream held, which the stop action at the end of
speech needs), each chunk of its segment is fed to the detector exactly once, in
order, and the whole segment is handed to the service exactly once;
`ProcessAudioSegment` returns the sum of the chunks' durations in 32 bits (the sum
itself when it is below `2 ^ 32`); the estimation counter grows by that number in
Starting and Estimating and is unchanged in WaitingForSpeech and Recognizing; if the
event is processed in Idle, WaitingForResult or Aborting, the session is unchanged
and neither the detector nor the service receives anything. -/
theorem audio_reaches_detector_and_service (env : Env) (hp : Passive env)
    (e : SpeechEvent) (w : World) (ht : e.mType = .EVENT_AUDIO_DATA) :
    (∀ w0 : World, w0.sr.mRecognitionService.isSome = true →
      ∃ w2, ProcessAudioSegment e.mAudioSegment w0 =
          .ok (w2, segmentDuration e.mAudioSegment % UINT32_MOD) ∧
        w2.sr.mEndpointer.frames = w0.sr.mEndpointer.frames ++ e.mAudioSegment ∧
        w2.trace = w0.trace ++ [.serviceProcessAudioSegment e.mAudioSegment] ∧
        (segmentDuration e.mAudioSegment < UINT32_MOD →
          segmentDuration e.mAudioSegment % UINT32_MOD = segmentDuration e.mAudioSegment)) ∧
    (w.sr.mRecognitionService.isSome = true →
      (w.sr.mCurrentState = .STATE_STARTING ∨ w.sr.mCurrentState = .STATE_ESTIMATING ∨
        w.sr.mCurrentState = .STATE_WAITING_FOR_SPEECH ∨
        w.sr.mCurrentState = .STATE_RECOGNIZING) →
      (w.sr.mCurrentState = .STATE_RECOGNIZING → w.sr.streamHeld = true) →
      ∃ w1 new, Transition env e w = .ok w1 ∧ w1.trace = w.trace ++ new ∧
        w1.sr.mEndpointer.frames = w.sr.mEndpointer.frames ++ e.mAudioSegment ∧
        servedSegments new = [e.mAudioSegment] ∧
        w1.sr.mEstimationSamples =
          if w.sr.mCurrentState = .STATE_STARTING ∨ w.sr.mCurrentState = .STATE_ESTIMATING
          then (w.sr.mEstimationSamples + segmentDuration e.mAudioSegment) % UINT32_MOD
          else w.sr.mEstimationSamples) ∧
    ((w.sr.mCurrentState = .STATE_IDLE ∨ w.sr.mCurrentState = .STATE_WAITING_FOR_RESULT ∨
        w.sr.mCurrentState = .STATE_ABORTING) → Transition env e w = .ok w) := by
  refine ⟨?_, ?_, ?_⟩
  · intro w0 hb0
    exact ⟨_, ProcessAudioSegment_attached _ _ hb0, rfl, rfl, Nat.mod_eq_of_lt⟩
  · intro hb hstate hheld
    obtain ⟨svc, hsvc⟩ := Option.isSome_iff_exists.mp hb
    rcases hstate with hs | hs | hs | hs
    · simp only [Transition, hs, ht, StartedAudioCapture, ProcessAudioSegment_attached, hb,
        SetState, DispatchTrustedEvent, DispatchEvent, passive_sr hp, if_true]
      refine ⟨_, [.setState .STATE_ESTIMATING,
        .serviceProcessAudioSegment e.mAudioSegment, .notify (.trusted "audiostart"),
        .notify (.trusted "start")], rfl, ?_, ?_, ?_, ?_⟩ <;>
      simp [passive_sr hp, passive_trace hp, servedSegments]
    · simp only [Transition, hs, ht, WaitForEstimation, ProcessAudioSegment_attached, hb,
        SetState]
      split
      · refine ⟨_, [.setState .STATE_ESTIMATING,
          .serviceProcessAudioSegment e.mAudioSegment,
          .setState .STATE_WAITING_FOR_SPEECH], rfl, ?_, ?_, ?_, ?_⟩ <;>
        simp [servedSegments]
      · refine ⟨_, [.setState .STATE_ESTIMATING,
          .serviceProcessAudioSegment e.mAudioSegment], rfl, ?_, ?_, ?_, ?_⟩ <;>
        simp [servedSegments]
    · simp only [Transition, hs, ht, DetectSpeech, ProcessAudioSegment_attached, hb,
        SetState, CancelTimer, DispatchTrustedEvent, DispatchEvent]
      split
      · refine ⟨_, [.setState .STATE_WAITING_FOR_SPEECH,
          .serviceProcessAudioSegment e.mAudioSegment, .timerCancel,
          .setState .STATE_RECOGNIZING, .notify (.trusted "speechstart")],
          rfl, ?_, ?_, ?_, ?_⟩ <;>
        simp [passive_sr hp, passive_trace hp, servedSegments]
      · refine ⟨_, [.setState .STATE_WAITING_FOR_SPEECH,
          .serviceProcessAudioSegment e.mAudioSegment], rfl, ?_, ?_, ?_, ?_⟩ <;>
        simp [servedSegments]
    · simp only [Transition, hs, ht, WaitForSpeechEnd, ProcessAudioSegment_attached, hb,
        SetState, DispatchTrustedEvent, DispatchEvent, passive_sr hp, if_true]
      split
      · obtain ⟨stream, hst, hhas⟩ := (streamHeld_iff _).mp (hheld hs)
        simp only [StopRecordingAndRecognize, SetState, passive_sr hp, hsvc, StopRecording,
          DispatchTrustedEvent, DispatchEvent, hst, hhas, not_true_eq_false, if_false]
        refine ⟨_, [.setState .STATE_RECOGNIZING,
          .serviceProcessAudioSegment e.mAudioSegment, .notify (.trusted "speechend"),
          .setState .STATE_WAITING_FOR_RESULT, .serviceSoundEnd, .removeListener,
          .notify (.trusted "audioend")], rfl, ?_, ?_, ?_, ?_⟩ <;>
        simp [passive_sr hp, passive_trace hp, servedSegments]
      · refine ⟨_, [.setState .STATE_RECOGNIZING,
          .serviceProcessAudioSegment e.mAudioSegment], rfl, ?_, ?_, ?_, ?_⟩ <;>
        simp [servedSegments]
  · intro hstate
    rcases hstate with hs | hs | hs <;> simp [Transition, hs, ht, DoNothing]

/-- C37 (the code departs from it): on a fresh session the page calls `Start()`,
`Stop()` and `Start()` before any event is dispatched. The stop request, dispatched
in Starting, resets the session, which detaches the service; the second start
request enters Starting with no service attached. The capture is granted and a frame
of 4 samples is fed (the frame size is 4): one audio event with a segment of one
chunk is queued. It is processed in Starting, and `ProcessAudioSegment` dereferences
the missing service: the segment is not handed to the service and the transition
does not return. -/
theorem C37_audio_in_starting_without_service :
    (∃ w1 event, run quietEnv [.callStart, .callStop, .callStart, .dispatch, .dispatch,
        .dispatch, .startRecording ⟨true⟩, .feed 2 [1, 2, 3, 4] none]
        (World.fresh 4) = .ok w1 ∧
      w1.sr.mCurrentState = .STATE_STARTING ∧ w1.sr.mRecognitionService = none ∧
      w1.queue = [event] ∧ event.mType = .EVENT_AUDIO_DATA ∧
      event.mAudioSegment.length = 1 ∧
      ProcessAudioSegment event.mAudioSegment w1 = .error .nullDeref ∧
      Transition quietEnv event w1 = .error .nullDeref) ∧
    run quietEnv [.callStart, .callStop, .callStart, .dispatch, .dispatch, .dispatch,
      .startRecording ⟨true⟩, .feed 2 [1, 2, 3, 4] none, .dispatch]
      (World.fresh 4) = .error .nullDeref :=
  ⟨⟨_, _, rfl, rfl, rfl, rfl, rfl, rfl, rfl, rfl⟩, rfl⟩

end SpeechRecognition
